import Mathlib

/-! The change notification path of users-microservice.

A shallow embedding of the change-topic codec (`internal/pubsub/nats.go`), the
wire conversion of change events (`internal/types/subscription.go`) and the
domain service (`internal/domain/service.go`), with the properties proved about
them.

Go strings are embedded as Lean strings, one character per byte (every string
the code builds here is ASCII).  A Go function returning `(T, error)` is a
function into `T × Option GoError`, `none` being the nil error.
-/

namespace UsersMicroservice

/-- A Go `byte`. -/
abbrev Byte := Fin 256

/-! ## Go errors -/

/-- The error values the code builds: `errors.New(msg)`, `fmt.Errorf(msg + "%w", err)`
and `errors.Join(a, b)` (every `errors.Join` of the repository has two non-nil
arguments).  Two errors are the same value when they are built the same way. -/
inductive GoError where
  | new (msg : String)
  | wrap (msg : String) (err : GoError)
  | join (a b : GoError)
deriving DecidableEq, Repr

/-- Go `errors.Is(err, target)` for non-nil `err` and `target`: `err` is the
target, or the error it unwraps to is, or one of the joined errors is. -/
def errorsIs : GoError → GoError → Bool
  | .new msg, target => decide (GoError.new msg = target)
  | .wrap msg err, target => decide (GoError.wrap msg err = target) || errorsIs err target
  | .join a b, target =>
      decide (GoError.join a b = target) || (errorsIs a target || errorsIs b target)

deriving instance DecidableEq for Except

/-! ## github.com/google/uuid

The library functions the code calls: `UUID.String`, `Parse` and `New`. -/

namespace uuid

/-- Go `uuid.UUID`, a `[16]byte`: the bytes `uuid[0]` to `uuid[15]`. -/
structure UUID where
  b0 : Byte
  b1 : Byte
  b2 : Byte
  b3 : Byte
  b4 : Byte
  b5 : Byte
  b6 : Byte
  b7 : Byte
  b8 : Byte
  b9 : Byte
  b10 : Byte
  b11 : Byte
  b12 : Byte
  b13 : Byte
  b14 : Byte
  b15 : Byte
deriving DecidableEq, Repr

/-- Go `uuid.Nil`, the all-zero UUID. -/
def Nil : UUID := ⟨0, 0, 0, 0, 0, 0, 0, 0, 0, 0, 0, 0, 0, 0, 0, 0⟩

/-- The table `"0123456789abcdef"` of `encoding/hex`. -/
def hextable : List Char :=
  ['0', '1', '2', '3', '4', '5', '6', '7', '8', '9', 'a', 'b', 'c', 'd', 'e', 'f']

/-- The first digit `hextable[v>>4]` that `hex.Encode` writes for the byte `v`. -/
def hexHi (v : Byte) : Char := hextable.getD (v.val >>> 4) '0'

/-- The second digit `hextable[v&0x0f]` that `hex.Encode` writes for the byte `v`. -/
def hexLo (v : Byte) : Char := hextable.getD (v.val &&& 0x0f) '0'

/-- Go `encodeHex`: the 36 characters `xxxxxxxx-xxxx-xxxx-xxxx-xxxxxxxxxxxx`, two
digits for each byte and a hyphen at the positions 8, 13, 18 and 23. -/
def encodeHex (u : UUID) : List Char :=
  [hexHi u.b0, hexLo u.b0, hexHi u.b1, hexLo u.b1, hexHi u.b2, hexLo u.b2, hexHi u.b3, hexLo u.b3,
   '-', hexHi u.b4, hexLo u.b4, hexHi u.b5, hexLo u.b5,
   '-', hexHi u.b6, hexLo u.b6, hexHi u.b7, hexLo u.b7,
   '-', hexHi u.b8, hexLo u.b8, hexHi u.b9, hexLo u.b9,
   '-', hexHi u.b10, hexLo u.b10, hexHi u.b11, hexLo u.b11, hexHi u.b12, hexLo u.b12,
   hexHi u.b13, hexLo u.b13, hexHi u.b14, hexLo u.b14, hexHi u.b15, hexLo u.b15]

/-- Go `UUID.String`, the canonical string form. -/
def UUID.String (u : UUID) : String := ⟨encodeHex u⟩

/-- The table `xvalues` of the uuid package: the value of a hexadecimal digit,
255 for every other byte. -/
def xvalues (c : Char) : Nat :=
  if '0' ≤ c ∧ c ≤ '9' then c.toNat - '0'.toNat
  else if 'A' ≤ c ∧ c ≤ 'F' then c.toNat - 'A'.toNat + 10
  else if 'a' ≤ c ∧ c ≤ 'f' then c.toNat - 'a'.toNat + 10
  else 255

/-- Go `xtob`: two hexadecimal digits to a byte, `none` when `ok` is false. -/
def xtob (x1 x2 : Char) : Option Byte :=
  let b1 := xvalues x1
  let b2 := xvalues x2
  if b1 ≠ 255 ∧ b2 ≠ 255 then some (Fin.ofNat ((b1 <<< 4) ||| b2)) else none

/-- The byte `xtob(s[x], s[x+1])`. -/
def xtobAt (s : List Char) (x : Nat) : Option Byte :=
  match s[x]?, s[x + 1]? with
  | some x1, some x2 => xtob x1 x2
  | _, _ => none

/-- The loop `for i, x := range offsets { v, ok := xtob(s[x], s[x+1]); ... uuid[i] = v }`:
the bytes read at the given offsets, `none` as soon as one `xtob` fails. -/
def xtobAll (s : List Char) : List Nat → Option (List Byte)
  | [] => some []
  | x :: xs =>
    match xtobAt s x with
    | none => none
    | some v => (xtobAll s xs).map (v :: ·)

/-- Sixteen bytes as a UUID. -/
def fromBytes : List Byte → Option UUID
  | [a0, a1, a2, a3, a4, a5, a6, a7, a8, a9, a10, a11, a12, a13, a14, a15] =>
      some ⟨a0, a1, a2, a3, a4, a5, a6, a7, a8, a9, a10, a11, a12, a13, a14, a15⟩
  | _ => none

/-- The error `errors.New("invalid UUID format")` of `uuid.Parse`. -/
def errInvalidFormat : GoError := .new "invalid UUID format"

/-- The tail of `uuid.Parse` on a string of at least 36 characters of the form
`xxxxxxxx-xxxx-xxxx-xxxx-xxxxxxxxxxxx`. -/
def parseCanonical (s : List Char) : Except GoError UUID :=
  if s[8]? ≠ some '-' ∨ s[13]? ≠ some '-' ∨ s[18]? ≠ some '-' ∨ s[23]? ≠ some '-' then
    .error errInvalidFormat
  else
    match (xtobAll s [0, 2, 4, 6, 9, 11, 14, 16, 19, 21, 24, 26, 28, 30, 32, 34]).bind
        fromBytes with
    | some u => .ok u
    | none => .error errInvalidFormat

/-- Go `uuid.Parse`: the forms `xxxxxxxx-xxxx-xxxx-xxxx-xxxxxxxxxxxx` (36),
`urn:uuid:` followed by it (45), the same between two more characters (38) and
32 hexadecimal digits.  The message of the urn error gives the first nine
characters without the quoting of `%q`. -/
def Parse (str : String) : Except GoError UUID :=
  let s := str.data
  if s.length = 36 then parseCanonical s
  else if s.length = 36 + 9 then
    if (s.take 9).map Char.toLower = "urn:uuid:".data then parseCanonical (s.drop 9)
    else .error (.new ("invalid urn prefix: " ++ String.mk (s.take 9)))
  else if s.length = 36 + 2 then parseCanonical (s.drop 1)
  else if s.length = 32 then
    match (xtobAll s ((List.range 16).map (· * 2))).bind fromBytes with
    | some u => .ok u
    | none => .error errInvalidFormat
  else .error (.new ("invalid UUID length: " ++ toString s.length))

/-- Go `uuid.New` (`NewRandom`) on the 16 bytes read from the random source:
the version is set to 4 and the variant to 10. -/
def New (rnd : UUID) : UUID :=
  { rnd with
    b6 := Fin.ofNat ((rnd.b6.val &&& 0x0f) ||| 0x40)
    b8 := Fin.ofNat ((rnd.b8.val &&& 0x3f) ||| 0x80) }

end uuid

/-! ## Package generated (protobuf) -/

namespace generated

/-- Modelled from the spec: the generated table `UserChangeType_value` of the
protobuf enum `UserChangeType` (package `generated` is not among the sources).
The enum has the values CREATED, UPDATED, DELETED and UNKNOWN (spec §3, §6);
they are numbered here in the order of the constants of
`internal/types/subscription.go`, and nothing proved below depends on the
numbers beyond their being distinct. -/
def UserChangeType_value : List (String × Int) :=
  [("UNKNOWN", 0), ("CREATED", 1), ("UPDATED", 2), ("DELETED", 3)]

/-- Go map lookup `v, ok := UserChangeType_value[s]`, `none` when `ok` is false. -/
def UserChangeType_value_lookup (s : String) : Option Int :=
  (UserChangeType_value.find? (fun e => e.1 = s)).map (·.2)

/-- Modelled from the spec: `UserChangeType.String()` of the generated enum, the
name of a defined value and the decimal number of any other (the behaviour of
every protobuf-generated Go enum). -/
def UserChangeType.String (x : Int) : String :=
  match UserChangeType_value.find? (fun e => e.2 = x) with
  | some e => e.1
  | none => toString x

/-- Modelled from the spec: the generated wire message `SubscriptionMessage`,
`{ userId: string, changeType: enum }` (spec §6), the enum by its number. -/
structure SubscriptionMessage where
  UserId : String
  ChangeType : Int
deriving DecidableEq, Repr

/-- Modelled from the spec: the generated wire message `SubscriptionResponse`, the
envelope that carries a `SubscriptionMessage` in its field `Update` (spec §6;
the field is named by `SubscriptionPayload.Proto`); a nil pointer is `none`. -/
structure SubscriptionResponse where
  Update : Option SubscriptionMessage
deriving DecidableEq, Repr

/-- Modelled from the spec: the generated getter `GetUpdate`, nil on a nil
receiver as every protobuf-generated Go getter. -/
def SubscriptionResponse.GetUpdate (x : Option SubscriptionResponse) : Option SubscriptionMessage :=
  x.bind (·.Update)

/-- Modelled from the spec: the generated getter `GetUserId`, the empty string on
a nil receiver. -/
def SubscriptionMessage.GetUserId (x : Option SubscriptionMessage) : String :=
  match x with
  | some m => m.UserId
  | none => ""

/-- Modelled from the spec: the generated getter `GetChangeType`, the enum value
numbered 0 on a nil receiver. -/
def SubscriptionMessage.GetChangeType (x : Option SubscriptionMessage) : Int :=
  match x with
  | some m => m.ChangeType
  | none => 0

end generated

/-! ## Package types -/

namespace types

open uuid (UUID)

/-- Go `ErrInvalidUserId`. -/
def ErrInvalidUserId : GoError := .new "invalid userId"
/-- Go `ErrDuplicateUserId`. -/
def ErrDuplicateUserId : GoError := .new "duplicate userId"
/-- Go `ErrNotFound`. -/
def ErrNotFound : GoError := .new "not found"
/-- Go `ErrUnknownError`. -/
def ErrUnknownError : GoError := .new "unknown error"

/-- Go `type UserChangeType string`. -/
abbrev UserChangeType := String

def UserChangeTypeUnknown : UserChangeType := "UNKNOWN"
def UserChangeTypeCreated : UserChangeType := "CREATED"
def UserChangeTypeUpdated : UserChangeType := "UPDATED"
def UserChangeTypeDeleted : UserChangeType := "DELETED"

/-- Go `UserChangeTypeFromString`. -/
def UserChangeTypeFromString (s : String) : UserChangeType :=
  if [UserChangeTypeUnknown, UserChangeTypeCreated, UserChangeTypeUpdated,
      UserChangeTypeDeleted].contains s then s
  else UserChangeTypeUnknown

/-- Go `SubscriptionPayload`, a change event. -/
structure SubscriptionPayload where
  UserId : UUID
  Change : UserChangeType
deriving DecidableEq, Repr

/-- Go `SubscriptionPayload.Proto`: the wire message and `ok`. -/
def SubscriptionPayload.Proto (sr : SubscriptionPayload) :
    Option generated.SubscriptionResponse × Bool :=
  if sr.UserId = uuid.Nil then (none, false)
  else
    match generated.UserChangeType_value_lookup sr.Change with
    | none => (none, false)
    | some s => (some { Update := some { UserId := sr.UserId.String, ChangeType := s } }, true)

/-- Go `SubscriptionPayloadFromProto`. -/
def SubscriptionPayloadFromProto (inp : Option generated.SubscriptionResponse) :
    SubscriptionPayload × Option GoError :=
  match inp with
  | none => (⟨uuid.Nil, ""⟩, none)
  | some _ =>
    match uuid.Parse (generated.SubscriptionMessage.GetUserId
        (generated.SubscriptionResponse.GetUpdate inp)) with
    | .error err => (⟨uuid.Nil, ""⟩, some err)
    | .ok id =>
      (⟨id, UserChangeTypeFromString (generated.UserChangeType.String
          (generated.SubscriptionMessage.GetChangeType
            (generated.SubscriptionResponse.GetUpdate inp)))⟩, none)

/-- Go `SubscriptionRequest`, a subscription filter; a nil pointer is `none`. -/
structure SubscriptionRequest where
  UserId : Option UUID
  Change : Option UserChangeType
deriving DecidableEq, Repr

/-- Go `time.Time`, an instant, in nanoseconds since the Unix epoch. -/
abbrev Time := Int

/-- Go `User`. -/
structure User where
  Id : UUID
  FirstName : String
  LastName : String
  Nickname : String
  Email : String
  Password : String
  Country : String
  CreatedAt : Time
  UpdatedAt : Option Time
deriving DecidableEq, Repr

/-- Go `UpdateUserFields`; a nil pointer is `none`. -/
structure UpdateUserFields where
  FirstName : Option String
  LastName : Option String
  Nickname : Option String
  Email : Option String
  Password : Option String
  Country : Option String
deriving DecidableEq, Repr

/-- Go `TimeFilter`. -/
structure TimeFilter where
  Before : Option Time
  After : Option Time
deriving DecidableEq, Repr

/-- Go `UserFilter`. -/
structure UserFilter where
  Ids : List UUID
  FirstName : String
  LastName : String
  Nickname : String
  Email : String
  Countries : List String
  Created : Option TimeFilter
  Updated : Option TimeFilter
deriving DecidableEq, Repr

/-- Go `Paging` (`int64` fields). -/
structure Paging where
  Offset : Int
  Limit : Int
deriving DecidableEq, Repr

end types

/-- The outcome of running a method against its collaborators: what it returned,
the collaborators afterwards, and the calls it made on them, in the order made. -/
structure Run (σ κ α : Type) where
  ret : α
  st : σ
  calls : List κ

/-! ## Package pubsub -/

namespace pubsub

open types

def usersTopic : String := "users"

/-- Go `natsTopicFromSubRequest`. -/
def natsTopicFromSubRequest (req : SubscriptionRequest) : String × Option GoError :=
  let changeField := match req.Change with
    | some c => c
    | none => "*"
  match req.UserId with
  | some id =>
    if id = uuid.Nil then ("", some ErrInvalidUserId)
    else (usersTopic ++ "." ++ changeField ++ "." ++ id.String, none)
  | none => (usersTopic ++ "." ++ changeField ++ "." ++ "*", none)

/-- Go `natsTopicFromSubResult`. -/
def natsTopicFromSubResult (resp : SubscriptionPayload) : String :=
  usersTopic ++ "." ++ resp.Change ++ "." ++ resp.UserId.String

/-- Go `*nats.Subscription`, a handle. -/
abbrev Subscription := Nat

/-- What the bus client does to the outside, in order: the calls on its
`*nats.Conn` and the start of a delivery goroutine (`go func() ...`) reading the
given subscription. -/
inductive NatsOp where
  | Publish (subj : String) (data : List Byte)
  | SubscribeSync (subj : String)
  | goDeliver (sub : Subscription)
deriving DecidableEq, Repr

/-- The `*nats.Conn` of the client, an external broker connection in state `σ`. -/
structure Conn (σ : Type) where
  Publish : String → List Byte → σ → Option GoError × σ
  SubscribeSync : String → σ → (Subscription × Option GoError) × σ

/-- Go `natsClient`; `Marshal` stands for the library function `proto.Marshal`
on a `*generated.SubscriptionResponse`. -/
structure natsClient (σ : Type) where
  client : Conn σ
  Marshal : Option generated.SubscriptionResponse → List Byte × Option GoError

/-- Go `natsClient.SubscribeToUserChanges` up to its return: the channel handed
back (named by the subscription whose delivery goroutine feeds it; `none` is the
nil channel) and the error. -/
def natsClient.SubscribeToUserChanges {σ : Type} (nc : natsClient σ) (req : SubscriptionRequest)
    (s : σ) : Run σ NatsOp (Option Subscription × Option GoError) :=
  match natsTopicFromSubRequest req with
  | (_, some err) => ⟨(none, some err), s, []⟩
  | (topic, none) =>
    match nc.client.SubscribeSync topic s with
    | ((_, some err), s1) =>
      ⟨(none, some (.join ErrUnknownError err)), s1, [.SubscribeSync topic]⟩
    | ((sub, none), s1) => ⟨(some sub, none), s1, [.SubscribeSync topic, .goDeliver sub]⟩

/-- Go `natsClient.PublishUserChange`. -/
def natsClient.PublishUserChange {σ : Type} (nc : natsClient σ) (result : SubscriptionPayload)
    (s : σ) : Run σ NatsOp (Option GoError) :=
  match result.Proto with
  | (_, false) =>
    ⟨some (.join ErrUnknownError (.new "could not convert result to protobuf")), s, []⟩
  | (pb, true) =>
    match nc.Marshal pb with
    | (_, some err) => ⟨some (.join ErrUnknownError err), s, []⟩
    | (b, none) =>
      match nc.client.Publish (natsTopicFromSubResult result) b s with
      | (some err, s1) =>
        ⟨some (.join ErrUnknownError err), s1, [.Publish (natsTopicFromSubResult result) b]⟩
      | (none, s1) => ⟨none, s1, [.Publish (natsTopicFromSubResult result) b]⟩

end pubsub

/-! ## Package internal: the interfaces -/

namespace internal

open types uuid

/-- Go interface `UserRepository`, an implementation in state `σ`.  `Add` reads
the record it is given (`mongoRepository.Add` hands it to `InsertOne`). -/
structure UserRepository (σ : Type) where
  Add : User → σ → Option GoError × σ
  UpdatePartial : UserFilter → UpdateUserFields → σ → (User × Option GoError) × σ
  Delete : UUID → σ → Option GoError × σ
  List : UserFilter → Paging → σ → (List User × Nat × Option GoError) × σ

/-- Go interface `PubSubService`, an implementation in state `σ`.  The channel
of `SubscribeToUserChanges` is named by a handle, `none` being the nil channel. -/
structure PubSubService (σ : Type) where
  SubscribeToUserChanges : SubscriptionRequest → σ → (Option Nat × Option GoError) × σ
  PublishUserChange : SubscriptionPayload → σ → Option GoError × σ

end internal

/-! ## Package domain -/

namespace domain

open types uuid internal

/-- The calls the domain service makes on its repository and its bus client. -/
inductive Call where
  | repoAdd (user : User)
  | repoUpdatePartial (filter : UserFilter) (fields : UpdateUserFields)
  | repoDelete (userId : UUID)
  | repoList (filter : UserFilter) (paging : Paging)
  | PublishUserChange (result : SubscriptionPayload)
  | SubscribeToUserChanges (req : SubscriptionRequest)
deriving DecidableEq, Repr

/-- Whether a call is `PublishUserChange` on the bus client. -/
def Call.isPublish : Call → Bool
  | .PublishUserChange _ => true
  | _ => false

/-- Whether a call is a mutation (`Add`, `UpdatePartial`, `Delete`) on the repository. -/
def Call.isMutation : Call → Bool
  | .repoAdd _ => true
  | .repoUpdatePartial _ _ => true
  | .repoDelete _ => true
  | _ => false

/-- Go `userService`. -/
structure userService (σ : Type) where
  repo : UserRepository σ
  pubsub : PubSubService σ

/-- Go `userService.Add`.  `now` is what `time.Now()` returns to this call and
`rnd` the 16 bytes `uuid.New()` reads from the random source if it is called.
The result holds `*user` as the call leaves it and the error. -/
def userService.Add {σ : Type} (us : userService σ) (now : Time) (rnd : UUID) (user : User)
    (s : σ) : Run σ Call (User × Option GoError) :=
  let user := { user with CreatedAt := now, UpdatedAt := none }
  let user := if user.Id = uuid.Nil then { user with Id := uuid.New rnd } else user
  match us.repo.Add user s with
  | (some err, s1) => ⟨(user, some (.wrap "failed to add user: " err)), s1, [.repoAdd user]⟩
  | (none, s1) =>
    match us.pubsub.PublishUserChange ⟨user.Id, UserChangeTypeCreated⟩ s1 with
    | (some _, s2) =>
      ⟨(user, none), s2, [.repoAdd user, .PublishUserChange ⟨user.Id, UserChangeTypeCreated⟩]⟩
    | (none, s2) =>
      ⟨(user, none), s2, [.repoAdd user, .PublishUserChange ⟨user.Id, UserChangeTypeCreated⟩]⟩

/-- Go `userService.UpdatePartial`. -/
def userService.UpdatePartial {σ : Type} (us : userService σ) (filter : UserFilter)
    (fields : UpdateUserFields) (s : σ) : Run σ Call (Option GoError) :=
  match us.repo.UpdatePartial filter fields s with
  | ((_, some err), s1) => ⟨some err, s1, [.repoUpdatePartial filter fields]⟩
  | ((user, none), s1) =>
    match us.pubsub.PublishUserChange ⟨user.Id, UserChangeTypeUpdated⟩ s1 with
    | (some _, s2) =>
      ⟨none, s2, [.repoUpdatePartial filter fields,
        .PublishUserChange ⟨user.Id, UserChangeTypeUpdated⟩]⟩
    | (none, s2) =>
      ⟨none, s2, [.repoUpdatePartial filter fields,
        .PublishUserChange ⟨user.Id, UserChangeTypeUpdated⟩]⟩

/-- Go `userService.Delete`. -/
def userService.Delete {σ : Type} (us : userService σ) (userId : UUID) (s : σ) :
    Run σ Call (Option GoError) :=
  if userId = uuid.Nil then ⟨some (.wrap "failed to delete user: " ErrInvalidUserId), s, []⟩
  else
    match us.repo.Delete userId s with
    | (some err, s1) => ⟨some (.wrap "failed to delete user: " err), s1, [.repoDelete userId]⟩
    | (none, s1) =>
      match us.pubsub.PublishUserChange ⟨userId, UserChangeTypeDeleted⟩ s1 with
      | (some _, s2) =>
        ⟨none, s2, [.repoDelete userId, .PublishUserChange ⟨userId, UserChangeTypeDeleted⟩]⟩
      | (none, s2) =>
        ⟨none, s2, [.repoDelete userId, .PublishUserChange ⟨userId, UserChangeTypeDeleted⟩]⟩

end domain

/-! ## Test doubles

Collaborators that answer every call with a fixed error or with success, in the
manner of the mocks of the repository's tests; their state counts the calls they
received. -/

namespace mocks

open types uuid internal

/-- A broker connection whose `Publish` and `SubscribeSync` return `err`. -/
def Conn (err : Option GoError) : pubsub.Conn Nat where
  Publish := fun _ _ n => (err, n + 1)
  SubscribeSync := fun _ n => ((7, err), n + 1)

/-- A bus client over `mocks.Conn` whose `proto.Marshal` returns `marshalErr`. -/
def natsClient (marshalErr connErr : Option GoError) : pubsub.natsClient Nat where
  client := Conn connErr
  Marshal := fun _ => ([], marshalErr)

/-- The user of `fixtures_test.NewUser`, with its id
`b9e52eb0-5bb1-4d34-a8b8-802f8f5b7a36`. -/
def NewUser : User where
  Id := ⟨0xb9, 0xe5, 0x2e, 0xb0, 0x5b, 0xb1, 0x4d, 0x34, 0xa8, 0xb8, 0x80, 0x2f, 0x8f, 0x5b, 0x7a,
    0x36⟩
  FirstName := "firstname"
  LastName := "lastname"
  Nickname := "nickname"
  Email := "email@email.com"
  Password := "superSecretPassword"
  Country := "UK"
  CreatedAt := 1257894000000000000
  UpdatedAt := some 1257897600000000000

/-- A repository whose mutations return `err`, `UpdatePartial` returning the row
`NewUser` with it. -/
def UserRepository (err : Option GoError) : internal.UserRepository Nat where
  Add := fun _ n => (err, n + 1)
  UpdatePartial := fun _ _ n => ((NewUser, err), n + 1)
  Delete := fun _ n => (err, n + 1)
  List := fun _ _ n => (([], 0, err), n + 1)

/-- A bus client whose calls return `err`. -/
def PubSubService (err : Option GoError) : internal.PubSubService Nat where
  SubscribeToUserChanges := fun _ n => ((none, err), n + 1)
  PublishUserChange := fun _ n => (err, n + 1)

/-- The domain service of the tests, over a mock repository and a mock bus client. -/
def userService (repoErr pubsubErr : Option GoError) : domain.userService Nat where
  repo := UserRepository repoErr
  pubsub := PubSubService pubsubErr

/-- The empty `UserFilter`. -/
def emptyFilter : UserFilter := ⟨[], "", "", "", "", [], none, none⟩

/-- The empty `UpdateUserFields`. -/
def emptyFields : UpdateUserFields := ⟨none, none, none, none, none, none⟩

end mocks

/-! ## Topic matching at the broker -/

namespace pubsub

/-- The dot-separated tokens of a topic. -/
def tokens (topic : String) : List String := (topic.data.splitOn '.').map String.mk

/-- Token-wise wildcard comparison of a subscribe pattern with a publish topic:
both have the same number of dot-separated tokens, and each token of the pattern
is `"*"` or equal to the token of the topic at its position. -/
def topicMatches (pattern topic : String) : Bool :=
  (tokens pattern).length == (tokens topic).length &&
    ((tokens pattern).zip (tokens topic)).all (fun pt => pt.1 == "*" || pt.1 == pt.2)

/-- The change kinds CREATED, UPDATED, DELETED and UNKNOWN. -/
def changeKinds : List types.UserChangeType :=
  [types.UserChangeTypeCreated, types.UserChangeTypeUpdated, types.UserChangeTypeDeleted,
   types.UserChangeTypeUnknown]

end pubsub

/-! ## Package domain: List and SubscribeToUserChanges -/

namespace domain

open types uuid internal

/-- Go `userService.List`. -/
def userService.List {σ : Type} (us : userService σ) (filter : UserFilter) (paging : Paging)
    (s : σ) : Run σ Call (List User × Nat × Option GoError) :=
  if paging.Limit = 0 then ⟨([], 0, none), s, []⟩
  else
    match us.repo.List filter paging s with
    | ((_, total, some err), s1) =>
      ⟨([], total, some (.wrap "failed to list users: " err)), s1, [.repoList filter paging]⟩
    | ((users, total, none), s1) => ⟨(users, total, none), s1, [.repoList filter paging]⟩

/-- Go `userService.SubscribeToUserChanges`. -/
def userService.SubscribeToUserChanges {σ : Type} (us : userService σ)
    (req : SubscriptionRequest) (s : σ) : Run σ Call (Option Nat × Option GoError) :=
  match us.pubsub.SubscribeToUserChanges req s with
  | (r, s1) => ⟨r, s1, [.SubscribeToUserChanges req]⟩

end domain

/-! ## Package generated: the messages of the RPC surface -/

namespace generated

/-- Modelled from the spec: the well-known protobuf message `timestamppb.Timestamp`
with its fields `Seconds` (int64) and `Nanos` (int32). -/
structure Timestamp where
  Seconds : Int
  Nanos : Int
deriving DecidableEq, Repr

/-- Modelled from the spec: the generated message `User` (package `generated` is
not among the sources), with the fields `User.Proto` fills: seven strings and
the two timestamp pointers. -/
structure User where
  Id : String
  FirstName : String
  LastName : String
  Nickname : String
  Password : String
  Email : String
  Country : String
  CreatedAt : Option Timestamp
  UpdatedAt : Option Timestamp
deriving DecidableEq, Repr

/-- Modelled from the spec: the generated message `SubscriptionParameters`, whose
fields `UserId` and `ChangeType` are pointers (`TestSubscriptionRequestConversion`
sets them by address). -/
structure SubscriptionParameters where
  UserId : Option String
  ChangeType : Option Int
deriving DecidableEq, Repr

/-- Modelled from the spec: the generated message `SubscriptionRequest`, the filter
of a subscription, with its pointer `Params`. -/
structure SubscriptionRequest where
  Params : Option SubscriptionParameters
deriving DecidableEq, Repr

/-- Modelled from the spec: the generated getter `GetParams`, nil on a nil receiver. -/
def SubscriptionRequest.GetParams (x : Option SubscriptionRequest) :
    Option SubscriptionParameters :=
  x.bind (·.Params)

/-- Modelled from the spec: the generated getter `GetUserId` of
`SubscriptionParameters`, the empty string on a nil receiver or a nil field. -/
def SubscriptionParameters.GetUserId (x : Option SubscriptionParameters) : String :=
  match x with
  | some p => p.UserId.getD ""
  | none => ""

/-- Modelled from the spec: the generated getter `GetChangeType` of
`SubscriptionParameters`, the enum value numbered 0 on a nil receiver or a nil
field. -/
def SubscriptionParameters.GetChangeType (x : Option SubscriptionParameters) : Int :=
  match x with
  | some p => p.ChangeType.getD 0
  | none => 0

/-- Modelled from the spec: the generated message `TimeFilter`. -/
structure TimeFilter where
  Before : Option Timestamp
  After : Option Timestamp
deriving DecidableEq, Repr

/-- Modelled from the spec: the generated message `SearchFilter`, the multi-field
filter of List and Update; `UserFilter.Proto` fills its four name fields by
address, so they are pointers. -/
structure SearchFilter where
  Ids : List String
  FirstName : Option String
  LastName : Option String
  Nickname : Option String
  Email : Option String
  Countries : List String
  Created : Option TimeFilter
  Updated : Option TimeFilter
deriving DecidableEq, Repr

/-- Modelled from the spec: the generated message `Paging` (offset/limit paging). -/
structure Paging where
  Offset : Int
  Limit : Int
deriving DecidableEq, Repr

/-- Modelled from the spec: the generated message `PagingMetadata`. -/
structure PagingMetadata where
  Count : Nat
deriving DecidableEq, Repr

/-- Modelled from the spec: the well-known message `fieldmaskpb.FieldMask`. -/
structure FieldMask where
  Paths : List String
deriving DecidableEq, Repr

/-- Modelled from the spec: the generated message `AddUserRequest`. -/
structure AddUserRequest where
  User : Option User
deriving DecidableEq, Repr

/-- Modelled from the spec: the generated message `AddUserResponse`. -/
structure AddUserResponse where
  User : Option User
deriving DecidableEq, Repr

/-- Modelled from the spec: the generated message `UpdateUserRequest`. -/
structure UpdateUserRequest where
  User : Option User
  UpdateMask : Option FieldMask
  Filter : Option SearchFilter
deriving DecidableEq, Repr

/-- Modelled from the spec: the generated message `UpdateUserResponse`. -/
structure UpdateUserResponse where
deriving DecidableEq, Repr

/-- Modelled from the spec: the generated message `DeleteUserRequest`. -/
structure DeleteUserRequest where
  Id : String
deriving DecidableEq, Repr

/-- Modelled from the spec: the generated message `DeleteUserResponse`. -/
structure DeleteUserResponse where
deriving DecidableEq, Repr

/-- Modelled from the spec: the generated message `ListUsersRequest`. -/
structure ListUsersRequest where
  Paging : Option Paging
  Filters : Option SearchFilter
deriving DecidableEq, Repr

/-- Modelled from the spec: the generated message `ListUsersResponse`. -/
structure ListUsersResponse where
  Users : List User
  Paging : Option PagingMetadata
deriving DecidableEq, Repr

end generated

/-! ## Package types: conversions from and to the wire -/

namespace types

open uuid (UUID)

/-- Go `timestamppb.Timestamp.AsTime`, nil-safe: `time.Unix(seconds, nanos)`.  The
instant is an unbounded integer; `time.Unix` agrees with it wherever the seconds
do not overflow `int64`, which covers every timestamp `IsValid` accepts. -/
def AsTime (ts : Option generated.Timestamp) : Time :=
  match ts with
  | some t => t.Seconds * 1000000000 + t.Nanos
  | none => 0

/-- Go `timestamppb.New`: the seconds `t.Unix()` and the nanosecond within the
second `t.Nanosecond()`. -/
def timestamppbNew (t : Time) : generated.Timestamp :=
  ⟨t / 1000000000, t % 1000000000⟩

/-- Go `convertTimestamppbToTime`. -/
def convertTimestamppbToTime (ts : Option generated.Timestamp) : Option Time :=
  match ts with
  | none => none
  | some t => some (AsTime (some t))

/-- Go `convertStringsToUUIDs`. -/
def convertStringsToUUIDs : List String → List UUID × Option GoError
  | [] => ([], none)
  | s :: strs =>
    match uuid.Parse s with
    | .error err => ([], some err)
    | .ok u =>
      match convertStringsToUUIDs strs with
      | (_, some err) => ([], some err)
      | (uuids, none) => (u :: uuids, none)

/-- Go `TimeFilterFromProto`. -/
def TimeFilterFromProto (proto : Option generated.TimeFilter) : Option TimeFilter :=
  match proto with
  | none => none
  | some p =>
    some { Before := convertTimestamppbToTime p.Before, After := convertTimestamppbToTime p.After }

/-- Go `UserFilterFromProto`. -/
def UserFilterFromProto (proto : Option generated.SearchFilter) : UserFilter × Option GoError :=
  match proto with
  | none => (⟨[], "", "", "", "", [], none, none⟩, none)
  | some p =>
    match convertStringsToUUIDs p.Ids with
    | (_, some err) => (⟨[], "", "", "", "", [], none, none⟩, some err)
    | (ids, none) =>
      ({ Ids := ids
         FirstName := p.FirstName.getD ""
         LastName := p.LastName.getD ""
         Nickname := p.Nickname.getD ""
         Email := p.Email.getD ""
         Countries := p.Countries
         Created := TimeFilterFromProto p.Created
         Updated := TimeFilterFromProto p.Updated }, none)

/-- Go `PagingFromProto`. -/
def PagingFromProto (pb : Option generated.Paging) : Paging :=
  match pb with
  | none => ⟨0, 0⟩
  | some p => ⟨p.Offset, p.Limit⟩

/-- Go `User.Proto`. -/
def User.Proto (u : User) : generated.User where
  Id := u.Id.String
  FirstName := u.FirstName
  LastName := u.LastName
  Nickname := u.Nickname
  Password := u.Password
  Email := u.Email
  Country := u.Country
  CreatedAt := some (timestamppbNew u.CreatedAt)
  UpdatedAt := u.UpdatedAt.map timestamppbNew

/-- Go `UserFromProto`.  The result is `none` when the call panics: on a nil
`u` the field selector `u.CreatedAt` dereferences the nil pointer. -/
def UserFromProto (u : Option generated.User) : Option (User × Option GoError) :=
  match u with
  | none => none
  | some u =>
    let user : User :=
      { Id := uuid.Nil
        FirstName := u.FirstName
        LastName := u.LastName
        Nickname := u.Nickname
        Email := u.Email
        Password := u.Password
        Country := u.Country
        CreatedAt := AsTime u.CreatedAt
        UpdatedAt := none }
    let parsed : Except GoError User :=
      if u.Id ≠ "" then
        match uuid.Parse u.Id with
        | .error _ => .error ErrInvalidUserId
        | .ok id => .ok { user with Id := id }
      else .ok user
    match parsed with
    | .error err => some (user, some err)
    | .ok user =>
      match u.UpdatedAt with
      | some ua => some ({ user with UpdatedAt := some (AsTime (some ua)) }, none)
      | none => some (user, none)

/-- Go `SubscriptionRequestFromProto`. -/
def SubscriptionRequestFromProto (inp : Option generated.SubscriptionRequest) :
    SubscriptionRequest × Option GoError :=
  match inp with
  | none => (⟨none, none⟩, none)
  | some _ =>
    let params := generated.SubscriptionRequest.GetParams inp
    let userId := generated.SubscriptionParameters.GetUserId params
    let parsed : Except GoError (Option UUID) :=
      if userId ≠ "" then
        match uuid.Parse userId with
        | .error err => .error err
        | .ok id => .ok (some id)
      else .ok none
    match parsed with
    | .error err => (⟨none, none⟩, some err)
    | .ok uid =>
      match params with
      | some p =>
        match p.ChangeType with
        | some _ =>
          (⟨uid, some (UserChangeTypeFromString (generated.UserChangeType.String
            (generated.SubscriptionParameters.GetChangeType params)))⟩, none)
        | none => (⟨uid, none⟩, none)
      | none => (⟨uid, none⟩, none)

end types

/-! ## google.golang.org/grpc: codes and status -/

/-- Go `error.Error()` of the error values of `GoError`: the message of
`errors.New`, the format of `fmt.Errorf` followed by the wrapped message, and the
joined messages separated by a newline. -/
def GoError.Error : GoError → String
  | .new msg => msg
  | .wrap msg err => msg ++ err.Error
  | .join a b => a.Error ++ String.singleton (Char.ofNat 10) ++ b.Error

namespace codes

/-- Go `codes.Code`, the gRPC status codes 0 to 16. -/
inductive Code where
  | OK
  | Canceled
  | Unknown
  | InvalidArgument
  | DeadlineExceeded
  | NotFound
  | AlreadyExists
  | PermissionDenied
  | ResourceExhausted
  | FailedPrecondition
  | Aborted
  | OutOfRange
  | Unimplemented
  | Internal
  | Unavailable
  | DataLoss
  | Unauthenticated
deriving DecidableEq, Repr

end codes

namespace status

/-- A gRPC status error: what `status.FromError` finds in an error made by
`status.Error`. -/
structure Status where
  Code : codes.Code
  Message : String
deriving DecidableEq, Repr

/-- Go `status.Error(c, msg)`: nil for `codes.OK`, a status error otherwise. -/
def Error (c : codes.Code) (msg : String) : Option Status :=
  if c = .OK then none else some ⟨c, msg⟩

end status

/-! ## Package internal: the service interface -/

namespace internal

open types uuid

/-- Go interface `UserService`, an implementation in state `σ`.  `Add` is given
`*user` and may write to it (the domain service does): it returns the record it
leaves there with the error. -/
structure UserService (σ : Type) where
  Add : User → σ → (User × Option GoError) × σ
  UpdatePartial : UserFilter → UpdateUserFields → σ → Option GoError × σ
  Delete : UUID → σ → Option GoError × σ
  List : UserFilter → Paging → σ → (List User × Nat × Option GoError) × σ
  SubscribeToUserChanges : SubscriptionRequest → σ → (Option Nat × Option GoError) × σ

end internal

namespace pubsub

/-- The bus client as a `PubSubService`: its state is the broker's together with
the calls made on the broker so far. -/
def asPubSubService {σ : Type} (nc : natsClient σ) :
    internal.PubSubService (σ × List NatsOp) where
  SubscribeToUserChanges := fun req s =>
    ((nc.SubscribeToUserChanges req s.1).ret,
      ((nc.SubscribeToUserChanges req s.1).st, s.2 ++ (nc.SubscribeToUserChanges req s.1).calls))
  PublishUserChange := fun result s =>
    ((nc.PublishUserChange result s.1).ret,
      ((nc.PublishUserChange result s.1).st, s.2 ++ (nc.PublishUserChange result s.1).calls))

end pubsub

namespace domain

open types uuid internal

/-- The domain service as a `UserService`: its state is the collaborators'
together with the calls made on them so far.  `now` and `rnd` are the clock
reading and the random bytes an `Add` gets. -/
def asUserService {σ : Type} (us : userService σ) (now : Time) (rnd : UUID) :
    internal.UserService (σ × List Call) where
  Add := fun user s =>
    ((us.Add now rnd user s.1).ret, ((us.Add now rnd user s.1).st,
      s.2 ++ (us.Add now rnd user s.1).calls))
  UpdatePartial := fun filter fields s =>
    ((us.UpdatePartial filter fields s.1).ret, ((us.UpdatePartial filter fields s.1).st,
      s.2 ++ (us.UpdatePartial filter fields s.1).calls))
  Delete := fun userId s =>
    ((us.Delete userId s.1).ret, ((us.Delete userId s.1).st,
      s.2 ++ (us.Delete userId s.1).calls))
  List := fun filter paging s =>
    ((us.List filter paging s.1).ret, ((us.List filter paging s.1).st,
      s.2 ++ (us.List filter paging s.1).calls))
  SubscribeToUserChanges := fun req s =>
    ((us.SubscribeToUserChanges req s.1).ret, ((us.SubscribeToUserChanges req s.1).st,
      s.2 ++ (us.SubscribeToUserChanges req s.1).calls))

end domain

/-! ## Package service: the gRPC handlers -/

namespace service

open types uuid internal codes

/-- The calls a handler makes: on its `UserService`, and `Send` on the stream of
a subscription. -/
inductive Call where
  | Add (user : User)
  | UpdatePartial (filter : UserFilter) (fields : UpdateUserFields)
  | Delete (userId : UUID)
  | List (filter : UserFilter) (paging : Paging)
  | SubscribeToUserChanges (req : SubscriptionRequest)
  | Send (pb : Option generated.SubscriptionResponse)
deriving DecidableEq, Repr

/-- Go `usersGrpc`; `Apply` stands for the library function `field_mask.Apply`
on a mask and a `*generated.User`, which returns the `UpdateUserFields` it wrote
and an error. -/
structure usersGrpc (σ : Type) where
  service : UserService σ
  Apply : Option generated.FieldMask → Option generated.User → UpdateUserFields × Option GoError

/-- Go `usersGrpc.Add`.  The result is `none` when the call panics, as
`UserFromProto` does on a request without user. -/
def usersGrpc.Add {σ : Type} (u : usersGrpc σ) (req : generated.AddUserRequest) (s : σ) :
    Run σ Call (Option (Option generated.AddUserResponse × Option status.Status)) :=
  match UserFromProto req.User with
  | none => ⟨none, s, []⟩
  | some (_, some err) => ⟨some (none, status.Error .InvalidArgument err.Error), s, []⟩
  | some (user, none) =>
    match u.service.Add user s with
    | ((_, some err), s1) =>
      if errorsIs err ErrInvalidUserId || errorsIs err ErrDuplicateUserId then
        ⟨some (none, status.Error .InvalidArgument err.Error), s1, [.Add user]⟩
      else ⟨some (none, status.Error .Internal err.Error), s1, [.Add user]⟩
    | ((user1, none), s1) => ⟨some (some ⟨some user1.Proto⟩, none), s1, [.Add user]⟩

/-- Go `usersGrpc.Update`. -/
def usersGrpc.Update {σ : Type} (u : usersGrpc σ) (req : generated.UpdateUserRequest) (s : σ) :
    Run σ Call (Option generated.UpdateUserResponse × Option status.Status) :=
  match u.Apply req.UpdateMask req.User with
  | (_, some err) => ⟨(none, status.Error .InvalidArgument err.Error), s, []⟩
  | (updateRequest, none) =>
    match UserFilterFromProto req.Filter with
    | (_, some err) => ⟨(none, status.Error .InvalidArgument err.Error), s, []⟩
    | (filter, none) =>
      match u.service.UpdatePartial filter updateRequest s with
      | (some err, s1) =>
        if errorsIs err ErrNotFound then
          ⟨(none, status.Error .NotFound err.Error), s1, [.UpdatePartial filter updateRequest]⟩
        else
          ⟨(none, status.Error .Internal err.Error), s1, [.UpdatePartial filter updateRequest]⟩
      | (none, s1) => ⟨(some ⟨⟩, none), s1, [.UpdatePartial filter updateRequest]⟩

/-- Go `usersGrpc.Delete`. -/
def usersGrpc.Delete {σ : Type} (u : usersGrpc σ) (req : generated.DeleteUserRequest) (s : σ) :
    Run σ Call (Option generated.DeleteUserResponse × Option status.Status) :=
  match uuid.Parse req.Id with
  | .error err => ⟨(none, status.Error .InvalidArgument err.Error), s, []⟩
  | .ok id =>
    match u.service.Delete id s with
    | (some err, s1) =>
      if errorsIs err ErrInvalidUserId then
        ⟨(none, status.Error .InvalidArgument err.Error), s1, [.Delete id]⟩
      else ⟨(none, status.Error .Internal err.Error), s1, [.Delete id]⟩
    | (none, s1) => ⟨(some ⟨⟩, none), s1, [.Delete id]⟩

/-- Go `usersGrpc.List`. -/
def usersGrpc.List {σ : Type} (u : usersGrpc σ) (req : generated.ListUsersRequest) (s : σ) :
    Run σ Call (Option generated.ListUsersResponse × Option status.Status) :=
  match UserFilterFromProto req.Filters with
  | (_, some err) => ⟨(none, status.Error .InvalidArgument err.Error), s, []⟩
  | (filters, none) =>
    match u.service.List filters (PagingFromProto req.Paging) s with
    | ((_, _, some err), s1) =>
      ⟨(none, status.Error .Internal err.Error), s1, [.List filters (PagingFromProto req.Paging)]⟩
    | ((users, total, none), s1) =>
      ⟨(some ⟨users.map User.Proto, some ⟨total⟩⟩, none), s1,
        [.List filters (PagingFromProto req.Paging)]⟩

end service

/-! ## Package service: the Subscribe bridge

The `for { select { ... } }` loop of `usersGrpc.Subscribe` waits on two
channels, the event stream `ch` and `serv.Context().Done()`.  A `select` takes
one of the cases that are ready, any of them when several are, and blocks while
none is. -/

namespace service

open types uuid internal codes

/-- The event stream as the `select` sees it: nothing to receive, an event that
the producer is sending, or closed. -/
inductive ChanState where
  | idle
  | offers (resp : SubscriptionPayload)
  | closed
deriving DecidableEq, Repr

/-- What the `select` of the bridge waits on: the event stream, and whether the
context of the peer's stream is cancelled (`Done()` is closed). -/
structure SelectState where
  ch : ChanState
  cancelled : Bool
deriving DecidableEq, Repr

/-- The case a `select` of the bridge takes: `resp, ok := <-ch` with `ok` true,
the same with `ok` false, or `<-serv.Context().Done()`. -/
inductive Branch where
  | recv (resp : SubscriptionPayload)
  | recvClosed
  | ctxDone
deriving DecidableEq, Repr

/-- The cases the `select` of a running bridge takes, in order. -/
abbrev Schedule := List Branch

/-- Whether a case of the `select` is ready in a given state. -/
def Branch.ready (st : SelectState) : Branch → Bool
  | .recv resp => decide (st.ch = .offers resp)
  | .recvClosed => decide (st.ch = .closed)
  | .ctxDone => st.cancelled

/-- Go `generated.UsersService_SubscribeServer`, the outbound stream to the
peer, in state `σ`. -/
structure SubscribeServer (σ : Type) where
  Send : Option generated.SubscriptionResponse → σ → Option GoError × σ

/-- One iteration of the loop of `usersGrpc.Subscribe`, for the case the
`select` takes.  The result is `none` when the loop goes on, and what
`Subscribe` returns otherwise (`some none` is the nil error). -/
def selectStep {σ : Type} (serv : SubscribeServer σ) (b : Branch) (s : σ) :
    Run σ Call (Option (Option status.Status)) :=
  match b with
  | .recvClosed => ⟨some (status.Error .Internal "subscription channel closed"), s, []⟩
  | .ctxDone => ⟨some none, s, []⟩
  | .recv resp =>
    match resp.Proto with
    | (_, false) => ⟨none, s, []⟩
    | (pb, true) =>
      match serv.Send pb s with
      | (some _, s1) => ⟨none, s1, [.Send pb]⟩
      | (none, s1) => ⟨none, s1, [.Send pb]⟩

/-- The loop of `usersGrpc.Subscribe` along the cases its `select` takes, in
order.  The result is `none` when the loop is still running after them. -/
def subscribeLoop {σ : Type} (serv : SubscribeServer σ) :
    Schedule → σ → Run σ Call (Option (Option status.Status))
  | [], s => ⟨none, s, []⟩
  | b :: bs, s =>
    match (selectStep serv b s).ret with
    | some r => ⟨some r, (selectStep serv b s).st, (selectStep serv b s).calls⟩
    | none =>
      ⟨(subscribeLoop serv bs (selectStep serv b s).st).ret,
        (subscribeLoop serv bs (selectStep serv b s).st).st,
        (selectStep serv b s).calls ++ (subscribeLoop serv bs (selectStep serv b s).st).calls⟩

/-- Go `usersGrpc.Subscribe`, the loop running along the cases `sched` that its
`select` takes.  The result is `none` when the handler is still running after
them, and the error it returns otherwise (`some none` is nil). -/
def usersGrpc.Subscribe {σ : Type} (u : usersGrpc σ) (serv : SubscribeServer σ)
    (req : Option generated.SubscriptionRequest) (sched : Schedule) (s : σ) :
    Run σ Call (Option (Option status.Status)) :=
  match SubscriptionRequestFromProto req with
  | (_, some err) => ⟨some (status.Error .InvalidArgument err.Error), s, []⟩
  | (r, none) =>
    match u.service.SubscribeToUserChanges r s with
    | ((_, some err), s1) =>
      ⟨some (status.Error .Internal err.Error), s1, [.SubscribeToUserChanges r]⟩
    | ((_, none), s1) =>
      ⟨(subscribeLoop serv sched s1).ret, (subscribeLoop serv sched s1).st,
        .SubscribeToUserChanges r :: (subscribeLoop serv sched s1).calls⟩

/-- The `Send` of an event the bridge received: the converted message when
`SubscriptionPayload.Proto` converts it, nothing otherwise. -/
def sendOf (resp : SubscriptionPayload) : Option Call :=
  if resp.Proto.2 = true then some (.Send resp.Proto.1) else none

end service

/-! ## Package pubsub: the delivery loop -/

namespace pubsub

open types

/-- One turn of the delivery goroutine of `SubscribeToUserChanges`: what
`sub.NextMsgWithContext(ctx)` returned (the data of the message, `none` for a nil
message, and the error) and whether `ctx.Err()` is non-nil right after. -/
structure Received where
  msg : Option (List Byte)
  err : Option GoError
  ctxErr : Bool
deriving DecidableEq, Repr

/-- The delivery goroutine of `natsClient.SubscribeToUserChanges` along the
results of its receives, in order; `Unmarshal` stands for the library function
`proto.Unmarshal` into a fresh `generated.SubscriptionResponse`.  The result is
the events sent on the stream `ch`, in order, and whether the goroutine has
returned, which closes `ch` (`defer close(ch)`); it has not when the receives
run out.  Each send `ch <- res` is taken to complete, the consumer receiving. -/
def deliveryLoop (Unmarshal : List Byte → generated.SubscriptionResponse × Option GoError) :
    List Received → List SubscriptionPayload × Bool
  | [] => ([], false)
  | r :: rest =>
    if r.ctxErr then ([], true)
    else
      match r.msg with
      | none => deliveryLoop Unmarshal rest
      | some data =>
        match Unmarshal data with
        | (_, some _) => deliveryLoop Unmarshal rest
        | (resp, none) =>
          match SubscriptionPayloadFromProto (some resp) with
          | (_, some _) => deliveryLoop Unmarshal rest
          | (res, none) =>
            (res :: (deliveryLoop Unmarshal rest).1, (deliveryLoop Unmarshal rest).2)

/-- The event a received message decodes to: the message is not nil, it
unmarshals, and the unmarshalled message converts. -/
def decoded (Unmarshal : List Byte → generated.SubscriptionResponse × Option GoError)
    (r : Received) : Option SubscriptionPayload :=
  match r.msg with
  | none => none
  | some data =>
    if (Unmarshal data).2 = none ∧
        (SubscriptionPayloadFromProto (some (Unmarshal data).1)).2 = none then
      some (SubscriptionPayloadFromProto (some (Unmarshal data).1)).1
    else none

end pubsub

/-! ## Test doubles of the gRPC layer -/

namespace mocks

open types uuid internal

/-- A `UserService` whose calls return `err`. -/
def UserService (err : Option GoError) : internal.UserService Nat where
  Add := fun user n => ((user, err), n + 1)
  UpdatePartial := fun _ _ n => (err, n + 1)
  Delete := fun _ n => (err, n + 1)
  List := fun _ _ n => (([], 0, err), n + 1)
  SubscribeToUserChanges := fun _ n => ((some 1, err), n + 1)

/-- The gRPC server over `mocks.UserService`, with a `field_mask.Apply` that
returns `maskErr`. -/
def usersGrpc (maskErr serviceErr : Option GoError) : service.usersGrpc Nat where
  service := UserService serviceErr
  Apply := fun _ _ => (emptyFields, maskErr)

/-- An outbound stream whose `Send` returns `err`. -/
def SubscribeServer (err : Option GoError) : service.SubscribeServer Nat where
  Send := fun _ n => (err, n + 1)

/-- A `proto.Unmarshal` that fails on empty data and otherwise decodes a change
of the user of `NewUser`, the change type numbered by the first byte. -/
def Unmarshal (data : List Byte) : generated.SubscriptionResponse × Option GoError :=
  match data with
  | [] => (⟨none⟩, some (.new "proto: cannot parse invalid wire-format data"))
  | b :: _ => (⟨some ⟨NewUser.Id.String, b.val⟩⟩, none)

/-- One event, CREATED for the user of `NewUser`. -/
def result : SubscriptionPayload := ⟨NewUser.Id, UserChangeTypeCreated⟩

end mocks

/-! ## Package repository: the update document

`createUpdateDocument` marshals its argument with `bson.Marshal`, reads the
elements of the document back and sorts them into the stages `$unset` and
`$set`. -/

namespace bson

/-- A BSON value as a `bson.RawValue` read from a marshalled document holds it,
for the kinds of value the repository and its tests put into an update: strings,
integers, booleans, arrays and embedded documents. -/
inductive RawValue where
  | string (s : String)
  | int32 (n : Int)
  | int64 (n : Int)
  | boolean (b : Bool)
  | array (vs : List RawValue)
  | document (es : List (String × RawValue))

/-- Go `bson.E` with a raw value, an element of a `bson.D`. -/
abbrev E := String × RawValue

/-- Go `bson.RawValue.IsZero`: the value has no type and no bytes.  A value read
from an element of a document has a type. -/
def RawValue.IsZero : RawValue → Bool
  | _ => false

end bson

namespace repository

open types bson

/-- The test `rv.IsNil() || rv.Len() == 0` or `rv.IsZero()` that
`createUpdateDocument` makes on the Go value `v.Unmarshal(&vv)` decodes: an array
and an embedded document decode to slices, the other kinds to a string, an
integer or a boolean. -/
def unmarshalsToZero : RawValue → Bool
  | .string s => decide (s = "")
  | .int32 n => decide (n = 0)
  | .int64 n => decide (n = 0)
  | .boolean b => !b
  | .array vs => vs.isEmpty
  | .document es => es.isEmpty

/-- The loop `for _, e := range fields` of `createUpdateDocument`, from given
`set` and `unset`: the two lists after the loop. -/
def sortElements : List E → List E → List E → List E × List E
  | [], set, unset => (set, unset)
  | (k, v) :: fields, set, unset =>
    if v.IsZero then sortElements fields set (unset ++ [(k, v)])
    else if unmarshalsToZero v then sortElements fields set (unset ++ [(k, v)])
    else sortElements fields (set ++ [(k, v)]) unset

/-- Go `createUpdateDocument`, on what `bson.Marshal(in)` and `raw.Elements()`
return for its argument: the elements of the marshalled document, or the error.
The elements `bson.Marshal` wrote are valid, so `Validate`, `KeyErr`, `ValueErr`
and `Unmarshal` return no error on them. -/
def createUpdateDocument (marshalled : Except GoError (List E)) :
    List (String × List E) × Option GoError :=
  match marshalled with
  | .error err => ([], some err)
  | .ok fields =>
    let set := (sortElements fields [] []).1
    let unset := (sortElements fields [] []).2
    let ret : List (String × List E) := if unset.length > 0 then [("$unset", unset)] else []
    let ret := if set.length > 0 then ret ++ [("$set", set)] else ret
    (ret, none)

/-- The fields of an `UpdateUserFields` with their `bson` keys, in the order of
the struct. -/
def updateEntries (f : UpdateUserFields) : List (String × Option String) :=
  [("first_name", f.FirstName), ("last_name", f.LastName), ("nickname", f.Nickname),
   ("email", f.Email), ("password", f.Password), ("country", f.Country)]

/-- Go `bson.Marshal` on an `UpdateUserFields`, by its tags
`bson:"<key>,omitempty"`: a nil pointer is left out, any other field is written
under its key with the string it points to, in the order of the struct. -/
def marshalUpdateUserFields (f : UpdateUserFields) : Except GoError (List E) :=
  .ok ((updateEntries f).filterMap (fun e => e.2.map (fun v => (e.1, RawValue.string v))))

end repository

namespace repository

open types bson

/-- The stage `$unset` as the update contract describes it: the fields present
with the empty string, each under its key, in the order of the struct. -/
def unsetStage (f : UpdateUserFields) : List E :=
  (updateEntries f).filterMap (fun e =>
    match e.2 with
    | some v => if v = "" then some (e.1, RawValue.string v) else none
    | none => none)

/-- The stage `$set` as the update contract describes it: the fields present with
a non-empty string, each under its key with that string, in the order of the
struct. -/
def setStage (f : UpdateUserFields) : List E :=
  (updateEntries f).filterMap (fun e =>
    match e.2 with
    | some v => if v = "" then none else some (e.1, RawValue.string v)
    | none => none)

end repository

/-! ## Validity of wire timestamps -/

namespace generated

/-- Go `timestamppb.Timestamp.IsValid`: the seconds lie between 0001-01-01 and
9999-12-31 and the nanoseconds between 0 and 999999999. -/
def Timestamp.IsValid (ts : Timestamp) : Bool :=
  decide (-62135596800 ≤ ts.Seconds ∧ ts.Seconds ≤ 253402300799 ∧
    0 ≤ ts.Nanos ∧ ts.Nanos < 1000000000)

end generated

/-! ## Package internal: the application and its shutdown hooks -/

namespace internal

/-- What a run of `GracefulShutdown` does that can be observed: the call of the
hook at index `i` of `shutdownFunctions`, the warning logged for the error a hook
returned, and the warning logged when the timeout expires first. -/
inductive ShutdownEvent where
  | call (i : Nat)
  | warn (err : GoError)
  | timedOut
deriving DecidableEq, Repr

/-- Go `Application`, with the field the shutdown uses: the registered hooks,
each a function on the state `σ` of the resources it releases. -/
structure Application (σ : Type) where
  shutdownFunctions : List (σ → Option GoError × σ)

/-- Go `Application.AddShutdownFunction`: `append`. -/
def Application.AddShutdownFunction {σ : Type} (app : Application σ)
    (function : σ → Option GoError × σ) : Application σ :=
  ⟨app.shutdownFunctions ++ [function]⟩

/-- The goroutine of `GracefulShutdown`: the loop
`for i := len(fs) - 1; i >= 0; i--` from `i + 1 = k`, where `budget` counts the
hooks that return before the timeout context expires.  The result is the state,
the events so far, and whether the goroutine reached `shutdownDone <- struct{}{}`.
When the timeout expires first, the goroutine has called the next hook, which has
not returned; the result is what there is when `GracefulShutdown` returns, and
what the goroutine does after that is not part of it. -/
def shutdownLoop {σ : Type} (fs : List (σ → Option GoError × σ)) :
    (k : Nat) → k ≤ fs.length → Nat → σ × List ShutdownEvent →
      (σ × List ShutdownEvent) × Bool
  | 0, _, _, st => (st, true)
  | k + 1, _, 0, (s, log) => ((s, log ++ [.call k]), false)
  | k + 1, h, budget + 1, (s, log) =>
    match fs.get ⟨k, h⟩ s with
    | (some err, s1) => shutdownLoop fs k (Nat.le_of_succ_le h) budget
        (s1, log ++ [.call k, .warn err])
    | (none, s1) => shutdownLoop fs k (Nat.le_of_succ_le h) budget (s1, log ++ [.call k])

/-- Go `Application.GracefulShutdown`: the `select` takes `<-shutdownDone` when
the goroutine finishes before the timeout, and `<-timeoutCtx.Done()` with a
warning otherwise. -/
def Application.GracefulShutdown {σ : Type} (app : Application σ) (budget : Nat) (s : σ) :
    σ × List ShutdownEvent :=
  match shutdownLoop app.shutdownFunctions app.shutdownFunctions.length (Nat.le_refl _)
      budget (s, []) with
  | (st, true) => st
  | ((s1, log), false) => (s1, log ++ [.timedOut])

/-- The index of the hook an event calls. -/
def ShutdownEvent.callIndex : ShutdownEvent → Option Nat
  | .call i => some i
  | _ => none

/-- The state after the hooks `fs` have run one after the other, the last of the
list first and the first of the list last, each once, on the state the one before
it left. -/
def lastInFirstOut {σ : Type} (fs : List (σ → Option GoError × σ)) (s : σ) : σ :=
  match fs with
  | [] => s
  | f :: rest => (f (lastInFirstOut rest s)).2

/-- The application after registering the hooks `fs` in order, from none. -/
def registerAll {σ : Type} (fs : List (σ → Option GoError × σ)) : Application σ :=
  fs.foldl Application.AddShutdownFunction ⟨[]⟩

end internal

namespace mocks

/-- Two shutdown hooks on a counter: the first registered adds one, the second
doubles it and returns an error. -/
def shutdownHooks : List (Nat → Option GoError × Nat) :=
  [fun n => (none, n + 1), fun n => (some (.new "close failed"), 2 * n)]

end mocks

/-! ## The delivery goroutine and the bridge, running together

The goroutine of `natsClient.SubscribeToUserChanges` and the loop of
`usersGrpc.Subscribe` share the unbuffered channel `ch` and the context of the
peer's stream.  The goroutine blocks in `sub.NextMsgWithContext(ctx)` and in the
send `ch <- res`; the bridge blocks in its `select`. -/

namespace service

open types pubsub

/-- Where the delivery goroutine is: blocked in `sub.NextMsgWithContext(ctx)`,
blocked in the send `ch <- res`, or returned, which closes `ch`
(`defer close(ch)`). -/
inductive LoopPc where
  | receiving
  | sending (res : SubscriptionPayload)
  | returned
deriving DecidableEq, Repr

/-- Where the bridge is: running towards its `select` (after `SubscribeToUserChanges`
returned, or in `resp.Proto()` and `serv.Send(pb)` of the event it took), parked in
the `select` with no case ready, or returned with a status (`none` is the nil
error). -/
inductive BridgePc where
  | running
  | parked
  | returned (r : Option status.Status)
deriving DecidableEq, Repr

/-- The two goroutines together: where each is, whether the context of the peer's
stream is cancelled, and the state of the outbound stream. -/
structure Joint (σ : Type) where
  loop : LoopPc
  bridge : BridgePc
  cancelled : Bool
  out : σ

/-- The channel `ch` as the `select` of the bridge sees it: an unbuffered channel
offers an event while the goroutine is blocked sending it, and is closed once the
goroutine has returned. -/
def Joint.chan {σ : Type} (j : Joint σ) : ChanState :=
  match j.loop with
  | .receiving => .idle
  | .sending res => .offers res
  | .returned => .closed

/-- One turn of the body of the delivery goroutine, from the return of
`sub.NextMsgWithContext(ctx)` to the next point where it blocks or returns. -/
def deliveryTurn (Unmarshal : List Byte → generated.SubscriptionResponse × Option GoError)
    (r : Received) : LoopPc :=
  if r.ctxErr then .returned
  else
    match r.msg with
    | none => .receiving
    | some data =>
      match Unmarshal data with
      | (_, some _) => .receiving
      | (resp, none) =>
        match SubscriptionPayloadFromProto (some resp) with
        | (_, some _) => .receiving
        | (res, none) => .sending res

/-- The `select` of the bridge takes the case `b` and the bridge runs the body of
that case, `selectStep`.  Taking `resp, ok := <-ch` with an event completes the
send `ch <- res`, and the goroutine goes back to its receive. -/
def Joint.take {σ : Type} (serv : SubscribeServer σ) (j : Joint σ) (b : Branch) : Joint σ :=
  { j with
    loop := (match b with
      | .recv _ => .receiving
      | _ => j.loop)
    bridge := (match (selectStep serv b j.out).ret with
      | some r => .returned r
      | none => .running)
    out := (selectStep serv b j.out).st }

/-- The case that wakes a bridge parked in its `select`, once one is ready. -/
def Joint.wake {σ : Type} (serv : SubscribeServer σ) (j : Joint σ) : Joint σ :=
  if j.bridge = .parked then
    if j.cancelled then j.take serv .ctxDone
    else
      match j.chan with
      | .offers res => j.take serv (.recv res)
      | .closed => j.take serv .recvClosed
      | .idle => j
  else j

/-- What happens next: the peer's stream context is cancelled; the receive of the
delivery goroutine returns `r`; the bridge reaches its `select` and takes the case
`b`, one of those ready; or the bridge reaches its `select` with no case ready and
parks. -/
inductive Action where
  | cancel
  | receive (r : Received)
  | select (b : Branch)
  | park
deriving DecidableEq, Repr

/-- Whether an action can happen in a state: a receive returns only to a goroutine
blocked in it, and `ctx.Err()` is non-nil exactly when the context is cancelled;
the `select` takes only a case that is ready, `Branch.ready`, and parks only when
none is. -/
def Action.enabled {σ : Type} (j : Joint σ) : Action → Bool
  | .cancel => true
  | .receive r => decide (j.loop = .receiving) && decide (r.ctxErr = j.cancelled)
  | .select b => decide (j.bridge = .running) && b.ready ⟨j.chan, j.cancelled⟩
  | .park => decide (j.bridge = .running) && decide (j.chan = .idle) && !j.cancelled

/-- The state after an action; an action that is not enabled does not happen.  A
cancellation, a send and a close wake a parked bridge at once. -/
def Joint.step {σ : Type}
    (Unmarshal : List Byte → generated.SubscriptionResponse × Option GoError)
    (serv : SubscribeServer σ) (j : Joint σ) (a : Action) : Joint σ :=
  if a.enabled j then
    match a with
    | .cancel => Joint.wake serv { j with cancelled := true }
    | .receive r => Joint.wake serv { j with loop := deliveryTurn Unmarshal r }
    | .select b => j.take serv b
    | .park => { j with bridge := .parked }
  else j

/-- The state after the actions `as`, in order. -/
def Joint.run {σ : Type}
    (Unmarshal : List Byte → generated.SubscriptionResponse × Option GoError)
    (serv : SubscribeServer σ) (j : Joint σ) (as : List Action) : Joint σ :=
  as.foldl (Joint.step Unmarshal serv) j

/-- Whether every action of `as` is enabled when its turn comes. -/
def Joint.allows {σ : Type}
    (Unmarshal : List Byte → generated.SubscriptionResponse × Option GoError)
    (serv : SubscribeServer σ) : Joint σ → List Action → Bool
  | _, [] => true
  | j, a :: as => a.enabled j && Joint.allows Unmarshal serv (j.step Unmarshal serv a) as

/-- The state right after `SubscribeToUserChanges` returned the channel: the
goroutine at its first receive, the bridge running towards its `select`, the
context live. -/
def Joint.start {σ : Type} (s : σ) : Joint σ :=
  ⟨.receiving, .running, false, s⟩

end service

namespace mocks

/-- An interleaving in which the context is cancelled while the delivery goroutine
is handing a decoded event to the bridge: the bridge takes a first event and is
busy sending it to the peer, a second message arrives and decodes, the goroutine
blocks in `ch <- res`, the context is cancelled, and the bridge, back at its
`select` with both cases ready, takes `<-serv.Context().Done()`. -/
def cancelDuringHandOver : List service.Action :=
  [.park, .receive ⟨some [1], none, false⟩, .receive ⟨some [1], none, false⟩, .cancel,
   .select .ctxDone]

/-- An interleaving in which the delivery goroutine sees the cancellation first:
the bridge takes an event and is busy sending it to the peer, the context is
cancelled, the receive returns with the context's error, the goroutine returns and
closes `ch`, and the bridge, back at its `select` with both cases ready, takes
`<-ch`. -/
def closeBeforeSelect : List service.Action :=
  [.park, .receive ⟨some [1], none, false⟩, .cancel,
   .receive ⟨none, some (.new "context canceled"), true⟩, .select .recvClosed]

/-- An interleaving in which the cancellation finds the bridge parked in its
`select` and the goroutine in its receive. -/
def cancelWhileIdle : List service.Action :=
  [.park, .cancel, .receive ⟨none, some (.new "context canceled"), true⟩]

end mocks

/-! ## Package repository: the filter document

`userFilterToMongoFilter` builds a `bson.M`, a Go map from keys to values of any
type.  The model keeps a map as the list of its entries in the order the keys
were first assigned; the keys of the list are distinct. -/

namespace repository

open types uuid

/-- A non-nil Go pointer `*T`: the address of a variable and the value stored
there. -/
structure Pointer (T : Type) where
  addr : Nat
  val : T
deriving DecidableEq, Repr

/-- Go `IsZero`, in a heap whose variables have the addresses below `heap`:
`new(T)` allocates the next variable, at address `heap`, and `zero == v` compares
the two pointers, that is, the two addresses.  `T` is not of size zero. -/
def IsZero {T : Type} (heap : Nat) (v : Option (Pointer T)) : Bool :=
  match v with
  | none => true
  | some p => decide (heap = p.addr)

/-- The test the comment above `IsZero` describes: the pointer is nil or points to
the zero value `zero` of the type. -/
def isNilOrZeroValue {T : Type} [DecidableEq T] (zero : T) (v : Option (Pointer T)) : Bool :=
  match v with
  | none => true
  | some p => decide (p.val = zero)

/-- The pointer held in a field of a filter: nil, or the pointer to a variable
that holds the value, allocated before the filter is translated; the model places
the variable at address 0. -/
def fieldPointer {T : Type} (v : Option T) : Option (Pointer T) :=
  v.map (fun x => ⟨0, x⟩)

/-- Go `IsZero` on a pointer field of a filter, in a heap holding the variable the
field points to. -/
def IsZeroField {T : Type} (v : Option T) : Bool :=
  IsZero 1 (fieldPointer v)

/-- The Go values `userFilterToMongoFilter` stores under `Value` of a `bson.E` and
in the maps of `timeCriteriaToMongo`: a `string`, a `uuid.UUID`, a `[]uuid.UUID`,
a `[]string`, or a `*time.Time`. -/
inductive Leaf where
  | string (s : String)
  | uuid (id : UUID)
  | uuids (ids : List UUID)
  | strings (ss : List String)
  | timePtr (t : Option Time)
deriving DecidableEq, Repr

/-- The Go values `userFilterToMongoFilter` stores in its map: one of the values
above, a `bson.E` (the struct with the fields `Key` and `Value`), a `bson.D` (a
slice of `bson.E`), or a `bson.M` (`none` is the nil map). -/
inductive FilterValue where
  | leaf (v : Leaf)
  | E (Key : String) (Value : Leaf)
  | D (elems : List (String × Leaf))
  | M (m : Option (List (String × Leaf)))
deriving DecidableEq, Repr

/-- Go `m[key] = value` on a map kept as the list of its entries. -/
def mapSet {V : Type} (m : List (String × V)) (key : String) (value : V) : List (String × V) :=
  if m.any (fun e => e.1 == key) then m.map (fun e => if e.1 == key then (key, value) else e)
  else m ++ [(key, value)]

/-- Go `m[key]` with `ok`, on a map kept as the list of its entries. -/
def mapGet {V : Type} (m : List (String × V)) (key : String) : Option V :=
  (m.find? (fun e => e.1 == key)).map Prod.snd

/-- Go `timeCriteriaToMongo`; the result `none` is the nil map. -/
def timeCriteriaToMongo (filter : TimeFilter) : Option (List (String × Leaf)) :=
  let ret : List (String × Leaf) := []
  let ret := if !IsZeroField filter.Before then mapSet ret "$lt" (.timePtr filter.Before) else ret
  let ret := if !IsZeroField filter.After then mapSet ret "$gt" (.timePtr filter.After) else ret
  if ret.length = 0 then none else some ret

/-- Go `userFilterToMongoFilter`. -/
def userFilterToMongoFilter (filter : UserFilter) : List (String × FilterValue) :=
  let ret : List (String × FilterValue) := []
  let ret :=
    match filter.Ids with
    | [] => ret
    | [id] => mapSet ret "_id" (.leaf (.uuid id))
    | _ :: _ :: _ => mapSet ret "_id" (.E "$in" (.uuids filter.Ids))
  let ret :=
    match filter.Countries with
    | [] => ret
    | [c] => mapSet ret "country" (.leaf (.string c))
    | _ :: _ :: _ => mapSet ret "country" (.D [("$in", .strings filter.Countries)])
  let ret := if filter.FirstName ≠ "" then mapSet ret "first_name" (.leaf (.string filter.FirstName))
    else ret
  let ret := if filter.LastName ≠ "" then mapSet ret "last_name" (.leaf (.string filter.LastName))
    else ret
  let ret := if filter.Nickname ≠ "" then mapSet ret "nickname" (.leaf (.string filter.Nickname))
    else ret
  let ret := if filter.Email ≠ "" then mapSet ret "email" (.leaf (.string filter.Email)) else ret
  let ret :=
    if !IsZeroField filter.Created then
      match filter.Created with
      | some created => mapSet ret "created_at" (.M (timeCriteriaToMongo created))
      | none => ret
    else ret
  let ret :=
    if !IsZeroField filter.Updated then
      match filter.Updated with
      | some updated => mapSet ret "updated_at" (.M (timeCriteriaToMongo updated))
      | none => ret
    else ret
  ret

/-- The keys of the BSON document a value is written as by `bson.Marshal`, `none`
for a value that is not written as a document: a `bson.D` and a `bson.M` are
written with their own keys, a struct such as `bson.E` with one key per field, the
name of the field in lower case; the nil `bson.M` is written as the BSON null. -/
def FilterValue.documentKeys : FilterValue → Option (List String)
  | .leaf _ => none
  | .E _ _ => some ["key", "value"]
  | .D elems => some (elems.map Prod.fst)
  | .M none => none
  | .M (some m) => some (m.map Prod.fst)

/-- Whether a time filter has at least one bound. -/
def hasBound (tf : Option TimeFilter) : Bool :=
  match tf with
  | none => false
  | some f => f.Before.isSome || f.After.isSome

end repository

namespace mocks

/-- A filter whose `Created` points to an empty time filter, every other field
unset. -/
def unboundedCreatedFilter : types.UserFilter :=
  { emptyFilter with Created := some ⟨none, none⟩ }

/-- A filter with two ids and two countries, every other field unset. -/
def twoIdsFilter : types.UserFilter :=
  { emptyFilter with Ids := [NewUser.Id, uuid.Nil], Countries := ["UK", "SE"] }

/-- The filter of `Test_userCriteriaToMongoFilter`, with every field set. -/
def fullFilter : types.UserFilter :=
  ⟨[NewUser.Id], "test", "test", "test", "test@example.com", ["UK"],
    some ⟨some 1700000000000000000, some 1700000000000000000⟩,
    some ⟨some 1700000000000000000, some 1700000000000000000⟩⟩

end mocks

namespace mocks

/-- A wire user as a peer sends it: the id of `NewUser` in canonical form and both
timestamps set. -/
def wireUser : generated.User :=
  ⟨"b9e52eb0-5bb1-4d34-a8b8-802f8f5b7a36", "Ada", "Lovelace", "ada", "secret",
    "ada@example.com", "UK", some ⟨1700000000, 5⟩, some ⟨1700000001, 0⟩⟩

end mocks

/-! ### Lemmas on errors -/

theorem errorsIs_refl (e : GoError) : errorsIs e e = true := by
  cases e <;> simp [errorsIs]

theorem errorsIs_wrap (msg : String) (e t : GoError) (h : errorsIs e t = true) :
    errorsIs (.wrap msg e) t = true := by
  simp [errorsIs, h]

theorem errorsIs_join_left (a b : GoError) : errorsIs (.join a b) a = true := by
  simp [errorsIs, errorsIs_refl]

theorem errorsIs_join_right (a b : GoError) : errorsIs (.join a b) b = true := by
  simp [errorsIs, errorsIs_refl]

/-! ### Lemmas on the uuid package -/

namespace uuid

set_option maxRecDepth 100000 in
theorem xtob_hex : ∀ v : Byte, xtob (hexHi v) (hexLo v) = some v := by
  decide

set_option maxRecDepth 100000 in
theorem hex_ne_dot : ∀ v : Byte, hexHi v ≠ '.' ∧ hexLo v ≠ '.' := by
  decide

theorem encodeHex_length (u : UUID) : (encodeHex u).length = 36 := rfl

theorem parseCanonical_encodeHex (u : UUID) : parseCanonical (encodeHex u) = .ok u := by
  obtain ⟨a0, a1, a2, a3, a4, a5, a6, a7, a8, a9, a10, a11, a12, a13, a14, a15⟩ := u
  generalize hs : encodeHex ⟨a0, a1, a2, a3, a4, a5, a6, a7, a8, a9, a10, a11, a12, a13, a14, a15⟩ = s
  have d8 : s[8]? = some '-' := by subst hs; rfl
  have d13 : s[13]? = some '-' := by subst hs; rfl
  have d18 : s[18]? = some '-' := by subst hs; rfl
  have d23 : s[23]? = some '-' := by subst hs; rfl
  have e0 : xtobAt s 0 = some a0 := by subst hs; exact xtob_hex a0
  have e1 : xtobAt s 2 = some a1 := by subst hs; exact xtob_hex a1
  have e2 : xtobAt s 4 = some a2 := by subst hs; exact xtob_hex a2
  have e3 : xtobAt s 6 = some a3 := by subst hs; exact xtob_hex a3
  have e4 : xtobAt s 9 = some a4 := by subst hs; exact xtob_hex a4
  have e5 : xtobAt s 11 = some a5 := by subst hs; exact xtob_hex a5
  have e6 : xtobAt s 14 = some a6 := by subst hs; exact xtob_hex a6
  have e7 : xtobAt s 16 = some a7 := by subst hs; exact xtob_hex a7
  have e8 : xtobAt s 19 = some a8 := by subst hs; exact xtob_hex a8
  have e9 : xtobAt s 21 = some a9 := by subst hs; exact xtob_hex a9
  have e10 : xtobAt s 24 = some a10 := by subst hs; exact xtob_hex a10
  have e11 : xtobAt s 26 = some a11 := by subst hs; exact xtob_hex a11
  have e12 : xtobAt s 28 = some a12 := by subst hs; exact xtob_hex a12
  have e13 : xtobAt s 30 = some a13 := by subst hs; exact xtob_hex a13
  have e14 : xtobAt s 32 = some a14 := by subst hs; exact xtob_hex a14
  have e15 : xtobAt s 34 = some a15 := by subst hs; exact xtob_hex a15
  simp [parseCanonical, d8, d13, d18, d23, e0, e1, e2, e3, e4, e5, e6, e7, e8, e9, e10, e11,
    e12, e13, e14, e15, fromBytes, xtobAll]

/-- Parsing the canonical string of a UUID gives the UUID back. -/
theorem Parse_String (u : UUID) : Parse u.String = .ok u := by
  have h := encodeHex_length u
  simp only [Parse, UUID.String, h, if_true]
  exact parseCanonical_encodeHex u

/-- The canonical string form determines the UUID. -/
theorem String_injective (u v : UUID) (h : u.String = v.String) : u = v := by
  have hu := Parse_String u
  rw [h, Parse_String v] at hu
  exact (Except.ok.inj hu).symm

/-- The canonical string form holds no dot. -/
theorem String_no_dot (u : UUID) : '.' ∉ u.String.data := by
  have hi := fun v => (hex_ne_dot v).1.symm
  have lo := fun v => (hex_ne_dot v).2.symm
  simp [UUID.String, encodeHex, hi, lo]

set_option maxRecDepth 100000 in
theorem version_byte_ne_zero : ∀ x : Byte, (Fin.ofNat ((x.val &&& 0x0f) ||| 0x40) : Byte) ≠ 0 := by
  decide

/-- A UUID made by `uuid.New` is not the nil UUID, whatever the random bytes. -/
theorem New_ne_Nil (rnd : UUID) : New rnd ≠ Nil := by
  intro h
  have h6 := congrArg UUID.b6 h
  exact version_byte_ne_zero rnd.b6 h6

/-- The canonical string form has 36 characters. -/
theorem String_length (u : UUID) : u.String.data.length = 36 := rfl

end uuid

/-! ## The change topic codec -/

namespace pubsub

open types uuid

theorem tokens_three (a b c : String) (ha : '.' ∉ a.data) (hb : '.' ∉ b.data)
    (hc : '.' ∉ c.data) : tokens (a ++ "." ++ b ++ "." ++ c) = [a, b, c] := by
  have h : ([ '.' ].intercalate [a.data, b.data, c.data]).splitOn '.' =
      [a.data, b.data, c.data] :=
    List.splitOn_intercalate [a.data, b.data, c.data] '.' (by simpa using ⟨ha, hb, hc⟩)
      (by simp)
  have e : (a ++ "." ++ b ++ "." ++ c).data = [ '.' ].intercalate [a.data, b.data, c.data] := by
    simp [List.intercalate, String.data_append]
  simp [tokens, e, h]

theorem topicMatches_three (p1 p2 t1 t2 : String) (hp1 : '.' ∉ p1.data) (hp2 : '.' ∉ p2.data)
    (ht1 : '.' ∉ t1.data) (ht2 : '.' ∉ t2.data) :
    topicMatches (usersTopic ++ "." ++ p1 ++ "." ++ p2) (usersTopic ++ "." ++ t1 ++ "." ++ t2) =
      ((p1 == "*" || p1 == t1) && (p2 == "*" || p2 == t2)) := by
  have hu : '.' ∉ usersTopic.data := by decide
  simp [topicMatches, tokens_three, hu, hp1, hp2, ht1, ht2]

theorem changeKinds_no_dot (c : String) (h : c ∈ changeKinds) : '.' ∉ c.data ∧ c ≠ "*" := by
  simp only [changeKinds, List.mem_cons, List.mem_singleton, List.not_mem_nil, or_false] at h
  rcases h with h | h | h | h <;> subst h <;> decide

theorem String_ne_star (u : UUID) : u.String ≠ "*" := by
  intro h
  have hl : u.String.data.length = ("*" : String).data.length := by rw [h]
  rw [uuid.String_length] at hl
  exact absurd hl (by decide)

/-- C1: a subscription filter whose userId is present and is the nil UUID,
whatever its change kind, makes `natsTopicFromSubRequest` return the empty topic
with `ErrInvalidUserId`, and makes `SubscribeToUserChanges` return the nil
channel with that error, with no call on the broker connection and no delivery
goroutine started. -/
theorem C1_nil_userId_filter_rejected {σ : Type} (nc : natsClient σ)
    (change : Option UserChangeType) (s : σ) :
    natsTopicFromSubRequest ⟨some uuid.Nil, change⟩ = ("", some ErrInvalidUserId) ∧
    (nc.SubscribeToUserChanges ⟨some uuid.Nil, change⟩ s).ret = (none, some ErrInvalidUserId) ∧
    (nc.SubscribeToUserChanges ⟨some uuid.Nil, change⟩ s).calls = [] ∧
    (nc.SubscribeToUserChanges ⟨some uuid.Nil, change⟩ s).st = s := by
  have h : natsTopicFromSubRequest ⟨some uuid.Nil, change⟩ = ("", some ErrInvalidUserId) := by
    simp [natsTopicFromSubRequest]
  refine ⟨h, ?_, ?_, ?_⟩ <;> simp [natsClient.SubscribeToUserChanges, h]

/-- C2: for a filter whose userId is absent or a non-nil UUID,
`natsTopicFromSubRequest` returns no error and the topic `"users." + c + "." + u`,
`c` being the change kind if present and `"*"` otherwise, `u` the canonical
string of the userId if present and `"*"` otherwise; the filter with both fields
absent gives `"users.*.*"`. -/
theorem C2_topic_for_subscribe (req : SubscriptionRequest) (h : req.UserId ≠ some uuid.Nil) :
    natsTopicFromSubRequest req =
      ("users." ++ req.Change.getD "*" ++ "." ++ (req.UserId.map UUID.String).getD "*", none) ∧
    natsTopicFromSubRequest ⟨none, none⟩ = ("users.*.*", none) := by
  have hu : usersTopic ++ "." = "users." := by decide
  refine ⟨?_, by decide⟩
  obtain ⟨uid, ch⟩ := req
  cases uid with
  | none => cases ch <;> simp [natsTopicFromSubRequest, hu]
  | some id =>
    have hid : id ≠ uuid.Nil := fun e => h (by simp [e])
    cases ch <;> simp [natsTopicFromSubRequest, hu, hid]

theorem C2_topic_for_subscribe_witness :
    (some (uuid.New uuid.Nil) ≠ some uuid.Nil) ∧
    (natsTopicFromSubRequest ⟨some (uuid.New uuid.Nil), some UserChangeTypeCreated⟩ =
      ("users." ++ (some UserChangeTypeCreated).getD "*" ++ "." ++
        ((some (uuid.New uuid.Nil)).map UUID.String).getD "*", none) ∧
    natsTopicFromSubRequest ⟨none, none⟩ = ("users.*.*", none)) :=
  ⟨by decide,
   C2_topic_for_subscribe ⟨some (uuid.New uuid.Nil), some UserChangeTypeCreated⟩ (by decide)⟩

/-- C3: for an event with a change kind among CREATED, UPDATED, DELETED, UNKNOWN
and a filter whose userId is absent or non-nil and whose change kind is absent
or one of those four, the subscribe topic is derived without error and matches
the publish topic of the event under token-wise wildcard comparison exactly when
every field present in the filter equals the field of the event; the filter with
both fields absent matches the event. -/
theorem C3_subscribe_topic_matches_iff (e : SubscriptionPayload) (f : SubscriptionRequest)
    (hec : e.Change ∈ changeKinds) (hfu : f.UserId ≠ some uuid.Nil)
    (hfc : ∀ c, f.Change = some c → c ∈ changeKinds) :
    (natsTopicFromSubRequest f).2 = none ∧
    (topicMatches (natsTopicFromSubRequest f).1 (natsTopicFromSubResult e) = true ↔
      (∀ c, f.Change = some c → c = e.Change) ∧ (∀ u, f.UserId = some u → u = e.UserId)) ∧
    topicMatches (natsTopicFromSubRequest ⟨none, none⟩).1 (natsTopicFromSubResult e) = true := by
  have he := (changeKinds_no_dot _ hec).1
  have hs : '.' ∉ ("*" : String).data := by decide
  have hue := uuid.String_no_dot e.UserId
  obtain ⟨uid, ch⟩ := f
  refine ⟨?_, ?_, ?_⟩
  · cases uid with
    | none => simp [natsTopicFromSubRequest]
    | some id =>
      have hid : id ≠ uuid.Nil := fun e => hfu (by simp [e])
      simp [natsTopicFromSubRequest, hid]
  · cases uid with
    | none =>
      cases ch with
      | none =>
        simp [natsTopicFromSubRequest, natsTopicFromSubResult, topicMatches_three, hs, he, hue]
      | some c =>
        have hc := changeKinds_no_dot c (hfc c rfl)
        simp [natsTopicFromSubRequest, natsTopicFromSubResult, topicMatches_three, hs, he, hue,
          hc.1, hc.2]
    | some id =>
      have hid : id ≠ uuid.Nil := fun e => hfu (by simp [e])
      have hi := uuid.String_no_dot id
      have hne := String_ne_star id
      have hinj : id.String = e.UserId.String ↔ id = e.UserId :=
        ⟨uuid.String_injective _ _, fun h => by rw [h]⟩
      cases ch with
      | none =>
        simp [natsTopicFromSubRequest, natsTopicFromSubResult, topicMatches_three, hs, he, hue,
          hid, hi, hne, hinj]
      | some c =>
        have hc := changeKinds_no_dot c (hfc c rfl)
        simp [natsTopicFromSubRequest, natsTopicFromSubResult, topicMatches_three, hs, he, hue,
          hid, hi, hne, hinj, hc.1, hc.2]
  · simp [natsTopicFromSubRequest, natsTopicFromSubResult, topicMatches_three, hs, he, hue]

theorem C3_subscribe_topic_matches_iff_witness :
    UserChangeTypeCreated ∈ changeKinds ∧ some (uuid.New uuid.Nil) ≠ some uuid.Nil ∧
    ((natsTopicFromSubRequest ⟨some (uuid.New uuid.Nil), some UserChangeTypeCreated⟩).2 = none ∧
    (topicMatches (natsTopicFromSubRequest ⟨some (uuid.New uuid.Nil), some UserChangeTypeCreated⟩).1
        (natsTopicFromSubResult ⟨uuid.New uuid.Nil, UserChangeTypeCreated⟩) = true ↔
      (∀ c, some UserChangeTypeCreated = some c → c = UserChangeTypeCreated) ∧
      (∀ u, some (uuid.New uuid.Nil) = some u → u = uuid.New uuid.Nil)) ∧
    topicMatches (natsTopicFromSubRequest ⟨none, none⟩).1
      (natsTopicFromSubResult ⟨uuid.New uuid.Nil, UserChangeTypeCreated⟩) = true) :=
  ⟨by decide, by decide,
   C3_subscribe_topic_matches_iff ⟨uuid.New uuid.Nil, UserChangeTypeCreated⟩
    ⟨some (uuid.New uuid.Nil), some UserChangeTypeCreated⟩ (by decide) (by decide)
    (fun c h => Option.some.inj h ▸ (by decide))⟩

end pubsub

/-! ## Wire conversion of change events -/

namespace types

open uuid

theorem lookup_changeKinds (c : String) (h : c ∈ pubsub.changeKinds) :
    ∃ n, generated.UserChangeType_value_lookup c = some n ∧
      UserChangeTypeFromString (generated.UserChangeType.String n) = c := by
  simp only [pubsub.changeKinds, List.mem_cons, List.mem_singleton, List.not_mem_nil,
    or_false] at h
  rcases h with h | h | h | h <;> subst h
  · exact ⟨1, by decide, by decide⟩
  · exact ⟨2, by decide, by decide⟩
  · exact ⟨3, by decide, by decide⟩
  · exact ⟨0, by decide, by decide⟩

/-- C4: an event with a non-nil userId and a change kind among CREATED, UPDATED,
DELETED, UNKNOWN is encoded by `SubscriptionPayload.Proto` with `ok` true, and
`SubscriptionPayloadFromProto` on the message obtained returns the original
event and no error. -/
theorem C4_payload_proto_roundtrip (e : SubscriptionPayload) (hid : e.UserId ≠ uuid.Nil)
    (hc : e.Change ∈ pubsub.changeKinds) :
    ∃ pb, e.Proto = (some pb, true) ∧ SubscriptionPayloadFromProto (some pb) = (e, none) := by
  obtain ⟨n, hn, hs⟩ := lookup_changeKinds e.Change hc
  obtain ⟨id, ch⟩ := e
  refine ⟨{ Update := some { UserId := id.String, ChangeType := n } }, ?_, ?_⟩
  · simp only [SubscriptionPayload.Proto] at *
    simp [hid, hn]
  · simp only [SubscriptionPayloadFromProto, generated.SubscriptionResponse.GetUpdate,
      generated.SubscriptionMessage.GetUserId, generated.SubscriptionMessage.GetChangeType,
      Option.bind, uuid.Parse_String]
    simpa using hs

theorem C4_payload_proto_roundtrip_witness :
    uuid.New uuid.Nil ≠ uuid.Nil ∧ UserChangeTypeUnknown ∈ pubsub.changeKinds ∧
    ∃ pb, SubscriptionPayload.Proto ⟨uuid.New uuid.Nil, UserChangeTypeUnknown⟩ = (some pb, true) ∧
      SubscriptionPayloadFromProto (some pb) = (⟨uuid.New uuid.Nil, UserChangeTypeUnknown⟩, none) :=
  ⟨by decide, by decide,
   C4_payload_proto_roundtrip ⟨uuid.New uuid.Nil, UserChangeTypeUnknown⟩ (by decide) (by decide)⟩

end types

/-! ## The bus client -/

namespace pubsub

open types uuid

theorem lookup_mem_changeKinds (c : String) (n : Int)
    (h : generated.UserChangeType_value_lookup c = some n) : c ∈ changeKinds := by
  by_contra hc
  simp only [changeKinds, UserChangeTypeCreated, UserChangeTypeUpdated, UserChangeTypeDeleted,
    UserChangeTypeUnknown, List.mem_cons, List.mem_singleton, List.not_mem_nil, or_false,
    not_or] at hc
  obtain ⟨h1, h2, h3, h0⟩ := hc
  have e0 : ("UNKNOWN" : String) ≠ c := fun e => h0 e.symm
  have e1 : ("CREATED" : String) ≠ c := fun e => h1 e.symm
  have e2 : ("UPDATED" : String) ≠ c := fun e => h2 e.symm
  have e3 : ("DELETED" : String) ≠ c := fun e => h3 e.symm
  simp [generated.UserChangeType_value_lookup, generated.UserChangeType_value, List.find?, e0, e1,
    e2, e3] at h

theorem Proto_ok_change (e : SubscriptionPayload) (h : e.Proto.2 = true) :
    e.Change ∈ changeKinds := by
  unfold SubscriptionPayload.Proto at h
  split at h
  · simp at h
  · split at h
    · simp at h
    · next n hn => exact lookup_mem_changeKinds _ n hn

/-- C5: `PublishUserChange` on an event with the nil userId returns an error that
is `ErrUnknownError` under `errors.Is` and makes no call on the broker
connection.  Every error it returns is `errors.Join(ErrUnknownError, cause)`,
is `ErrUnknownError` and is `cause` under `errors.Is`, the cause being the
conversion failure, the error of `proto.Marshal` or the error of the broker's
`Publish`.  It calls the broker's `Publish` at most once. -/
theorem C5_publish_error_kind {σ : Type} (nc : natsClient σ) (result : SubscriptionPayload)
    (s : σ) :
    (∀ change, ∃ err, (nc.PublishUserChange ⟨uuid.Nil, change⟩ s).ret = some err ∧
      errorsIs err ErrUnknownError = true ∧
      (nc.PublishUserChange ⟨uuid.Nil, change⟩ s).calls = []) ∧
    (∀ err, (nc.PublishUserChange result s).ret = some err →
      errorsIs err ErrUnknownError = true ∧
      ∃ cause, err = .join ErrUnknownError cause ∧ errorsIs err cause = true ∧
        ((result.Proto.2 = false ∧ cause = .new "could not convert result to protobuf" ∧
            (nc.PublishUserChange result s).calls = []) ∨
         (result.Proto.2 = true ∧ (nc.Marshal result.Proto.1).2 = some cause ∧
            (nc.PublishUserChange result s).calls = []) ∨
         (result.Proto.2 = true ∧ (nc.Marshal result.Proto.1).2 = none ∧
            (nc.client.Publish (natsTopicFromSubResult result) (nc.Marshal result.Proto.1).1
              s).1 = some cause))) ∧
    ((nc.PublishUserChange result s).calls = [] ∨
      (nc.PublishUserChange result s).calls =
        [.Publish (natsTopicFromSubResult result) (nc.Marshal result.Proto.1).1]) := by
  refine ⟨?_, ?_, ?_⟩
  · intro change
    refine ⟨.join ErrUnknownError (.new "could not convert result to protobuf"), ?_, ?_, ?_⟩ <;>
      simp [natsClient.PublishUserChange, SubscriptionPayload.Proto, errorsIs_join_left]
  · intro err herr
    unfold natsClient.PublishUserChange at herr ⊢
    rcases hp : result.Proto with ⟨pb, ok⟩
    rw [hp] at herr
    cases ok with
    | false =>
      simp only [Option.some.injEq] at herr
      subst herr
      exact ⟨errorsIs_join_left _ _, _, rfl, errorsIs_join_right _ _, Or.inl ⟨rfl, rfl, rfl⟩⟩
    | true =>
      simp only at herr ⊢
      rcases hm : nc.Marshal pb with ⟨b, me⟩
      rw [hm] at herr
      cases me with
      | some e =>
        simp only [Option.some.injEq] at herr
        subst herr
        refine ⟨errorsIs_join_left _ _, _, rfl, errorsIs_join_right _ _, ?_⟩
        simp
      | none =>
        simp only at herr ⊢
        rcases hb : nc.client.Publish (natsTopicFromSubResult result) b s with ⟨pe, s1⟩
        rw [hb] at herr
        cases pe with
        | some e =>
          simp only [Option.some.injEq] at herr
          subst herr
          refine ⟨errorsIs_join_left _ _, _, rfl, errorsIs_join_right _ _, ?_⟩
          simp [hb]
        | none => simp at herr
  · unfold natsClient.PublishUserChange
    rcases hp : result.Proto with ⟨pb, ok⟩
    cases ok with
    | false => exact Or.inl rfl
    | true =>
      simp only
      rcases hm : nc.Marshal pb with ⟨b, me⟩
      cases me with
      | some e => exact Or.inl rfl
      | none =>
        simp only
        rcases hb : nc.client.Publish (natsTopicFromSubResult result) b s with ⟨pe, s1⟩
        cases pe <;> exact Or.inr rfl

theorem C5_publish_error_kind_witness :
    ((mocks.natsClient none (some (.new "nats: connection closed"))).PublishUserChange
        ⟨mocks.NewUser.Id, UserChangeTypeCreated⟩ 0).ret =
      some (.join ErrUnknownError (.new "nats: connection closed")) ∧
    errorsIs (.join ErrUnknownError (.new "nats: connection closed")) ErrUnknownError = true ∧
    errorsIs (.join ErrUnknownError (.new "nats: connection closed"))
      (.new "nats: connection closed") = true :=
  ⟨by decide,
   ((C5_publish_error_kind (mocks.natsClient none (some (.new "nats: connection closed")))
      ⟨mocks.NewUser.Id, UserChangeTypeCreated⟩ 0).2.1 _ (by decide)).1,
   by decide⟩

/-- C6: for an event that `SubscriptionPayload.Proto` converts (`ok` true), the
topic `natsTopicFromSubResult` builds splits on `"."` into exactly the three
segments `"users"`, the change kind and the canonical string of the userId, none
of which is `"*"`; and every topic `PublishUserChange` passes to the broker's
`Publish` is the topic of such an event. -/
theorem C6_publish_topic_concrete {σ : Type} (nc : natsClient σ) (e : SubscriptionPayload)
    (s : σ) :
    (e.Proto.2 = true →
      tokens (natsTopicFromSubResult e) = ["users", e.Change, e.UserId.String] ∧
      "*" ∉ tokens (natsTopicFromSubResult e)) ∧
    (∀ subj data, NatsOp.Publish subj data ∈ (nc.PublishUserChange e s).calls →
      e.Proto.2 = true ∧ subj = natsTopicFromSubResult e) := by
  constructor
  · intro h
    have hc := changeKinds_no_dot _ (Proto_ok_change e h)
    have ht : tokens (natsTopicFromSubResult e) = ["users", e.Change, e.UserId.String] :=
      tokens_three usersTopic e.Change e.UserId.String (by decide) hc.1
        (uuid.String_no_dot e.UserId)
    refine ⟨ht, ?_⟩
    rw [ht]
    have hu := String_ne_star e.UserId
    have hk : ("*" : String) ≠ "users" := by decide
    simp [hk, Ne.symm hc.2, Ne.symm hu]
  · intro subj data hmem
    unfold natsClient.PublishUserChange at hmem
    rcases hp : e.Proto with ⟨pb, ok⟩
    rw [hp] at hmem
    cases ok with
    | false => simp at hmem
    | true =>
      simp only at hmem
      rcases hm : nc.Marshal pb with ⟨b, me⟩
      rw [hm] at hmem
      cases me with
      | some err => simp at hmem
      | none =>
        simp only at hmem
        rcases hb : nc.client.Publish (natsTopicFromSubResult e) b s with ⟨pe, s1⟩
        rw [hb] at hmem
        cases pe <;> simp at hmem <;> exact ⟨rfl, hmem.1⟩

theorem C6_publish_topic_concrete_witness :
    (SubscriptionPayload.Proto ⟨mocks.NewUser.Id, UserChangeTypeDeleted⟩).2 = true ∧
    tokens (natsTopicFromSubResult ⟨mocks.NewUser.Id, UserChangeTypeDeleted⟩) =
      ["users", "DELETED", "b9e52eb0-5bb1-4d34-a8b8-802f8f5b7a36"] ∧
    "*" ∉ tokens (natsTopicFromSubResult ⟨mocks.NewUser.Id, UserChangeTypeDeleted⟩) :=
  ⟨by decide,
   (C6_publish_topic_concrete (mocks.natsClient none none)
      ⟨mocks.NewUser.Id, UserChangeTypeDeleted⟩ 0).1 (by decide)⟩

end pubsub

/-! ## The domain service -/

namespace domain

open types uuid internal

/-- The record `userService.Add` hands to the repository and leaves in `*user`. -/
theorem Add_ret_user {σ : Type} (us : userService σ) (now : Time) (rnd : UUID) (user : User)
    (s : σ) :
    (us.Add now rnd user s).ret.1 =
      { user with
        Id := if user.Id = uuid.Nil then uuid.New rnd else user.Id
        CreatedAt := now
        UpdatedAt := none } := by
  unfold userService.Add
  by_cases h : user.Id = uuid.Nil <;> simp only [h, if_true, if_false] <;> split <;>
    (try split) <;> rfl

theorem Add_repo_error {σ : Type} (us : userService σ) (now : Time) (rnd : UUID) (user : User)
    (s : σ) (e : GoError) (h : (us.repo.Add (us.Add now rnd user s).ret.1 s).1 = some e) :
    (us.Add now rnd user s).ret.2 = some (.wrap "failed to add user: " e) ∧
    (us.Add now rnd user s).calls = [.repoAdd (us.Add now rnd user s).ret.1] ∧
    (us.Add now rnd user s).st = (us.repo.Add (us.Add now rnd user s).ret.1 s).2 := by
  rw [Add_ret_user] at h ⊢
  unfold userService.Add
  by_cases hid : user.Id = uuid.Nil <;> simp only [hid, if_true, if_false] at h ⊢ <;>
    split <;> simp_all

theorem Add_repo_ok {σ : Type} (us : userService σ) (now : Time) (rnd : UUID) (user : User)
    (s : σ) (h : (us.repo.Add (us.Add now rnd user s).ret.1 s).1 = none) :
    (us.Add now rnd user s).ret.2 = none ∧
    (us.Add now rnd user s).calls = [.repoAdd (us.Add now rnd user s).ret.1,
      .PublishUserChange ⟨(us.Add now rnd user s).ret.1.Id, UserChangeTypeCreated⟩] ∧
    (us.Add now rnd user s).st = (us.pubsub.PublishUserChange
      ⟨(us.Add now rnd user s).ret.1.Id, UserChangeTypeCreated⟩
      (us.repo.Add (us.Add now rnd user s).ret.1 s).2).2 := by
  rw [Add_ret_user] at h ⊢
  unfold userService.Add
  by_cases hid : user.Id = uuid.Nil <;> simp only [hid, if_true, if_false] at h ⊢ <;>
    split <;> simp_all <;> split <;> simp_all

theorem UpdatePartial_repo_error {σ : Type} (us : userService σ) (filter : UserFilter)
    (fields : UpdateUserFields) (s : σ) (e : GoError)
    (h : (us.repo.UpdatePartial filter fields s).1.2 = some e) :
    (us.UpdatePartial filter fields s).ret = some e ∧
    (us.UpdatePartial filter fields s).calls = [.repoUpdatePartial filter fields] ∧
    (us.UpdatePartial filter fields s).st = (us.repo.UpdatePartial filter fields s).2 := by
  unfold userService.UpdatePartial
  split <;> simp_all

theorem UpdatePartial_repo_ok {σ : Type} (us : userService σ) (filter : UserFilter)
    (fields : UpdateUserFields) (s : σ)
    (h : (us.repo.UpdatePartial filter fields s).1.2 = none) :
    (us.UpdatePartial filter fields s).ret = none ∧
    (us.UpdatePartial filter fields s).calls = [.repoUpdatePartial filter fields,
      .PublishUserChange ⟨(us.repo.UpdatePartial filter fields s).1.1.Id, UserChangeTypeUpdated⟩] ∧
    (us.UpdatePartial filter fields s).st = (us.pubsub.PublishUserChange
      ⟨(us.repo.UpdatePartial filter fields s).1.1.Id, UserChangeTypeUpdated⟩
      (us.repo.UpdatePartial filter fields s).2).2 := by
  unfold userService.UpdatePartial
  split
  · simp_all
  · simp_all
    split <;> simp_all

theorem Delete_nil {σ : Type} (us : userService σ) (s : σ) :
    (us.Delete uuid.Nil s).ret = some (.wrap "failed to delete user: " ErrInvalidUserId) ∧
    (us.Delete uuid.Nil s).calls = [] ∧ (us.Delete uuid.Nil s).st = s := by
  simp [userService.Delete]

theorem Delete_repo_error {σ : Type} (us : userService σ) (userId : UUID) (s : σ) (e : GoError)
    (hid : userId ≠ uuid.Nil) (h : (us.repo.Delete userId s).1 = some e) :
    (us.Delete userId s).ret = some (.wrap "failed to delete user: " e) ∧
    (us.Delete userId s).calls = [.repoDelete userId] ∧
    (us.Delete userId s).st = (us.repo.Delete userId s).2 := by
  unfold userService.Delete
  simp only [hid, if_false]
  split <;> simp_all

theorem Delete_repo_ok {σ : Type} (us : userService σ) (userId : UUID) (s : σ)
    (hid : userId ≠ uuid.Nil) (h : (us.repo.Delete userId s).1 = none) :
    (us.Delete userId s).ret = none ∧
    (us.Delete userId s).calls =
      [.repoDelete userId, .PublishUserChange ⟨userId, UserChangeTypeDeleted⟩] ∧
    (us.Delete userId s).st = (us.pubsub.PublishUserChange ⟨userId, UserChangeTypeDeleted⟩
      (us.repo.Delete userId s).2).2 := by
  unfold userService.Delete
  simp only [hid, if_false]
  split
  · simp_all
  · simp_all
    split <;> simp_all

/-- C7: for `Add`, `UpdatePartial` and `Delete` (with a non-nil id), when the
repository call returns an error `e`, the operation returns a non-nil error
`err` with `errors.Is(err, e)`, which is every target that `e` is (so a NotFound
stays a NotFound), and `PublishUserChange` is not called. -/
theorem C7_repository_error_aborts {σ : Type} (us : userService σ) (s : σ) (e : GoError) :
    (∀ now rnd user, (us.repo.Add (us.Add now rnd user s).ret.1 s).1 = some e →
      ∃ err, (us.Add now rnd user s).ret.2 = some err ∧ errorsIs err e = true ∧
        (∀ t, errorsIs e t = true → errorsIs err t = true) ∧
        ∀ p, Call.PublishUserChange p ∉ (us.Add now rnd user s).calls) ∧
    (∀ filter fields, (us.repo.UpdatePartial filter fields s).1.2 = some e →
      ∃ err, (us.UpdatePartial filter fields s).ret = some err ∧ errorsIs err e = true ∧
        (∀ t, errorsIs e t = true → errorsIs err t = true) ∧
        ∀ p, Call.PublishUserChange p ∉ (us.UpdatePartial filter fields s).calls) ∧
    (∀ userId, userId ≠ uuid.Nil → (us.repo.Delete userId s).1 = some e →
      ∃ err, (us.Delete userId s).ret = some err ∧ errorsIs err e = true ∧
        (∀ t, errorsIs e t = true → errorsIs err t = true) ∧
        ∀ p, Call.PublishUserChange p ∉ (us.Delete userId s).calls) := by
  refine ⟨?_, ?_, ?_⟩
  · intro now rnd user h
    obtain ⟨hr, hc, _⟩ := Add_repo_error us now rnd user s e h
    refine ⟨_, hr, errorsIs_wrap _ _ _ (errorsIs_refl e), fun t ht => errorsIs_wrap _ _ _ ht, ?_⟩
    intro p hp
    rw [hc] at hp
    simp at hp
  · intro filter fields h
    obtain ⟨hr, hc, _⟩ := UpdatePartial_repo_error us filter fields s e h
    refine ⟨_, hr, errorsIs_refl e, fun t ht => ht, ?_⟩
    intro p hp
    rw [hc] at hp
    simp at hp
  · intro userId hid h
    obtain ⟨hr, hc, _⟩ := Delete_repo_error us userId s e hid h
    refine ⟨_, hr, errorsIs_wrap _ _ _ (errorsIs_refl e), fun t ht => errorsIs_wrap _ _ _ ht, ?_⟩
    intro p hp
    rw [hc] at hp
    simp at hp

theorem C7_repository_error_aborts_witness :
    (((mocks.userService (some ErrDuplicateUserId) none).repo.Add
        ((mocks.userService (some ErrDuplicateUserId) none).Add 5 uuid.Nil mocks.NewUser 0).ret.1
        0).1 = some ErrDuplicateUserId ∧
      ∃ err, ((mocks.userService (some ErrDuplicateUserId) none).Add 5 uuid.Nil mocks.NewUser
        0).ret.2 = some err ∧ errorsIs err ErrDuplicateUserId = true) ∧
    (((mocks.userService (some ErrNotFound) none).repo.UpdatePartial mocks.emptyFilter
        mocks.emptyFields 0).1.2 = some ErrNotFound ∧
      ∃ err, ((mocks.userService (some ErrNotFound) none).UpdatePartial mocks.emptyFilter
        mocks.emptyFields 0).ret = some err ∧ errorsIs err ErrNotFound = true) ∧
    (mocks.NewUser.Id ≠ uuid.Nil ∧
      ((mocks.userService (some ErrUnknownError) none).repo.Delete mocks.NewUser.Id 0).1 =
        some ErrUnknownError ∧
      ∃ err, ((mocks.userService (some ErrUnknownError) none).Delete mocks.NewUser.Id 0).ret =
        some err ∧ errorsIs err ErrUnknownError = true) :=
  ⟨⟨by decide,
    ((C7_repository_error_aborts (mocks.userService (some ErrDuplicateUserId) none) 0
      ErrDuplicateUserId).1 5 uuid.Nil mocks.NewUser (by decide)).imp
      (fun _ h => ⟨h.1, h.2.1⟩)⟩,
   ⟨by decide,
    ((C7_repository_error_aborts (mocks.userService (some ErrNotFound) none) 0
      ErrNotFound).2.1 mocks.emptyFilter mocks.emptyFields (by decide)).imp
      (fun _ h => ⟨h.1, h.2.1⟩)⟩,
   ⟨by decide, by decide,
    ((C7_repository_error_aborts (mocks.userService (some ErrUnknownError) none) 0
      ErrUnknownError).2.2 mocks.NewUser.Id (by decide) (by decide)).imp
      (fun _ h => ⟨h.1, h.2.1⟩)⟩⟩

/-- C8: for `Add`, `UpdatePartial` and `Delete` (with a non-nil id), when the
repository call succeeds and `PublishUserChange` returns an error, the operation
returns nil, and `PublishUserChange` has been called exactly once. -/
theorem C8_publish_error_swallowed {σ : Type} (us : userService σ) (s : σ) (pe : GoError) :
    (∀ now rnd user, (us.repo.Add (us.Add now rnd user s).ret.1 s).1 = none →
      (us.pubsub.PublishUserChange ⟨(us.Add now rnd user s).ret.1.Id, UserChangeTypeCreated⟩
        (us.repo.Add (us.Add now rnd user s).ret.1 s).2).1 = some pe →
      (us.Add now rnd user s).ret.2 = none ∧
      ((us.Add now rnd user s).calls.filter Call.isPublish).length = 1) ∧
    (∀ filter fields, (us.repo.UpdatePartial filter fields s).1.2 = none →
      (us.pubsub.PublishUserChange
        ⟨(us.repo.UpdatePartial filter fields s).1.1.Id, UserChangeTypeUpdated⟩
        (us.repo.UpdatePartial filter fields s).2).1 = some pe →
      (us.UpdatePartial filter fields s).ret = none ∧
      ((us.UpdatePartial filter fields s).calls.filter Call.isPublish).length = 1) ∧
    (∀ userId, userId ≠ uuid.Nil → (us.repo.Delete userId s).1 = none →
      (us.pubsub.PublishUserChange ⟨userId, UserChangeTypeDeleted⟩
        (us.repo.Delete userId s).2).1 = some pe →
      (us.Delete userId s).ret = none ∧
      ((us.Delete userId s).calls.filter Call.isPublish).length = 1) := by
  refine ⟨?_, ?_, ?_⟩
  · intro now rnd user h _
    obtain ⟨hr, hc, _⟩ := Add_repo_ok us now rnd user s h
    exact ⟨hr, by rw [hc]; rfl⟩
  · intro filter fields h _
    obtain ⟨hr, hc, _⟩ := UpdatePartial_repo_ok us filter fields s h
    exact ⟨hr, by rw [hc]; rfl⟩
  · intro userId hid h _
    obtain ⟨hr, hc, _⟩ := Delete_repo_ok us userId s hid h
    exact ⟨hr, by rw [hc]; rfl⟩

theorem C8_publish_error_swallowed_witness :
    (((mocks.userService none (some ErrUnknownError)).Add 5 uuid.Nil mocks.NewUser 0).ret.2 = none ∧
      (((mocks.userService none (some ErrUnknownError)).Add 5 uuid.Nil mocks.NewUser
        0).calls.filter Call.isPublish).length = 1) ∧
    (((mocks.userService none (some ErrUnknownError)).UpdatePartial mocks.emptyFilter
        mocks.emptyFields 0).ret = none ∧
      (((mocks.userService none (some ErrUnknownError)).UpdatePartial mocks.emptyFilter
        mocks.emptyFields 0).calls.filter Call.isPublish).length = 1) ∧
    (((mocks.userService none (some ErrUnknownError)).Delete mocks.NewUser.Id 0).ret = none ∧
      (((mocks.userService none (some ErrUnknownError)).Delete mocks.NewUser.Id
        0).calls.filter Call.isPublish).length = 1) :=
  ⟨(C8_publish_error_swallowed (mocks.userService none (some ErrUnknownError)) 0
      ErrUnknownError).1 5 uuid.Nil mocks.NewUser (by decide) (by decide),
   (C8_publish_error_swallowed (mocks.userService none (some ErrUnknownError)) 0
      ErrUnknownError).2.1 mocks.emptyFilter mocks.emptyFields (by decide) (by decide),
   (C8_publish_error_swallowed (mocks.userService none (some ErrUnknownError)) 0
      ErrUnknownError).2.2 mocks.NewUser.Id (by decide) (by decide) (by decide)⟩

/-- C9: the calls of `Add`, `UpdatePartial` and `Delete`, in order, are the
repository mutation, once, followed by `PublishUserChange`, once, exactly when
the mutation returned no error; the publish is made on what the mutation left
behind, with the payload (id of the record handed to the repository, CREATED)
for `Add`, (id of the row the repository returned, UPDATED) for `UpdatePartial`
and (the given id, DELETED) for `Delete`.  `Delete` of the nil UUID makes no
call at all.  So every execution has at most one mutation call, at most one
publish call, and no publish call that is not preceded by the mutation. -/
theorem C9_mutation_then_publish {σ : Type} (us : userService σ) (s : σ) :
    (∀ now rnd user,
      (us.Add now rnd user s).calls =
        .repoAdd (us.Add now rnd user s).ret.1 ::
          (if (us.repo.Add (us.Add now rnd user s).ret.1 s).1 = none then
            [.PublishUserChange ⟨(us.Add now rnd user s).ret.1.Id, UserChangeTypeCreated⟩]
          else []) ∧
      (us.Add now rnd user s).st =
        (if (us.repo.Add (us.Add now rnd user s).ret.1 s).1 = none then
          (us.pubsub.PublishUserChange
            ⟨(us.Add now rnd user s).ret.1.Id, UserChangeTypeCreated⟩
            (us.repo.Add (us.Add now rnd user s).ret.1 s).2).2
        else (us.repo.Add (us.Add now rnd user s).ret.1 s).2) ∧
      ((us.Add now rnd user s).calls.filter Call.isMutation).length = 1 ∧
      ((us.Add now rnd user s).calls.filter Call.isPublish).length ≤ 1 ∧
      ((us.Add now rnd user s).calls.take 1).all (fun c => !c.isPublish) = true) ∧
    (∀ filter fields,
      (us.UpdatePartial filter fields s).calls =
        .repoUpdatePartial filter fields ::
          (if (us.repo.UpdatePartial filter fields s).1.2 = none then
            [.PublishUserChange
              ⟨(us.repo.UpdatePartial filter fields s).1.1.Id, UserChangeTypeUpdated⟩]
          else []) ∧
      (us.UpdatePartial filter fields s).st =
        (if (us.repo.UpdatePartial filter fields s).1.2 = none then
          (us.pubsub.PublishUserChange
            ⟨(us.repo.UpdatePartial filter fields s).1.1.Id, UserChangeTypeUpdated⟩
            (us.repo.UpdatePartial filter fields s).2).2
        else (us.repo.UpdatePartial filter fields s).2) ∧
      ((us.UpdatePartial filter fields s).calls.filter Call.isMutation).length = 1 ∧
      ((us.UpdatePartial filter fields s).calls.filter Call.isPublish).length ≤ 1 ∧
      ((us.UpdatePartial filter fields s).calls.take 1).all (fun c => !c.isPublish) = true) ∧
    (∀ userId,
      (us.Delete userId s).calls =
        (if userId = uuid.Nil then []
        else .repoDelete userId ::
          (if (us.repo.Delete userId s).1 = none then
            [.PublishUserChange ⟨userId, UserChangeTypeDeleted⟩]
          else [])) ∧
      (us.Delete userId s).st =
        (if userId = uuid.Nil then s
        else if (us.repo.Delete userId s).1 = none then
          (us.pubsub.PublishUserChange ⟨userId, UserChangeTypeDeleted⟩
            (us.repo.Delete userId s).2).2
        else (us.repo.Delete userId s).2) ∧
      ((us.Delete userId s).calls.filter Call.isMutation).length ≤ 1 ∧
      ((us.Delete userId s).calls.filter Call.isPublish).length ≤ 1 ∧
      ((us.Delete userId s).calls.take 1).all (fun c => !c.isPublish) = true) := by
  refine ⟨?_, ?_, ?_⟩
  · intro now rnd user
    cases h : (us.repo.Add (us.Add now rnd user s).ret.1 s).1 with
    | none =>
      obtain ⟨_, hc, hs⟩ := Add_repo_ok us now rnd user s h
      simp [hc, hs, Call.isMutation, Call.isPublish]
    | some e =>
      obtain ⟨_, hc, hs⟩ := Add_repo_error us now rnd user s e h
      simp [hc, hs, Call.isMutation, Call.isPublish]
  · intro filter fields
    cases h : (us.repo.UpdatePartial filter fields s).1.2 with
    | none =>
      obtain ⟨_, hc, hs⟩ := UpdatePartial_repo_ok us filter fields s h
      simp [hc, hs, Call.isMutation, Call.isPublish]
    | some e =>
      obtain ⟨_, hc, hs⟩ := UpdatePartial_repo_error us filter fields s e h
      simp [hc, hs, Call.isMutation, Call.isPublish]
  · intro userId
    by_cases hid : userId = uuid.Nil
    · subst hid
      obtain ⟨_, hc, hs⟩ := Delete_nil us s
      simp [hc, hs]
    · cases h : (us.repo.Delete userId s).1 with
      | none =>
        obtain ⟨_, hc, hs⟩ := Delete_repo_ok us userId s hid h
        simp [hc, hs, hid, Call.isMutation, Call.isPublish]
      | some e =>
        obtain ⟨_, hc, hs⟩ := Delete_repo_error us userId s e hid h
        simp [hc, hs, hid, Call.isMutation, Call.isPublish]

/-- C10: whatever id, createdAt and updatedAt the caller supplied, the record
that `Add` hands to `Repository.Add`, which is also `*user` when `Add` returns,
has updatedAt nil, createdAt equal to the clock reading of `Add`, the caller's
id when that was non-nil and otherwise the UUID `uuid.New` generated, which is
not nil, and the caller's first name, last name, nickname, email, password and
country. -/
theorem C10_add_prepares_record {σ : Type} (us : userService σ) (now : Time) (rnd : UUID)
    (user : User) (s : σ) :
    (us.Add now rnd user s).calls.head? = some (.repoAdd (us.Add now rnd user s).ret.1) ∧
    (us.Add now rnd user s).ret.1.UpdatedAt = none ∧
    (us.Add now rnd user s).ret.1.CreatedAt = now ∧
    (us.Add now rnd user s).ret.1.Id =
      (if user.Id = uuid.Nil then uuid.New rnd else user.Id) ∧
    uuid.New rnd ≠ uuid.Nil ∧
    (us.Add now rnd user s).ret.1.Id ≠ uuid.Nil ∧
    (us.Add now rnd user s).ret.1.FirstName = user.FirstName ∧
    (us.Add now rnd user s).ret.1.LastName = user.LastName ∧
    (us.Add now rnd user s).ret.1.Nickname = user.Nickname ∧
    (us.Add now rnd user s).ret.1.Email = user.Email ∧
    (us.Add now rnd user s).ret.1.Password = user.Password ∧
    (us.Add now rnd user s).ret.1.Country = user.Country := by
  have hcalls : (us.Add now rnd user s).calls.head? =
      some (.repoAdd (us.Add now rnd user s).ret.1) := by
    cases h : (us.repo.Add (us.Add now rnd user s).ret.1 s).1 with
    | none => rw [(Add_repo_ok us now rnd user s h).2.1]; rfl
    | some e => rw [(Add_repo_error us now rnd user s e h).2.1]; rfl
  refine ⟨hcalls, ?_⟩
  rw [Add_ret_user]
  refine ⟨rfl, rfl, rfl, uuid.New_ne_Nil rnd, ?_, rfl, rfl, rfl, rfl, rfl, rfl⟩
  by_cases hid : user.Id = uuid.Nil
  · simp [hid, uuid.New_ne_Nil]
  · simp [hid]

end domain

/-! ## The domain service: Delete guard and List -/

namespace domain

open types uuid internal

/-- C11: `Delete` of the nil UUID returns an error that is `ErrInvalidUserId`
under `errors.Is` and makes no call, neither `Repository.Delete` nor
`PublishUserChange`; for a non-nil id the first call is `Repository.Delete` with
that id, and it is the only call on the repository. -/
theorem C11_delete_nil_guard {σ : Type} (us : userService σ) (s : σ) :
    (∃ err, (us.Delete uuid.Nil s).ret = some err ∧ errorsIs err ErrInvalidUserId = true ∧
      (us.Delete uuid.Nil s).calls = [] ∧ (us.Delete uuid.Nil s).st = s) ∧
    (∀ userId, userId ≠ uuid.Nil →
      (us.Delete userId s).calls.head? = some (.repoDelete userId) ∧
      (us.Delete userId s).calls.filter Call.isMutation = [.repoDelete userId]) := by
  constructor
  · obtain ⟨hr, hc, hs⟩ := Delete_nil us s
    exact ⟨_, hr, errorsIs_wrap _ _ _ (errorsIs_refl _), hc, hs⟩
  · intro userId hid
    cases h : (us.repo.Delete userId s).1 with
    | none =>
      obtain ⟨_, hc, _⟩ := Delete_repo_ok us userId s hid h
      simp [hc, Call.isMutation]
    | some e =>
      obtain ⟨_, hc, _⟩ := Delete_repo_error us userId s e hid h
      simp [hc, Call.isMutation]

theorem C11_delete_nil_guard_witness :
    mocks.NewUser.Id ≠ uuid.Nil ∧
    ((mocks.userService none none).Delete mocks.NewUser.Id 0).calls.head? =
      some (.repoDelete mocks.NewUser.Id) ∧
    ((mocks.userService none none).Delete mocks.NewUser.Id 0).calls.filter Call.isMutation =
      [.repoDelete mocks.NewUser.Id] :=
  ⟨by decide, (C11_delete_nil_guard (mocks.userService none none) 0).2 mocks.NewUser.Id
    (by decide)⟩

/-- C12: with `paging.Limit == 0` (any offset, any filter, any repository state,
such as the one a successful `Add` leaves) `List` returns no users, total 0 and
no error, and makes no call; with `paging.Limit != 0` it calls `Repository.List`
exactly once, with the same filter and paging, and when that returns no error
it returns the users and the total the repository returned. -/
theorem C12_list_limit_zero {σ : Type} (us : userService σ) (filter : UserFilter)
    (paging : Paging) (s : σ) :
    (paging.Limit = 0 →
      (us.List filter paging s).ret = ([], 0, none) ∧ (us.List filter paging s).calls = [] ∧
      (us.List filter paging s).st = s ∧
      ∀ now rnd user,
        (us.List filter paging (us.Add now rnd user s).st).ret = ([], 0, none) ∧
        (us.List filter paging (us.Add now rnd user s).st).calls = []) ∧
    (paging.Limit ≠ 0 →
      (us.List filter paging s).calls = [.repoList filter paging] ∧
      (us.List filter paging s).st = (us.repo.List filter paging s).2 ∧
      ((us.repo.List filter paging s).1.2.2 = none →
        (us.List filter paging s).ret = (us.repo.List filter paging s).1)) := by
  constructor
  · intro h
    simp [userService.List, h]
  · intro h
    unfold userService.List
    simp only [h, if_false]
    split
    · next hr => simp [hr]
    · next hr => simp [hr]

theorem C12_list_limit_zero_witness :
    ((⟨7, 0⟩ : Paging).Limit = 0 ∧
      ((mocks.userService none none).List mocks.emptyFilter ⟨7, 0⟩ 0).ret = ([], 0, none) ∧
      ((mocks.userService none none).List mocks.emptyFilter ⟨7, 0⟩ 0).calls = []) ∧
    ((⟨0, 5⟩ : Paging).Limit ≠ 0 ∧
      ((mocks.userService none none).List mocks.emptyFilter ⟨0, 5⟩ 0).calls =
        [.repoList mocks.emptyFilter ⟨0, 5⟩]) :=
  ⟨⟨by decide,
    ((C12_list_limit_zero (mocks.userService none none) mocks.emptyFilter ⟨7, 0⟩ 0).1
      (by decide)).1,
    ((C12_list_limit_zero (mocks.userService none none) mocks.emptyFilter ⟨7, 0⟩ 0).1
      (by decide)).2.1⟩,
   ⟨by decide,
    ((C12_list_limit_zero (mocks.userService none none) mocks.emptyFilter ⟨0, 5⟩ 0).2
      (by decide)).1⟩⟩

end domain

/-! ## The Subscribe bridge -/

namespace service

open types uuid internal codes

theorem selectStep_recv {σ : Type} (serv : SubscribeServer σ) (resp : SubscriptionPayload)
    (s : σ) :
    (selectStep serv (.recv resp) s).ret = none ∧
    (selectStep serv (.recv resp) s).calls = (sendOf resp).toList := by
  unfold selectStep sendOf
  rcases hp : resp.Proto with ⟨pb, ok⟩
  cases ok with
  | false => simp [hp]
  | true =>
    rcases hs : serv.Send pb s with ⟨e, s1⟩
    cases e <;> simp [hp, hs]

theorem subscribeLoop_recvs {σ : Type} (serv : SubscribeServer σ) (es : List SubscriptionPayload)
    (rest : Schedule) (s : σ) :
    (subscribeLoop serv (es.map .recv) s).ret = none ∧
    (subscribeLoop serv (es.map .recv) s).calls = es.filterMap sendOf ∧
    (subscribeLoop serv (es.map .recv ++ rest) s).ret =
      (subscribeLoop serv rest (subscribeLoop serv (es.map .recv) s).st).ret ∧
    (subscribeLoop serv (es.map .recv ++ rest) s).calls =
      es.filterMap sendOf ++
        (subscribeLoop serv rest (subscribeLoop serv (es.map .recv) s).st).calls := by
  induction es generalizing s with
  | nil => simp [subscribeLoop]
  | cons e es ih =>
    obtain ⟨hr, hc⟩ := selectStep_recv serv e s
    obtain ⟨i1, i2, i3, i4⟩ := ih (selectStep serv (.recv e) s).st
    simp only [List.map_cons, List.cons_append, subscribeLoop, hr, hc]
    cases h : sendOf e <;> simp [List.filterMap_cons, h, i1, i2, i3, i4]

theorem subscribeLoop_outcome {σ : Type} (serv : SubscribeServer σ) (sched : Schedule) (s : σ)
    (r : Option status.Status) (h : (subscribeLoop serv sched s).ret = some r) :
    (r = none ∧ .ctxDone ∈ sched) ∨
    (r = some ⟨.Internal, "subscription channel closed"⟩ ∧ .recvClosed ∈ sched) := by
  induction sched generalizing s with
  | nil => simp [subscribeLoop] at h
  | cons b bs ih =>
    cases b with
    | recv e =>
      have hr := (selectStep_recv serv e s).1
      simp only [subscribeLoop, hr] at h
      rcases ih _ h with h1 | h1
      · exact Or.inl ⟨h1.1, List.mem_cons_of_mem _ h1.2⟩
      · exact Or.inr ⟨h1.1, List.mem_cons_of_mem _ h1.2⟩
    | recvClosed =>
      simp [subscribeLoop, selectStep, status.Error] at h
      exact Or.inr ⟨h.symm, List.mem_cons_self _ _⟩
    | ctxDone =>
      simp [subscribeLoop, selectStep] at h
      exact Or.inl ⟨h.symm, List.mem_cons_self _ _⟩

theorem subscribeLoop_terminates {σ : Type} (serv : SubscribeServer σ) (sched : Schedule)
    (s : σ) (h : .recvClosed ∈ sched ∨ .ctxDone ∈ sched) :
    (subscribeLoop serv sched s).ret ≠ none := by
  induction sched generalizing s with
  | nil => simp at h
  | cons b bs ih =>
    cases b with
    | recv e =>
      have hr := (selectStep_recv serv e s).1
      simp only [subscribeLoop, hr]
      apply ih
      simpa using h
    | recvClosed => simp [subscribeLoop, selectStep, status.Error]
    | ctxDone => simp [subscribeLoop, selectStep]

theorem Subscribe_running {σ : Type} (u : usersGrpc σ) (serv : SubscribeServer σ)
    (req : Option generated.SubscriptionRequest) (sched : Schedule) (s : σ)
    (hreq : (SubscriptionRequestFromProto req).2 = none)
    (hsub : (u.service.SubscribeToUserChanges (SubscriptionRequestFromProto req).1 s).1.2 = none) :
    (u.Subscribe serv req sched s).ret =
      (subscribeLoop serv sched
        (u.service.SubscribeToUserChanges (SubscriptionRequestFromProto req).1 s).2).ret ∧
    (u.Subscribe serv req sched s).calls =
      .SubscribeToUserChanges (SubscriptionRequestFromProto req).1 ::
        (subscribeLoop serv sched
          (u.service.SubscribeToUserChanges (SubscriptionRequestFromProto req).1 s).2).calls := by
  unfold usersGrpc.Subscribe
  split
  · next h => simp [h] at hreq
  · next r h =>
    simp only [h] at hsub ⊢
    split
    · next h2 => simp [h2] at hsub
    · next h2 => simp [h2]

end service

namespace service

open types uuid internal codes

/-- C13: once the bridge is running (the request converted and the subscription
was made), events received one after the other followed by the closed stream
make `Subscribe` return the status `Internal`, whatever the events and whatever
each `Send` returned; and along any cases that never take the cancellation
branch, `Subscribe` does not return nil, and it returns `Internal` as soon as
they hold the closed stream. -/
theorem C13_closed_stream_is_internal {σ : Type} (u : usersGrpc σ) (serv : SubscribeServer σ)
    (req : Option generated.SubscriptionRequest) (s : σ)
    (hreq : (SubscriptionRequestFromProto req).2 = none)
    (hsub : (u.service.SubscribeToUserChanges (SubscriptionRequestFromProto req).1 s).1.2 = none) :
    (∀ es : List SubscriptionPayload,
      (u.Subscribe serv req (es.map .recv ++ [.recvClosed]) s).ret =
        some (some ⟨.Internal, "subscription channel closed"⟩)) ∧
    (∀ sched : Schedule, .ctxDone ∉ sched →
      (u.Subscribe serv req sched s).ret ≠ some none ∧
      (.recvClosed ∈ sched → (u.Subscribe serv req sched s).ret =
        some (some ⟨.Internal, "subscription channel closed"⟩))) := by
  have key : ∀ sched : Schedule, .ctxDone ∉ sched →
      (u.Subscribe serv req sched s).ret ≠ some none ∧
      (.recvClosed ∈ sched → (u.Subscribe serv req sched s).ret =
        some (some ⟨.Internal, "subscription channel closed"⟩)) := by
    intro sched hno
    rw [(Subscribe_running u serv req sched s hreq hsub).1]
    constructor
    · intro h
      rcases subscribeLoop_outcome serv sched _ _ h with h1 | h1
      · exact hno h1.2
      · simp at h1
    · intro hc
      have ht := subscribeLoop_terminates serv sched
        (u.service.SubscribeToUserChanges (SubscriptionRequestFromProto req).1 s).2 (Or.inl hc)
      cases hr : (subscribeLoop serv sched
        (u.service.SubscribeToUserChanges (SubscriptionRequestFromProto req).1 s).2).ret with
      | none => exact absurd hr ht
      | some r =>
        rcases subscribeLoop_outcome serv sched _ _ hr with h1 | h1
        · exact absurd h1.2 hno
        · rw [h1.1]
  refine ⟨fun es => ?_, key⟩
  exact (key (es.map .recv ++ [.recvClosed]) (by simp)).2 (by simp)

theorem C13_closed_stream_is_internal_witness :
    (SubscriptionRequestFromProto none).2 = none ∧
    ((mocks.usersGrpc none none).service.SubscribeToUserChanges
      (SubscriptionRequestFromProto none).1 0).1.2 = none ∧
    ((mocks.usersGrpc none none).Subscribe (mocks.SubscribeServer none) none
      ([mocks.result].map .recv ++ [.recvClosed]) 0).ret =
        some (some ⟨.Internal, "subscription channel closed"⟩) :=
  ⟨by decide, by decide,
   (C13_closed_stream_is_internal (mocks.usersGrpc none none) (mocks.SubscribeServer none) none 0
      (by decide) (by decide)).1 [mocks.result]⟩

/-- C14: when the context of the peer's stream is cancelled and the event stream
is open with no event to receive, the only case the `select` of the bridge can
take is the cancellation, and that iteration makes `Subscribe` return nil.  A
running bridge returns in two ways only: nil, after taking the cancellation
case, and the status `Internal`, after finding the stream closed; both occur. -/
theorem C14_cancellation_returns_nil {σ : Type} (u : usersGrpc σ) (serv : SubscribeServer σ)
    (req : Option generated.SubscriptionRequest) (s : σ)
    (hreq : (SubscriptionRequestFromProto req).2 = none)
    (hsub : (u.service.SubscribeToUserChanges (SubscriptionRequestFromProto req).1 s).1.2 = none) :
    (∀ (st : SelectState) (b : Branch) (s1 : σ), st.cancelled = true → st.ch = .idle →
      (Branch.ready st .ctxDone = true ∧
        (b.ready st = true → b = .ctxDone ∧ (selectStep serv b s1).ret = some none))) ∧
    (∀ (sched : Schedule) (r : Option status.Status),
      (u.Subscribe serv req sched s).ret = some r →
        (r = none ∧ .ctxDone ∈ sched) ∨
        (r = some ⟨.Internal, "subscription channel closed"⟩ ∧ .recvClosed ∈ sched)) ∧
    (∀ es : List SubscriptionPayload,
      (u.Subscribe serv req (es.map .recv ++ [.ctxDone]) s).ret = some none ∧
      (u.Subscribe serv req (es.map .recv ++ [.recvClosed]) s).ret =
        some (some ⟨.Internal, "subscription channel closed"⟩)) := by
  refine ⟨?_, ?_, ?_⟩
  · intro st b s1 hc hi
    refine ⟨by simp [Branch.ready, hc], ?_⟩
    cases b with
    | recv e => simp [Branch.ready, hi]
    | recvClosed => simp [Branch.ready, hi]
    | ctxDone => simp [selectStep]
  · intro sched r h
    rw [(Subscribe_running u serv req sched s hreq hsub).1] at h
    exact subscribeLoop_outcome serv sched _ r h
  · intro es
    rw [(Subscribe_running u serv req _ s hreq hsub).1,
      (Subscribe_running u serv req _ s hreq hsub).1]
    rw [(subscribeLoop_recvs serv es [.ctxDone] _).2.2.1,
      (subscribeLoop_recvs serv es [.recvClosed] _).2.2.1]
    simp [subscribeLoop, selectStep, status.Error]

theorem C14_cancellation_returns_nil_witness :
    (SubscriptionRequestFromProto none).2 = none ∧
    ((mocks.usersGrpc none none).service.SubscribeToUserChanges
      (SubscriptionRequestFromProto none).1 0).1.2 = none ∧
    (Branch.ready ⟨.idle, true⟩ .ctxDone = true ∧
      (Branch.ready ⟨.idle, true⟩ .ctxDone = true → Branch.ctxDone = .ctxDone ∧
        (selectStep (mocks.SubscribeServer none) .ctxDone 3).ret = some none)) :=
  ⟨by decide, by decide,
   (C14_cancellation_returns_nil (mocks.usersGrpc none none) (mocks.SubscribeServer none) none 0
      (by decide) (by decide)).1 ⟨.idle, true⟩ .ctxDone 3 rfl rfl⟩

theorem selectStep_recv_st {σ : Type} (serv : SubscribeServer σ)
    (resp : SubscriptionPayload) (s : σ) :
    (selectStep serv (.recv resp) s).st =
      if resp.Proto.2 = true then (serv.Send resp.Proto.1 s).2 else s := by
  unfold selectStep
  rcases hp : resp.Proto with ⟨pb, ok⟩
  cases ok with
  | false => simp [hp]
  | true =>
    rcases hs : serv.Send pb s with ⟨e, s1⟩
    cases e <;> simp [hp, hs]

theorem subscribeLoop_recvs_st {σ : Type} (serv : SubscribeServer σ)
    (es : List SubscriptionPayload) (s : σ) :
    (subscribeLoop serv (es.map .recv) s).st =
      es.foldl (fun st e => if e.Proto.2 = true then (serv.Send e.Proto.1 st).2 else st) s := by
  induction es generalizing s with
  | nil => simp [subscribeLoop]
  | cons e es ih =>
    have hr := (selectStep_recv serv e s).1
    simp only [List.map_cons, subscribeLoop, hr, List.foldl_cons]
    rw [ih, selectStep_recv_st]

theorem subscribeLoop_closed_st {σ : Type} (serv : SubscribeServer σ)
    (es : List SubscriptionPayload) (s : σ) :
    (subscribeLoop serv (es.map .recv ++ [.recvClosed]) s).st =
      (subscribeLoop serv (es.map .recv) s).st := by
  induction es generalizing s with
  | nil => simp [subscribeLoop, selectStep]
  | cons e es ih =>
    have hr := (selectStep_recv serv e s).1
    simp only [List.map_cons, List.cons_append, subscribeLoop, hr]
    exact ih _

theorem Subscribe_running_st {σ : Type} (u : usersGrpc σ) (serv : SubscribeServer σ)
    (req : Option generated.SubscriptionRequest) (sched : Schedule) (s : σ)
    (hreq : (SubscriptionRequestFromProto req).2 = none)
    (hsub : (u.service.SubscribeToUserChanges (SubscriptionRequestFromProto req).1 s).1.2 = none) :
    (u.Subscribe serv req sched s).st =
      (subscribeLoop serv sched
        (u.service.SubscribeToUserChanges (SubscriptionRequestFromProto req).1 s).2).st := by
  unfold usersGrpc.Subscribe
  split
  · next h => simp [h] at hreq
  · next r h =>
    simp only [h] at hsub ⊢
    split
    · next h2 => simp [h2] at hsub
    · next h2 => simp [h2]

/-- C15: while the bridge runs, for the events it receives one after the other
and whatever each `Send` returns, its calls to `Send` are, in the order of the
events, one call with the converted message for each event that
`SubscriptionPayload.Proto` converts and none for the others; after them the
loop is still running, and it has made the same calls when it then finds the
stream closed.  The calls reach the outbound stream: its state after the events
is the state the subscription left, taken through `serv.Send` of the converted
message once for each event that converts, in the order of the events, and left
as it is by the others. -/
theorem C15_send_once_per_converted_event {σ : Type} (u : usersGrpc σ)
    (serv : SubscribeServer σ) (req : Option generated.SubscriptionRequest) (s : σ)
    (es : List SubscriptionPayload)
    (hreq : (SubscriptionRequestFromProto req).2 = none)
    (hsub : (u.service.SubscribeToUserChanges (SubscriptionRequestFromProto req).1 s).1.2 = none) :
    (u.Subscribe serv req (es.map .recv) s).ret = none ∧
    (u.Subscribe serv req (es.map .recv) s).calls =
      .SubscribeToUserChanges (SubscriptionRequestFromProto req).1 ::
        es.filterMap (fun e => if e.Proto.2 = true then some (Call.Send e.Proto.1) else none) ∧
    (u.Subscribe serv req (es.map .recv ++ [.recvClosed]) s).calls =
      .SubscribeToUserChanges (SubscriptionRequestFromProto req).1 ::
        es.filterMap (fun e => if e.Proto.2 = true then some (Call.Send e.Proto.1) else none) ∧
    (u.Subscribe serv req (es.map .recv) s).st =
      es.foldl (fun st e => if e.Proto.2 = true then (serv.Send e.Proto.1 st).2 else st)
        (u.service.SubscribeToUserChanges (SubscriptionRequestFromProto req).1 s).2 ∧
    (u.Subscribe serv req (es.map .recv ++ [.recvClosed]) s).st =
      es.foldl (fun st e => if e.Proto.2 = true then (serv.Send e.Proto.1 st).2 else st)
        (u.service.SubscribeToUserChanges (SubscriptionRequestFromProto req).1 s).2 := by
  have hf : (fun e : SubscriptionPayload =>
      if e.Proto.2 = true then some (Call.Send e.Proto.1) else none) = sendOf := rfl
  rw [hf]
  obtain ⟨h1, h2⟩ := Subscribe_running u serv req (es.map .recv) s hreq hsub
  obtain ⟨h3, h4⟩ := Subscribe_running u serv req (es.map .recv ++ [.recvClosed]) s hreq hsub
  obtain ⟨l1, l2, _, l4⟩ := subscribeLoop_recvs serv es [.recvClosed]
    (u.service.SubscribeToUserChanges (SubscriptionRequestFromProto req).1 s).2
  refine ⟨by rw [h1, l1], by rw [h2, l2], ?_, ?_, ?_⟩
  · rw [h4, l4]
    simp [subscribeLoop, selectStep]
  · rw [Subscribe_running_st u serv req _ s hreq hsub, subscribeLoop_recvs_st]
  · rw [Subscribe_running_st u serv req _ s hreq hsub, subscribeLoop_closed_st,
      subscribeLoop_recvs_st]

/-- Witness of C15: three events, the second of which does not convert, over a
stream that counts its `Send` calls and fails each of them: two calls, and the
counter, at 1 after the subscription, stands at 3. -/
theorem C15_send_once_per_converted_event_witness :
    (SubscriptionRequestFromProto none).2 = none ∧
    ((mocks.usersGrpc none none).service.SubscribeToUserChanges
      (SubscriptionRequestFromProto none).1 0).1.2 = none ∧
    ((mocks.usersGrpc none none).Subscribe (mocks.SubscribeServer (some ErrUnknownError)) none
      ([mocks.result, ⟨uuid.Nil, UserChangeTypeCreated⟩, mocks.result].map .recv) 0).calls =
      [.SubscribeToUserChanges ⟨none, none⟩, .Send mocks.result.Proto.1,
        .Send mocks.result.Proto.1] ∧
    ((mocks.usersGrpc none none).Subscribe (mocks.SubscribeServer (some ErrUnknownError)) none
      ([mocks.result, ⟨uuid.Nil, UserChangeTypeCreated⟩, mocks.result].map .recv) 0).st = 3 :=
  ⟨by decide, by decide,
   (C15_send_once_per_converted_event (mocks.usersGrpc none none)
      (mocks.SubscribeServer (some ErrUnknownError)) none 0
      [mocks.result, ⟨uuid.Nil, UserChangeTypeCreated⟩, mocks.result] (by decide)
      (by decide)).2.1,
   (C15_send_once_per_converted_event (mocks.usersGrpc none none)
      (mocks.SubscribeServer (some ErrUnknownError)) none 0
      [mocks.result, ⟨uuid.Nil, UserChangeTypeCreated⟩, mocks.result] (by decide)
      (by decide)).2.2.2.1.trans (by decide)⟩

end service

/-! ## The delivery loop of the bus client -/

namespace pubsub

open types uuid

theorem deliveryLoop_step (Unmarshal : List Byte → generated.SubscriptionResponse × Option GoError)
    (r : Received) (rest : List Received) (h : r.ctxErr = false) :
    deliveryLoop Unmarshal (r :: rest) =
      ((decoded Unmarshal r).toList ++ (deliveryLoop Unmarshal rest).1,
        (deliveryLoop Unmarshal rest).2) := by
  rw [deliveryLoop]
  unfold decoded
  simp only [h, Bool.false_eq_true, if_false]
  cases hm : r.msg with
  | none => simp
  | some data =>
    rcases hu : Unmarshal data with ⟨resp, ue⟩
    cases ue with
    | some e => simp [hu]
    | none =>
      rcases hp : SubscriptionPayloadFromProto (some resp) with ⟨res, pe⟩
      cases pe <;> simp [hu, hp]

theorem deliveryLoop_open (Unmarshal : List Byte → generated.SubscriptionResponse × Option GoError)
    (pre post : List Received) (h : ∀ r ∈ pre, r.ctxErr = false) :
    deliveryLoop Unmarshal (pre ++ post) =
      (pre.filterMap (decoded Unmarshal) ++ (deliveryLoop Unmarshal post).1,
        (deliveryLoop Unmarshal post).2) := by
  induction pre with
  | nil => simp
  | cons r pre ih =>
    have hr : r.ctxErr = false := h r (List.mem_cons_self _ _)
    have ih1 := ih (fun x hx => h x (List.mem_cons_of_mem _ hx))
    rw [List.cons_append, deliveryLoop_step Unmarshal r _ hr, ih1]
    cases hd : decoded Unmarshal r <;> simp [List.filterMap_cons, hd]

/-- C16: along receives after each of which the context is not cancelled, the
delivery loop sends on the stream exactly the events of the messages that are
not nil, unmarshal and convert, in the order received, whatever error each
receive returned, and it has not returned, so the stream is not closed; at the
first receive after which the context is cancelled it returns, which closes the
stream, having sent the events of the receives before it and nothing of that
receive or of any later one.  A receive with a nil message (with or without a
receive error) and a message that does not unmarshal or does not convert are
skipped: the loop goes on with the next receive. -/
theorem C16_delivery_loop_forwards (Unmarshal : List Byte →
      generated.SubscriptionResponse × Option GoError)
    (pre post : List Received) (r : Received) (hpre : ∀ x ∈ pre, x.ctxErr = false)
    (hr : r.ctxErr = true) :
    deliveryLoop Unmarshal pre = (pre.filterMap (decoded Unmarshal), false) ∧
    deliveryLoop Unmarshal (pre ++ r :: post) = (pre.filterMap (decoded Unmarshal), true) ∧
    (∀ (x : Received) (rest : List Received), x.ctxErr = false →
      (x.msg = none ∨ ∃ data, x.msg = some data ∧ ((Unmarshal data).2 ≠ none ∨
        (SubscriptionPayloadFromProto (some (Unmarshal data).1)).2 ≠ none)) →
      deliveryLoop Unmarshal (x :: rest) = deliveryLoop Unmarshal rest) ∧
    (∀ (x : Received) (rest : List Received) (data : List Byte), x.ctxErr = false →
      x.msg = some data → (Unmarshal data).2 = none →
      (SubscriptionPayloadFromProto (some (Unmarshal data).1)).2 = none →
      deliveryLoop Unmarshal (x :: rest) =
        ((SubscriptionPayloadFromProto (some (Unmarshal data).1)).1 ::
          (deliveryLoop Unmarshal rest).1, (deliveryLoop Unmarshal rest).2)) := by
  refine ⟨?_, ?_, ?_, ?_⟩
  · have h := deliveryLoop_open Unmarshal pre [] hpre
    simpa [deliveryLoop] using h
  · have h := deliveryLoop_open Unmarshal pre (r :: post) hpre
    rw [h]
    simp [deliveryLoop, hr]
  · intro x rest hx hnone
    have hd : decoded Unmarshal x = none := by
      rcases hnone with h | ⟨data, h, h2⟩
      · simp [decoded, h]
      · simp only [decoded, h]
        rcases h2 with h2 | h2 <;> simp [h2]
    rw [deliveryLoop_step Unmarshal x rest hx, hd]
    simp
  · intro x rest data hx hm hu hp
    rw [deliveryLoop_step Unmarshal x rest hx]
    simp [decoded, hm, hu, hp]

theorem C16_delivery_loop_forwards_witness :
    (∀ x ∈ [(⟨some [1], none, false⟩ : Received), ⟨none, some ErrUnknownError, false⟩,
        ⟨none, none, false⟩, ⟨some [], none, false⟩, ⟨some [3], none, false⟩],
      x.ctxErr = false) ∧
    deliveryLoop mocks.Unmarshal
      ([(⟨some [1], none, false⟩ : Received), ⟨none, some ErrUnknownError, false⟩,
        ⟨none, none, false⟩, ⟨some [], none, false⟩, ⟨some [3], none, false⟩] ++
        ⟨some [2], none, true⟩ :: [⟨some [1], none, false⟩]) =
      ([⟨mocks.NewUser.Id, UserChangeTypeCreated⟩, ⟨mocks.NewUser.Id, UserChangeTypeDeleted⟩],
        true) :=
  ⟨by decide,
   (C16_delivery_loop_forwards mocks.Unmarshal
      [⟨some [1], none, false⟩, ⟨none, some ErrUnknownError, false⟩, ⟨none, none, false⟩,
        ⟨some [], none, false⟩, ⟨some [3], none, false⟩]
      [⟨some [1], none, false⟩] ⟨some [2], none, true⟩ (by decide) rfl).2.1⟩

end pubsub

/-! ## Status codes of the gRPC handlers -/

namespace service

open types uuid internal codes

theorem Parse_nil_string : uuid.Parse "00000000-0000-0000-0000-000000000000" = .ok uuid.Nil := by
  decide

/-- C17: the handler `Subscribe`, running over the domain service and the bus
client, answers a request whose userId is the nil UUID
`00000000-0000-0000-0000-000000000000` with the status `Internal` and the message
of `ErrInvalidUserId`, whatever the change type, the broker and the repository:
the request converts, the topic derivation of the bus client refuses the filter,
and the handler reports every error of the service as `Internal`.  A userId that
does not parse, such as `invalid-uuid`, is answered with `InvalidArgument`. -/
theorem C17_nil_userId_subscribe_is_internal {β : Type} (nc : pubsub.natsClient β)
    (repo : UserRepository (β × List pubsub.NatsOp)) (now : Time) (rnd : UUID)
    (Apply : Option generated.FieldMask → Option generated.User →
      UpdateUserFields × Option GoError)
    (serv : SubscribeServer ((β × List pubsub.NatsOp) × List domain.Call))
    (ct : Option Int) (sched : Schedule) (s : (β × List pubsub.NatsOp) × List domain.Call) :
    (usersGrpc.Subscribe ⟨domain.asUserService ⟨repo, pubsub.asPubSubService nc⟩ now rnd, Apply⟩
      serv (some ⟨some ⟨some "00000000-0000-0000-0000-000000000000", ct⟩⟩) sched s).ret =
        some (some ⟨.Internal, "invalid userId"⟩) ∧
    (usersGrpc.Subscribe ⟨domain.asUserService ⟨repo, pubsub.asPubSubService nc⟩ now rnd, Apply⟩
      serv (some ⟨some ⟨some "invalid-uuid", ct⟩⟩) sched s).ret =
        some (some ⟨.InvalidArgument, "invalid UUID length: 12"⟩) := by
  have hp2 : uuid.Parse "invalid-uuid" = .error (.new "invalid UUID length: 12") := by decide
  have hne1 : ("00000000-0000-0000-0000-000000000000" : String) ≠ "" := by decide
  have hne2 : ("invalid-uuid" : String) ≠ "" := by decide
  constructor
  · have hreq : ∀ c, SubscriptionRequestFromProto
        (some ⟨some ⟨some "00000000-0000-0000-0000-000000000000", ct⟩⟩) = (c, none) →
        c.UserId = some uuid.Nil := by
      intro c hc
      cases ct <;>
        simp [SubscriptionRequestFromProto, generated.SubscriptionRequest.GetParams,
          generated.SubscriptionParameters.GetUserId, Parse_nil_string, hne1] at hc <;>
        simp [← hc]
    unfold usersGrpc.Subscribe
    split
    · next err h =>
      cases ct <;>
        simp [SubscriptionRequestFromProto, generated.SubscriptionRequest.GetParams,
          generated.SubscriptionParameters.GetUserId, Parse_nil_string, hne1] at h
    · next r h =>
      have hu := hreq r h
      have ht : pubsub.natsTopicFromSubRequest r = ("", some ErrInvalidUserId) := by
        obtain ⟨uid, ch⟩ := r
        simp only at hu
        subst hu
        simp [pubsub.natsTopicFromSubRequest]
      simp [domain.asUserService, domain.userService.SubscribeToUserChanges,
        pubsub.asPubSubService, pubsub.natsClient.SubscribeToUserChanges, ht, status.Error,
        ErrInvalidUserId, GoError.Error]
  · cases ct <;>
      simp [usersGrpc.Subscribe, SubscriptionRequestFromProto,
        generated.SubscriptionRequest.GetParams, generated.SubscriptionParameters.GetUserId, hp2,
        hne2, status.Error, GoError.Error]

end service

namespace service

open types uuid internal codes

theorem Error_code (c : Code) (msg : String) (st : status.Status)
    (h : status.Error c msg = some st) : st.Code = c ∧ c ≠ .OK := by
  unfold status.Error at h
  split at h
  · simp at h
  · next hc =>
    simp only [Option.some.injEq] at h
    exact ⟨by rw [← h], hc⟩

/-- C18: every error a handler returns is made by `status.Error` with the code
`InvalidArgument`, `NotFound` or `Internal`.  A request that does not convert (a
malformed id in `Add`, `Delete` and `Subscribe`, a malformed filter in `Update`
and `List`, a field mask `field_mask.Apply` refuses in `Update`) gives
`InvalidArgument` and no call on the service.  An error `err` of the service
gives: in `Add`, `InvalidArgument` when `err` is `ErrInvalidUserId` or
`ErrDuplicateUserId` under `errors.Is` and `Internal` otherwise; in `Update`,
`NotFound` when `err` is `ErrNotFound` and `Internal` otherwise; in `Delete`,
`InvalidArgument` when `err` is `ErrInvalidUserId` and `Internal` otherwise; in
`List` and `Subscribe`, `Internal`. -/
theorem C18_handler_status_codes {σ : Type} (u : usersGrpc σ) (s : σ) :
    ((∀ req resp st, (u.Add req s).ret = some (resp, some st) →
        st.Code = .InvalidArgument ∨ st.Code = .Internal) ∧
      (∀ req user err, UserFromProto req.User = some (user, some err) →
        (u.Add req s).ret = some (none, some ⟨.InvalidArgument, err.Error⟩) ∧
        (u.Add req s).calls = []) ∧
      (∀ req user err, UserFromProto req.User = some (user, none) →
        (u.service.Add user s).1.2 = some err →
        (u.Add req s).ret = some (none, some
          ⟨if errorsIs err ErrInvalidUserId = true ∨ errorsIs err ErrDuplicateUserId = true
            then .InvalidArgument else .Internal, err.Error⟩))) ∧
    ((∀ req resp st, (u.Update req s).ret = (resp, some st) →
        st.Code = .InvalidArgument ∨ st.Code = .NotFound ∨ st.Code = .Internal) ∧
      (∀ req err, (u.Apply req.UpdateMask req.User).2 = some err →
        (u.Update req s).ret = (none, some ⟨.InvalidArgument, err.Error⟩) ∧
        (u.Update req s).calls = []) ∧
      (∀ req err, (u.Apply req.UpdateMask req.User).2 = none →
        (UserFilterFromProto req.Filter).2 = some err →
        (u.Update req s).ret = (none, some ⟨.InvalidArgument, err.Error⟩) ∧
        (u.Update req s).calls = []) ∧
      (∀ req err, (u.Apply req.UpdateMask req.User).2 = none →
        (UserFilterFromProto req.Filter).2 = none →
        (u.service.UpdatePartial (UserFilterFromProto req.Filter).1
          (u.Apply req.UpdateMask req.User).1 s).1 = some err →
        (u.Update req s).ret = (none, some
          ⟨if errorsIs err ErrNotFound = true then .NotFound else .Internal, err.Error⟩))) ∧
    ((∀ req resp st, (u.Delete req s).ret = (resp, some st) →
        st.Code = .InvalidArgument ∨ st.Code = .Internal) ∧
      (∀ req err, uuid.Parse req.Id = .error err →
        (u.Delete req s).ret = (none, some ⟨.InvalidArgument, err.Error⟩) ∧
        (u.Delete req s).calls = []) ∧
      (∀ req id err, uuid.Parse req.Id = .ok id → (u.service.Delete id s).1 = some err →
        (u.Delete req s).ret = (none, some
          ⟨if errorsIs err ErrInvalidUserId = true then .InvalidArgument else .Internal,
            err.Error⟩))) ∧
    ((∀ req resp st, (u.List req s).ret = (resp, some st) →
        st.Code = .InvalidArgument ∨ st.Code = .Internal) ∧
      (∀ req err, (UserFilterFromProto req.Filters).2 = some err →
        (u.List req s).ret = (none, some ⟨.InvalidArgument, err.Error⟩) ∧
        (u.List req s).calls = []) ∧
      (∀ req err, (UserFilterFromProto req.Filters).2 = none →
        (u.service.List (UserFilterFromProto req.Filters).1 (PagingFromProto req.Paging)
          s).1.2.2 = some err →
        (u.List req s).ret = (none, some ⟨.Internal, err.Error⟩))) ∧
    ((∀ serv req sched st, (u.Subscribe serv req sched s).ret = some (some st) →
        st.Code = .InvalidArgument ∨ st.Code = .Internal) ∧
      (∀ serv req sched err, (SubscriptionRequestFromProto req).2 = some err →
        (u.Subscribe serv req sched s).ret = some (some ⟨.InvalidArgument, err.Error⟩) ∧
        (u.Subscribe serv req sched s).calls = []) ∧
      (∀ serv req sched err, (SubscriptionRequestFromProto req).2 = none →
        (u.service.SubscribeToUserChanges (SubscriptionRequestFromProto req).1 s).1.2 =
          some err →
        (u.Subscribe serv req sched s).ret = some (some ⟨.Internal, err.Error⟩))) := by
  refine ⟨⟨?_, ?_, ?_⟩, ⟨?_, ?_, ?_, ?_⟩, ⟨?_, ?_, ?_⟩, ⟨?_, ?_, ?_⟩, ⟨?_, ?_, ?_⟩⟩
  · intro req resp st h
    unfold usersGrpc.Add at h
    split at h
    · simp at h
    · simp only [Option.some.injEq, Prod.mk.injEq] at h
      exact Or.inl (Error_code _ _ _ h.2).1
    · split at h
      · split at h
        · simp only [Option.some.injEq, Prod.mk.injEq] at h
          exact Or.inl (Error_code _ _ _ h.2).1
        · simp only [Option.some.injEq, Prod.mk.injEq] at h
          exact Or.inr (Error_code _ _ _ h.2).1
      · simp at h
  · intro req user err h
    simp [usersGrpc.Add, h, status.Error]
  · intro req user err h hs
    unfold usersGrpc.Add
    simp only [h]
    split
    · next e s1 hr =>
      rw [hr] at hs
      simp only [Option.some.injEq] at hs
      subst hs
      by_cases hc : errorsIs e ErrInvalidUserId = true ∨ errorsIs e ErrDuplicateUserId = true
      · simp [hc, status.Error]
      · simp [hc, status.Error]
    · next hr => rw [hr] at hs; simp at hs
  · intro req resp st h
    unfold usersGrpc.Update at h
    split at h
    · simp only [Prod.mk.injEq] at h
      exact Or.inl (Error_code _ _ _ h.2).1
    · split at h
      · simp only [Prod.mk.injEq] at h
        exact Or.inl (Error_code _ _ _ h.2).1
      · split at h
        · split at h
          · simp only [Prod.mk.injEq] at h
            exact Or.inr (Or.inl (Error_code _ _ _ h.2).1)
          · simp only [Prod.mk.injEq] at h
            exact Or.inr (Or.inr (Error_code _ _ _ h.2).1)
        · simp at h
  · intro req err h
    unfold usersGrpc.Update
    split
    · next hr => rw [hr] at h; simp at h; subst h; simp [status.Error]
    · next hr => rw [hr] at h; simp at h
  · intro req err h hf
    unfold usersGrpc.Update
    split
    · next hr => rw [hr] at h; simp at h
    · split
      · next hr => rw [hr] at hf; simp at hf; subst hf; simp [status.Error]
      · next hr => rw [hr] at hf; simp at hf
  · intro req err h hf hs
    unfold usersGrpc.Update
    split
    · next hr => rw [hr] at h; simp at h
    · next upd hr =>
      rw [hr] at hs
      split
      · next hr2 => rw [hr2] at hf; simp at hf
      · next fl hr2 =>
        rw [hr2] at hs
        simp only at hs
        split
        · next e s1 hr3 =>
          rw [hr3] at hs
          simp only [Option.some.injEq] at hs
          subst hs
          by_cases hc : errorsIs e ErrNotFound = true <;> simp [hc, status.Error]
        · next hr3 => rw [hr3] at hs; simp at hs
  · intro req resp st h
    unfold usersGrpc.Delete at h
    split at h
    · simp only [Prod.mk.injEq] at h
      exact Or.inl (Error_code _ _ _ h.2).1
    · split at h
      · split at h
        · simp only [Prod.mk.injEq] at h
          exact Or.inl (Error_code _ _ _ h.2).1
        · simp only [Prod.mk.injEq] at h
          exact Or.inr (Error_code _ _ _ h.2).1
      · simp at h
  · intro req err h
    simp [usersGrpc.Delete, h, status.Error]
  · intro req id err h hs
    unfold usersGrpc.Delete
    simp only [h]
    split
    · next e s1 hr =>
      rw [hr] at hs
      simp only [Option.some.injEq] at hs
      subst hs
      by_cases hc : errorsIs e ErrInvalidUserId = true <;> simp [hc, status.Error]
    · next hr => rw [hr] at hs; simp at hs
  · intro req resp st h
    unfold usersGrpc.List at h
    split at h
    · simp only [Prod.mk.injEq] at h
      exact Or.inl (Error_code _ _ _ h.2).1
    · split at h
      · simp only [Prod.mk.injEq] at h
        exact Or.inr (Error_code _ _ _ h.2).1
      · simp at h
  · intro req err h
    unfold usersGrpc.List
    split
    · next hr => rw [hr] at h; simp at h; subst h; simp [status.Error]
    · next hr => rw [hr] at h; simp at h
  · intro req err h hs
    unfold usersGrpc.List
    split
    · next hr => rw [hr] at h; simp at h
    · next fl hr =>
      rw [hr] at hs
      simp only at hs
      split
      · next hr2 => rw [hr2] at hs; simp at hs; subst hs; simp [status.Error]
      · next hr2 => rw [hr2] at hs; simp at hs
  · intro serv req sched st h
    unfold usersGrpc.Subscribe at h
    split at h
    · simp only [Option.some.injEq] at h
      exact Or.inl (Error_code _ _ _ h).1
    · split at h
      · simp only [Option.some.injEq] at h
        exact Or.inr (Error_code _ _ _ h).1
      · simp only at h
        rcases subscribeLoop_outcome serv sched _ _ h with h1 | h1
        · simp at h1
        · simp only [Option.some.injEq] at h1
          exact Or.inr (by rw [h1.1])
  · intro serv req sched err h
    unfold usersGrpc.Subscribe
    split
    · next hr => rw [hr] at h; simp at h; subst h; simp [status.Error]
    · next hr => rw [hr] at h; simp at h
  · intro serv req sched err h hs
    unfold usersGrpc.Subscribe
    split
    · next hr => rw [hr] at h; simp at h
    · next r hr =>
      rw [hr] at hs
      simp only at hs
      split
      · next hr2 => rw [hr2] at hs; simp at hs; subst hs; simp [status.Error]
      · next hr2 => rw [hr2] at hs; simp at hs

end service

namespace service

open types uuid internal codes

theorem C18_handler_status_codes_witness :
    (((mocks.usersGrpc none (some ErrNotFound)).Apply none none).2 = none ∧
      (UserFilterFromProto none).2 = none ∧
      ((mocks.usersGrpc none (some ErrNotFound)).service.UpdatePartial (UserFilterFromProto none).1
        ((mocks.usersGrpc none (some ErrNotFound)).Apply none none).1 0).1 = some ErrNotFound ∧
      ((mocks.usersGrpc none (some ErrNotFound)).Update ⟨none, none, none⟩ 0).ret =
        (none, some ⟨.NotFound, "not found"⟩)) ∧
    (uuid.Parse "invalid-uuid" = .error (.new "invalid UUID length: 12") ∧
      ((mocks.usersGrpc none none).Delete ⟨"invalid-uuid"⟩ 0).ret =
        (none, some ⟨.InvalidArgument, "invalid UUID length: 12"⟩) ∧
      ((mocks.usersGrpc none none).Delete ⟨"invalid-uuid"⟩ 0).calls = []) :=
  ⟨⟨by decide, by decide, by decide,
    (C18_handler_status_codes (mocks.usersGrpc none (some ErrNotFound)) 0).2.1.2.2.2
      ⟨none, none, none⟩ ErrNotFound (by decide) (by decide) (by decide)⟩,
   ⟨by decide,
    (C18_handler_status_codes (mocks.usersGrpc none none) 0).2.2.1.2.1 ⟨"invalid-uuid"⟩
      (.new "invalid UUID length: 12") (by decide)⟩⟩

end service

/-! ## Round trip of a wire change event -/

namespace types

open uuid

theorem changeType_defined (n : Int)
    (h : n ∈ generated.UserChangeType_value.map Prod.snd) :
    generated.UserChangeType_value_lookup
      (UserChangeTypeFromString (generated.UserChangeType.String n)) = some n := by
  simp only [generated.UserChangeType_value, List.map_cons, List.map_nil, List.mem_cons,
    List.mem_singleton, List.not_mem_nil, or_false] at h
  rcases h with h | h | h | h <;> subst h <;> decide

/-- C20: for a wire `SubscriptionResponse` whose `Update.UserId` is the canonical
string of a non-nil UUID and whose change type is a number the enum defines,
`SubscriptionPayloadFromProto` returns no error, `SubscriptionPayload.Proto` on
the event it returns has `ok` true, and its message is the original one, field
for field. -/
theorem C20_wire_roundtrip (id : UUID) (n : Int) (hid : id ≠ uuid.Nil)
    (hn : n ∈ generated.UserChangeType_value.map Prod.snd) :
    (SubscriptionPayloadFromProto (some ⟨some ⟨id.String, n⟩⟩)).2 = none ∧
    (SubscriptionPayloadFromProto (some ⟨some ⟨id.String, n⟩⟩)).1.Proto =
      (some ⟨some ⟨id.String, n⟩⟩, true) ∧
    (SubscriptionPayloadFromProto (some ⟨some ⟨id.String, n⟩⟩)).1.UserId = id := by
  have hl := changeType_defined n hn
  simp [SubscriptionPayloadFromProto, generated.SubscriptionResponse.GetUpdate,
    generated.SubscriptionMessage.GetUserId, generated.SubscriptionMessage.GetChangeType,
    uuid.Parse_String, SubscriptionPayload.Proto, hid, hl]

theorem C20_wire_roundtrip_witness :
    mocks.NewUser.Id ≠ uuid.Nil ∧ (2 : Int) ∈ generated.UserChangeType_value.map Prod.snd ∧
    (SubscriptionPayloadFromProto (some ⟨some ⟨mocks.NewUser.Id.String, 2⟩⟩)).2 = none ∧
    (SubscriptionPayloadFromProto (some ⟨some ⟨mocks.NewUser.Id.String, 2⟩⟩)).1.Proto =
      (some ⟨some ⟨mocks.NewUser.Id.String, 2⟩⟩, true) ∧
    (SubscriptionPayloadFromProto (some ⟨some ⟨mocks.NewUser.Id.String, 2⟩⟩)).1.UserId =
      mocks.NewUser.Id :=
  ⟨by decide, by decide, C20_wire_roundtrip mocks.NewUser.Id 2 (by decide) (by decide)⟩

end types

/-! ## The update document of the repository -/

namespace repository

open types bson

theorem sortElements_entries (es : List (String × Option String)) (set unset : List E) :
    sortElements (es.filterMap (fun e => e.2.map (fun v => (e.1, RawValue.string v)))) set unset =
      (set ++ es.filterMap (fun e =>
          match e.2 with
          | some v => if v = "" then none else some (e.1, RawValue.string v)
          | none => none),
       unset ++ es.filterMap (fun e =>
          match e.2 with
          | some v => if v = "" then some (e.1, RawValue.string v) else none
          | none => none)) := by
  induction es generalizing set unset with
  | nil => simp [sortElements]
  | cons e es ih =>
    obtain ⟨k, o⟩ := e
    cases o with
    | none => simpa [List.filterMap_cons] using ih set unset
    | some v =>
      by_cases hv : v = ""
      · simp [List.filterMap_cons, sortElements, RawValue.IsZero, unmarshalsToZero, hv, ih]
      · simp [List.filterMap_cons, sortElements, RawValue.IsZero, unmarshalsToZero, hv, ih]

theorem unset_keys (es : List (String × Option String)) :
    (es.filterMap (fun e =>
        match e.2 with
        | some v => if v = "" then some (e.1, RawValue.string v) else none
        | none => none)).map Prod.fst =
      (es.filter (fun e => decide (e.2 = some ""))).map Prod.fst := by
  induction es with
  | nil => rfl
  | cons e es ih =>
    obtain ⟨k, o⟩ := e
    cases o with
    | none => simpa [List.filterMap_cons, List.filter_cons] using ih
    | some v =>
      by_cases hv : v = "" <;> simpa [List.filterMap_cons, List.filter_cons, hv] using ih

theorem set_keys (es : List (String × Option String)) :
    (es.filterMap (fun e =>
        match e.2 with
        | some v => if v = "" then none else some (e.1, RawValue.string v)
        | none => none)).map Prod.fst =
      (es.filter (fun e => decide (e.2 ≠ none ∧ e.2 ≠ some ""))).map Prod.fst := by
  induction es with
  | nil => rfl
  | cons e es ih =>
    obtain ⟨k, o⟩ := e
    cases o with
    | none => simpa [List.filterMap_cons, List.filter_cons] using ih
    | some v =>
      by_cases hv : v = "" <;> simpa [List.filterMap_cons, List.filter_cons, hv] using ih

theorem updateEntries_key_unique (f : UpdateUserFields) (k : String) (a b : Option String)
    (ha : (k, a) ∈ updateEntries f) (hb : (k, b) ∈ updateEntries f) : a = b := by
  simp only [updateEntries, List.mem_cons, List.mem_singleton, List.not_mem_nil, or_false,
    Prod.mk.injEq] at ha hb
  rcases ha with ⟨h1, h2⟩ | ⟨h1, h2⟩ | ⟨h1, h2⟩ | ⟨h1, h2⟩ | ⟨h1, h2⟩ | ⟨h1, h2⟩ <;>
    rcases hb with ⟨h3, h4⟩ | ⟨h3, h4⟩ | ⟨h3, h4⟩ | ⟨h3, h4⟩ | ⟨h3, h4⟩ | ⟨h3, h4⟩ <;>
    first
    | (rw [h1] at h3; exact absurd h3 (by decide))
    | (rw [h2, h4])

theorem createUpdateDocument_sorted (fields set unset : List E)
    (h : sortElements fields [] [] = (set, unset)) :
    createUpdateDocument (.ok fields) =
      ((if unset.isEmpty then [] else [("$unset", unset)]) ++
        (if set.isEmpty then [] else [("$set", set)]), none) := by
  cases set <;> cases unset <;> simp [createUpdateDocument, h]

/-- C19: for every `UpdateUserFields`, `createUpdateDocument` returns no error and
the document made of the stage `$unset`, when it has entries, followed by the
stage `$set`, when it has entries; `$unset` holds exactly the fields present with
the empty string and `$set` exactly the fields present with a non-empty string,
with that string, both in the order first_name, last_name, nickname, email,
password, country; a nil field is in neither, no key is in both, and with every
field nil the document is empty. -/
theorem C19_update_document_stages (f : UpdateUserFields) :
    createUpdateDocument (marshalUpdateUserFields f) =
      ((if (unsetStage f).isEmpty then [] else [("$unset", unsetStage f)]) ++
        (if (setStage f).isEmpty then [] else [("$set", setStage f)]), none) ∧
    (∀ k v, (k, v) ∈ unsetStage f ↔ v = .string "" ∧ (k, some "") ∈ updateEntries f) ∧
    (∀ k v, (k, v) ∈ setStage f ↔
      ∃ s, s ≠ "" ∧ v = .string s ∧ (k, some s) ∈ updateEntries f) ∧
    (unsetStage f).map Prod.fst =
      ((updateEntries f).filter (fun e => decide (e.2 = some ""))).map Prod.fst ∧
    (setStage f).map Prod.fst =
      ((updateEntries f).filter (fun e => decide (e.2 ≠ none ∧ e.2 ≠ some ""))).map Prod.fst ∧
    (∀ k, k ∈ (unsetStage f).map Prod.fst → k ∉ (setStage f).map Prod.fst) ∧
    createUpdateDocument (marshalUpdateUserFields ⟨none, none, none, none, none, none⟩) =
      ([], none) := by
  have hu : ∀ k v, (k, v) ∈ unsetStage f ↔ v = .string "" ∧ (k, some "") ∈ updateEntries f := by
    intro k v
    simp only [unsetStage, List.mem_filterMap]
    constructor
    · rintro ⟨⟨k1, o⟩, hm, h⟩
      cases o with
      | none => simp at h
      | some s =>
        by_cases hs : s = ""
        · subst hs
          simp at h
          obtain ⟨h1, h2⟩ := h
          subst h1
          exact ⟨h2.symm, hm⟩
        · simp [hs] at h
    · rintro ⟨h1, h2⟩
      exact ⟨(k, some ""), h2, by simp [h1]⟩
  have hs : ∀ k v, (k, v) ∈ setStage f ↔
      ∃ s, s ≠ "" ∧ v = .string s ∧ (k, some s) ∈ updateEntries f := by
    intro k v
    simp only [setStage, List.mem_filterMap]
    constructor
    · rintro ⟨⟨k1, o⟩, hm, h⟩
      cases o with
      | none => simp at h
      | some s =>
        by_cases hs : s = ""
        · simp [hs] at h
        · simp [hs] at h
          obtain ⟨h1, h2⟩ := h
          subst h1
          exact ⟨s, hs, h2.symm, hm⟩
    · rintro ⟨s, h0, h1, h2⟩
      exact ⟨(k, some s), h2, by simp [h0, h1]⟩
  refine ⟨?_, hu, hs, ?_, ?_, ?_, rfl⟩
  · apply createUpdateDocument_sorted
    rw [sortElements_entries]
    simp [setStage, unsetStage]
  · exact unset_keys (updateEntries f)
  · exact set_keys (updateEntries f)
  · intro k hk hk2
    simp only [List.mem_map, Prod.exists, exists_and_right, exists_eq_right] at hk hk2
    obtain ⟨v, hv⟩ := hk
    obtain ⟨w, hw⟩ := hk2
    obtain ⟨_, h1⟩ := (hu k v).1 hv
    obtain ⟨t, h2, _, h3⟩ := (hs k w).1 hw
    have h := updateEntries_key_unique f k _ _ h1 h3
    simp only [Option.some.injEq] at h
    exact h2 h.symm

end repository

/-! ## Conversions from the wire -/

namespace types

open uuid

theorem digitChar_mem (d : Nat) (h : d < 10) :
    Nat.digitChar d ∈ ['0', '1', '2', '3', '4', '5', '6', '7', '8', '9'] := by
  interval_cases d <;> decide

theorem toDigitsCore_digits (fuel : Nat) : ∀ (n : Nat) (ds : List Char),
    (∀ c ∈ ds, c ∈ ['0', '1', '2', '3', '4', '5', '6', '7', '8', '9']) →
    ∀ c ∈ Nat.toDigitsCore 10 fuel n ds,
      c ∈ ['0', '1', '2', '3', '4', '5', '6', '7', '8', '9'] := by
  induction fuel with
  | zero => intro n ds h; simpa [Nat.toDigitsCore] using h
  | succ fuel ih =>
    intro n ds h
    have hd := digitChar_mem (n % 10) (Nat.mod_lt _ (by decide))
    have h2 : ∀ c ∈ Nat.digitChar (n % 10) :: ds,
        c ∈ ['0', '1', '2', '3', '4', '5', '6', '7', '8', '9'] := by
      intro c hc
      rcases List.mem_cons.1 hc with hc | hc
      · rw [hc]; exact hd
      · exact h c hc
    simp only [Nat.toDigitsCore]
    split
    · exact h2
    · exact ih _ _ h2

theorem Nat_repr_digits (n : Nat) : ∀ c ∈ (Nat.repr n).data,
    c ∈ ['0', '1', '2', '3', '4', '5', '6', '7', '8', '9'] := by
  simp only [Nat.repr, Nat.toDigits, List.asString]
  exact toDigitsCore_digits _ _ _ (by simp)

/-- The decimal form of an integer holds a sign and digits only. -/
theorem Int_toString_chars (n : Int) : ∀ c ∈ (toString n).data,
    c ∈ ['-', '0', '1', '2', '3', '4', '5', '6', '7', '8', '9'] := by
  intro c hc
  cases n with
  | ofNat m =>
    have : toString (Int.ofNat m) = Nat.repr m := rfl
    rw [this] at hc
    exact List.mem_cons_of_mem _ (Nat_repr_digits m c hc)
  | negSucc m =>
    have : toString (Int.negSucc m) = "-" ++ Nat.repr (m + 1) := rfl
    rw [this, String.data_append] at hc
    rcases List.mem_append.1 hc with h | h
    · simp at h; simp [h]
    · exact List.mem_cons_of_mem _ (Nat_repr_digits _ c h)

theorem Int_toString_not_kind (n : Int) :
    [UserChangeTypeUnknown, UserChangeTypeCreated, UserChangeTypeUpdated,
      UserChangeTypeDeleted].contains (toString n) = false := by
  have key : ∀ s : String, 'E' ∈ s.data ∨ 'N' ∈ s.data → toString n ≠ s := by
    intro s hs h
    rw [← h] at hs
    rcases hs with hs | hs
    · exact absurd (Int_toString_chars n _ hs) (by decide)
    · exact absurd (Int_toString_chars n _ hs) (by decide)
  have h0 := key UserChangeTypeUnknown (Or.inr (by decide))
  have h1 := key UserChangeTypeCreated (Or.inl (by decide))
  have h2 := key UserChangeTypeUpdated (Or.inl (by decide))
  have h3 := key UserChangeTypeDeleted (Or.inl (by decide))
  simp [h0, h1, h2, h3]

/-- The kind of a change type number: the name of a defined value, UNKNOWN for
any other number. -/
theorem changeType_kind (n : Int) :
    (∀ name, (name, n) ∈ generated.UserChangeType_value →
      UserChangeTypeFromString (generated.UserChangeType.String n) = name) ∧
    (n ∉ generated.UserChangeType_value.map Prod.snd →
      UserChangeTypeFromString (generated.UserChangeType.String n) = UserChangeTypeUnknown) := by
  constructor
  · intro name h
    simp only [generated.UserChangeType_value, List.mem_cons, List.mem_singleton,
      List.not_mem_nil, or_false, Prod.mk.injEq] at h
    rcases h with ⟨h1, h2⟩ | ⟨h1, h2⟩ | ⟨h1, h2⟩ | ⟨h1, h2⟩ <;> subst h1 <;> subst h2 <;> decide
  · intro h
    simp only [generated.UserChangeType_value, List.map_cons, List.map_nil, List.mem_cons,
      List.mem_singleton, List.not_mem_nil, or_false, not_or] at h
    obtain ⟨h0, h1, h2, h3⟩ := h
    have hs : generated.UserChangeType.String n = toString n := by
      simp [generated.UserChangeType.String, generated.UserChangeType_value, List.find?,
        Ne.symm h0, Ne.symm h1, Ne.symm h2, Ne.symm h3]
    rw [hs, UserChangeTypeFromString, Int_toString_not_kind]
    simp

end types

namespace types

open uuid

theorem convertStringsToUUIDs_invalid (s : String) (err : GoError)
    (hp : uuid.Parse s = .error err) :
    ∀ ids : List String, s ∈ ids → (convertStringsToUUIDs ids).2 ≠ none := by
  intro ids
  induction ids with
  | nil => intro h; simp at h
  | cons a rest ih =>
    intro h
    rw [convertStringsToUUIDs]
    rcases ha : uuid.Parse a with e | u
    · simp
    · have hne : s ≠ a := by
        intro hsa
        rw [hsa, ha] at hp
        cases hp
      have hin : s ∈ rest := by
        rcases List.mem_cons.1 h with h | h
        · exact absurd h hne
        · exact h
      have := ih hin
      rcases hr : convertStringsToUUIDs rest with ⟨us, e⟩
      rw [hr] at this
      cases e with
      | none => simp at this
      | some e => simp

theorem Parse_empty_fails : ∃ err, uuid.Parse "" = .error err := ⟨_, rfl⟩

theorem String_ne_empty (u : UUID) : u.String ≠ "" := by
  intro h
  have := uuid.String_length u
  rw [h] at this
  simp at this

theorem timestamp_roundtrip (ts : generated.Timestamp) (h : ts.IsValid = true) :
    timestamppbNew (AsTime (some ts)) = ts := by
  obtain ⟨s, n⟩ := ts
  simp only [generated.Timestamp.IsValid, decide_eq_true_eq] at h
  obtain ⟨-, -, h0, h1⟩ := h
  simp only [timestamppbNew, AsTime, generated.Timestamp.mk.injEq]
  constructor <;> omega

/-- Claim C21: for every wire subscription request that
`SubscriptionRequestFromProto` accepts, the filter's userId is present exactly when
the request's userId string is non-empty, and is then the UUID the string parses
to; the change kind is present exactly when `params.changeType` is set, and is then
the kind named by that enum value, UNKNOWN for a number the enum does not define; a
nil request and a request without params give the filter with both fields
absent. -/
theorem C21_subscription_request_from_proto
    (req : Option generated.SubscriptionRequest) (r : SubscriptionRequest)
    (h : SubscriptionRequestFromProto req = (r, none)) :
    (r.UserId.isSome = true ↔
      generated.SubscriptionParameters.GetUserId
        (generated.SubscriptionRequest.GetParams req) ≠ "") ∧
    (∀ id, r.UserId = some id →
      uuid.Parse (generated.SubscriptionParameters.GetUserId
        (generated.SubscriptionRequest.GetParams req)) = .ok id) ∧
    (r.Change.isSome = true ↔
      ∃ p n, generated.SubscriptionRequest.GetParams req = some p ∧ p.ChangeType = some n) ∧
    (∀ p n, generated.SubscriptionRequest.GetParams req = some p → p.ChangeType = some n →
      r.Change = some (UserChangeTypeFromString (generated.UserChangeType.String n)) ∧
      (∀ name, (name, n) ∈ generated.UserChangeType_value → r.Change = some name) ∧
      (n ∉ generated.UserChangeType_value.map Prod.snd →
        r.Change = some UserChangeTypeUnknown)) ∧
    SubscriptionRequestFromProto none = (⟨none, none⟩, none) ∧
    SubscriptionRequestFromProto (some ⟨none⟩) = (⟨none, none⟩, none) := by
  refine ⟨?_, ?_, ?_, ?_, rfl, rfl⟩
  all_goals
    cases req with
    | none =>
      simp only [SubscriptionRequestFromProto, Prod.mk.injEq, and_true] at h
      subst h
      simp [generated.SubscriptionRequest.GetParams, generated.SubscriptionParameters.GetUserId]
    | some q =>
      obtain ⟨params⟩ := q
      simp only [SubscriptionRequestFromProto, generated.SubscriptionRequest.GetParams,
        Option.some_bind] at h ⊢
      by_cases he : generated.SubscriptionParameters.GetUserId params = ""
      · simp only [he, ne_eq, not_true_eq_false, if_false] at h ⊢
        cases params with
        | none =>
          simp only [Prod.mk.injEq, and_true] at h
          subst h
          simp
        | some p =>
          obtain ⟨uid, ct⟩ := p
          cases ct with
          | none =>
            simp only [Prod.mk.injEq, and_true] at h
            subst h
            simp
            try (intro p0 n0 hp0; subst hp0; simp)
          | some n =>
            simp only [Prod.mk.injEq, and_true] at h
            subst h
            have hk := changeType_kind n
            simp only [generated.SubscriptionParameters.GetChangeType, Option.getD_some]
            first
              | (intro p0 n0 hp0 hn0
                 cases hp0
                 cases hn0
                 exact ⟨rfl, fun name hn => by rw [hk.1 name hn], fun hn => by rw [hk.2 hn]⟩)
              | simp
      · simp only [he, ne_eq, not_false_eq_true, if_true] at h ⊢
        rcases hpar : uuid.Parse (generated.SubscriptionParameters.GetUserId params) with e | id
        · rw [hpar] at h
          simp at h
        · rw [hpar] at h
          cases params with
          | none =>
            simp only [Prod.mk.injEq, and_true] at h
            subst h
            simp
          | some p =>
            obtain ⟨uid, ct⟩ := p
            cases ct with
            | none =>
              simp only [Prod.mk.injEq, and_true] at h
              subst h
              simp
              try (intro p0 n0 hp0; subst hp0; simp)
            | some n =>
              simp only [Prod.mk.injEq, and_true] at h
              subst h
              have hk := changeType_kind n
              simp only [generated.SubscriptionParameters.GetChangeType, Option.getD_some]
              first
                | (intro p0 n0 hp0 hn0
                   cases hp0
                   cases hn0
                   exact ⟨rfl, fun name hn => by rw [hk.1 name hn], fun hn => by rw [hk.2 hn]⟩)
                | simp

/-- Witness of C21: a request for the CREATED events of one user. -/
theorem C21_subscription_request_from_proto_witness :
    SubscriptionRequestFromProto
        (some ⟨some ⟨some "b9e52eb0-5bb1-4d34-a8b8-802f8f5b7a36", some 1⟩⟩) =
      (⟨some mocks.NewUser.Id, some UserChangeTypeCreated⟩, none) ∧
    ((some mocks.NewUser.Id).isSome = true ↔
      generated.SubscriptionParameters.GetUserId
        (generated.SubscriptionRequest.GetParams
          (some ⟨some ⟨some "b9e52eb0-5bb1-4d34-a8b8-802f8f5b7a36", some 1⟩⟩)) ≠ "") :=
  ⟨by decide,
   (C21_subscription_request_from_proto
      (some ⟨some ⟨some "b9e52eb0-5bb1-4d34-a8b8-802f8f5b7a36", some 1⟩⟩)
      ⟨some mocks.NewUser.Id, some UserChangeTypeCreated⟩ (by decide)).1⟩

/-- Claim C22: for every non-empty string that `uuid.Parse` rejects,
`UserFromProto` on a user with that id fails with `ErrInvalidUserId`,
`UserFilterFromProto` on a filter holding it anywhere in `ids` fails, and
`SubscriptionRequestFromProto` and `SubscriptionPayloadFromProto` on a message with
that userId fail; for the empty id string `UserFromProto` succeeds with the nil
UUID, `SubscriptionRequestFromProto` succeeds with an absent userId, and
`SubscriptionPayloadFromProto` fails. -/
theorem C22_invalid_id_rejected (s : String) (err : GoError) (hs : s ≠ "")
    (hp : uuid.Parse s = .error err) :
    (∀ u : generated.User, u.Id = s →
      ∃ user, UserFromProto (some u) = some (user, some ErrInvalidUserId)) ∧
    (∀ f : generated.SearchFilter, s ∈ f.Ids → (UserFilterFromProto (some f)).2 ≠ none) ∧
    (∀ ct, (SubscriptionRequestFromProto (some ⟨some ⟨some s, ct⟩⟩)).2 = some err) ∧
    (∀ n, (SubscriptionPayloadFromProto (some ⟨some ⟨s, n⟩⟩)).2 = some err) ∧
    (∀ u : generated.User, u.Id = "" →
      ∃ user, UserFromProto (some u) = some (user, none) ∧ user.Id = uuid.Nil) ∧
    (∀ ct, ∃ r, SubscriptionRequestFromProto (some ⟨some ⟨some "", ct⟩⟩) = (r, none) ∧
      r.UserId = none) ∧
    (∀ n, (SubscriptionPayloadFromProto (some ⟨some ⟨"", n⟩⟩)).2 ≠ none) := by
  refine ⟨?_, ?_, ?_, ?_, ?_, ?_, ?_⟩
  · intro u hu
    simp [UserFromProto, hu, hs, hp]
  · intro f hf
    have := convertStringsToUUIDs_invalid s err hp f.Ids hf
    simp only [UserFilterFromProto]
    rcases hr : convertStringsToUUIDs f.Ids with ⟨us, e⟩
    rw [hr] at this
    cases e with
    | none => simp at this
    | some e => simp
  · intro ct
    simp [SubscriptionRequestFromProto, generated.SubscriptionRequest.GetParams,
      generated.SubscriptionParameters.GetUserId, hs, hp]
  · intro n
    simp [SubscriptionPayloadFromProto, generated.SubscriptionResponse.GetUpdate,
      generated.SubscriptionMessage.GetUserId, hp]
  · intro u hu
    cases hua : u.UpdatedAt <;> simp [UserFromProto, hu, hua]
  · intro ct
    cases ct <;>
      simp [SubscriptionRequestFromProto, generated.SubscriptionRequest.GetParams,
        generated.SubscriptionParameters.GetUserId]
  · intro n
    obtain ⟨e, he⟩ := Parse_empty_fails
    simp [SubscriptionPayloadFromProto, generated.SubscriptionResponse.GetUpdate,
      generated.SubscriptionMessage.GetUserId, he]

/-- Witness of C22: the id string of the conversion tests, which is no UUID. -/
theorem C22_invalid_id_rejected_witness :
    "invalid-uuid" ≠ "" ∧
    (∀ n, (SubscriptionPayloadFromProto (some ⟨some ⟨"invalid-uuid", n⟩⟩)).2 =
      some (GoError.new "invalid UUID length: 12")) :=
  ⟨by decide,
   (C22_invalid_id_rejected "invalid-uuid" (GoError.new "invalid UUID length: 12")
      (by decide) (by decide)).2.2.2.1⟩

/-- Claim C23: for every wire user whose id is the canonical string of a UUID and
whose createdAt and updatedAt timestamps are both set and valid, `UserFromProto`
succeeds and `User.Proto` of its result is the original message, field by field. -/
theorem C23_user_proto_roundtrip (m : generated.User) (id : UUID)
    (c ua : generated.Timestamp) (hid : m.Id = id.String)
    (hc : m.CreatedAt = some c) (hu : m.UpdatedAt = some ua)
    (hcv : c.IsValid = true) (huv : ua.IsValid = true) :
    ∃ user, UserFromProto (some m) = some (user, none) ∧ user.Proto = m ∧
      user.Proto.Id = m.Id ∧ user.Proto.FirstName = m.FirstName ∧
      user.Proto.LastName = m.LastName ∧ user.Proto.Nickname = m.Nickname ∧
      user.Proto.Password = m.Password ∧ user.Proto.Email = m.Email ∧
      user.Proto.Country = m.Country ∧ user.Proto.CreatedAt = m.CreatedAt ∧
      user.Proto.UpdatedAt = m.UpdatedAt := by
  obtain ⟨i, f, l, n, p, e, co, cr, up⟩ := m
  simp only at hid hc hu
  subst hid hc hu
  have key : (UserFromProto (some ⟨id.String, f, l, n, p, e, co, some c, some ua⟩)) =
      some (⟨id, f, l, n, e, p, co, AsTime (some c), some (AsTime (some ua))⟩, none) := by
    simp [UserFromProto, String_ne_empty, uuid.Parse_String]
  refine ⟨_, key, ?_⟩
  have hp : (User.Proto ⟨id, f, l, n, e, p, co, AsTime (some c), some (AsTime (some ua))⟩) =
      ⟨id.String, f, l, n, p, e, co, some c, some ua⟩ := by
    simp [User.Proto, timestamp_roundtrip c hcv, timestamp_roundtrip ua huv]
  rw [hp]
  simp

/-- Witness of C23: a wire user with a canonical id and both timestamps set. -/
theorem C23_user_proto_roundtrip_witness :
    mocks.wireUser.Id = mocks.NewUser.Id.String ∧
    (generated.Timestamp.IsValid ⟨1700000000, 5⟩ = true) ∧
    ∃ user, UserFromProto (some mocks.wireUser) = some (user, none) ∧
      user.Proto = mocks.wireUser :=
  ⟨by decide, by decide,
   (C23_user_proto_roundtrip mocks.wireUser mocks.NewUser.Id ⟨1700000000, 5⟩
      ⟨1700000001, 0⟩ (by decide) rfl rfl (by decide) (by decide)).imp
        (fun _ h => ⟨h.1, h.2.1⟩)⟩

end types

/-! ## Shutdown hooks -/

namespace internal

theorem registerAll_functions {σ : Type} (fs : List (σ → Option GoError × σ)) :
    (registerAll fs).shutdownFunctions = fs := by
  have key : ∀ (gs : List (σ → Option GoError × σ)) (app : Application σ),
      (gs.foldl Application.AddShutdownFunction app).shutdownFunctions =
        app.shutdownFunctions ++ gs := by
    intro gs
    induction gs with
    | nil => intro app; simp
    | cons g gs ih =>
      intro app
      rw [List.foldl_cons, ih]
      simp [Application.AddShutdownFunction]
  simpa [registerAll] using key fs ⟨[]⟩

theorem registerAll_eq {σ : Type} (fs : List (σ → Option GoError × σ)) :
    registerAll fs = ⟨fs⟩ := by
  have := registerAll_functions fs
  rcases hr : registerAll fs with ⟨gs⟩
  rw [hr] at this
  simpa using this

theorem lastInFirstOut_append {σ : Type} (fs : List (σ → Option GoError × σ))
    (f : σ → Option GoError × σ) (s : σ) :
    lastInFirstOut (fs ++ [f]) s = lastInFirstOut fs (f s).2 := by
  induction fs with
  | nil => rfl
  | cons g gs ih => simp [lastInFirstOut, ih]

theorem take_succ_get {α : Type} (l : List α) (k : Nat) (h : k < l.length) :
    l.take (k + 1) = l.take k ++ [l.get ⟨k, h⟩] := by
  rw [List.take_succ]
  simp [List.getElem?_eq_getElem h]

theorem shutdownLoop_state {σ : Type} (fs : List (σ → Option GoError × σ)) :
    ∀ (k : Nat) (h : k ≤ fs.length) (budget : Nat) (s : σ) (log : List ShutdownEvent),
      k ≤ budget →
      (shutdownLoop fs k h budget (s, log)).1.1 = lastInFirstOut (fs.take k) s := by
  intro k
  induction k with
  | zero => intro h budget s log _; simp [shutdownLoop, lastInFirstOut]
  | succ k ih =>
    intro h budget s log hb
    cases budget with
    | zero => omega
    | succ b =>
      rw [shutdownLoop, take_succ_get fs k h, lastInFirstOut_append]
      rcases hf : fs.get ⟨k, h⟩ s with ⟨err, s1⟩
      cases err with
      | none =>
        simp only
        exact ih (Nat.le_of_succ_le h) b s1 _ (by omega)
      | some err =>
        simp only
        exact ih (Nat.le_of_succ_le h) b s1 _ (by omega)

theorem shutdownLoop_calls {σ : Type} (fs : List (σ → Option GoError × σ)) :
    ∀ (k : Nat) (h : k ≤ fs.length) (budget : Nat) (s : σ) (log : List ShutdownEvent),
      k ≤ budget →
      (shutdownLoop fs k h budget (s, log)).2 = true ∧
      (shutdownLoop fs k h budget (s, log)).1.2.filterMap ShutdownEvent.callIndex =
        log.filterMap ShutdownEvent.callIndex ++ (List.range k).reverse ∧
      (ShutdownEvent.timedOut ∉ log →
        ShutdownEvent.timedOut ∉ (shutdownLoop fs k h budget (s, log)).1.2) := by
  intro k
  induction k with
  | zero => intro h budget s log _; simp [shutdownLoop]
  | succ k ih =>
    intro h budget s log hb
    cases budget with
    | zero => omega
    | succ b =>
      rw [shutdownLoop]
      rcases hf : fs.get ⟨k, h⟩ s with ⟨err, s1⟩
      cases err with
      | none =>
        simp only
        have := ih (Nat.le_of_succ_le h) b s1 (log ++ [.call k]) (by omega)
        refine ⟨this.1, ?_, ?_⟩
        · rw [this.2.1, List.range_succ]
          simp [ShutdownEvent.callIndex]
        · intro hn
          exact this.2.2 (by simpa using hn)
      | some err =>
        simp only
        have := ih (Nat.le_of_succ_le h) b s1 (log ++ [.call k, .warn err]) (by omega)
        refine ⟨this.1, ?_, ?_⟩
        · rw [this.2.1, List.range_succ]
          simp [ShutdownEvent.callIndex]
        · intro hn
          exact this.2.2 (by simpa using hn)

/-- Claim C24: when the shutdown finishes within the timeout (every hook returns
before it expires), `GracefulShutdown` runs the hooks registered with
`AddShutdownFunction` in the reverse of the order of registration, each exactly
once and each on the state the hook before it left, whatever errors the hooks
return: the state it leaves is the one reached by running the hook registered
last first and the hook registered first last; the hooks it calls are, in order,
those at the indices `n - 1` down to 0 of the registered list, each once; and it
logs no timeout. -/
theorem C24_shutdown_runs_hooks_in_reverse {σ : Type}
    (fs : List (σ → Option GoError × σ)) (budget : Nat) (s : σ)
    (h : fs.length ≤ budget) :
    (registerAll fs).shutdownFunctions = fs ∧
    ((registerAll fs).GracefulShutdown budget s).1 = lastInFirstOut fs s ∧
    (∀ (gs : List (σ → Option GoError × σ)) (f g : σ → Option GoError × σ),
      fs = gs ++ [f, g] →
        ((registerAll fs).GracefulShutdown budget s).1 = lastInFirstOut gs (f (g s).2).2) ∧
    ((registerAll fs).GracefulShutdown budget s).2.filterMap ShutdownEvent.callIndex =
      (List.range fs.length).reverse ∧
    (∀ i, i < fs.length →
      (((registerAll fs).GracefulShutdown budget s).2.filterMap
        ShutdownEvent.callIndex).count i = 1) ∧
    ShutdownEvent.timedOut ∉ ((registerAll fs).GracefulShutdown budget s).2 := by
  have hl := shutdownLoop_calls fs fs.length (Nat.le_refl _) budget s [] h
  have hst := shutdownLoop_state fs fs.length (Nat.le_refl _) budget s [] h
  have hg : (registerAll fs).GracefulShutdown budget s =
      (shutdownLoop fs fs.length (Nat.le_refl _) budget (s, [])).1 := by
    rw [registerAll_eq, Application.GracefulShutdown]
    simp only
    rcases hr : shutdownLoop fs fs.length (Nat.le_refl _) budget (s, []) with ⟨st, b⟩
    rw [hr] at hl
    simp only at hl
    rw [hl.1]
  have hc : ((registerAll fs).GracefulShutdown budget s).2.filterMap ShutdownEvent.callIndex =
      (List.range fs.length).reverse := by
    rw [hg, hl.2.1]
    simp
  have hs : ((registerAll fs).GracefulShutdown budget s).1 = lastInFirstOut fs s := by
    rw [hg, hst, List.take_length]
  refine ⟨registerAll_functions fs, hs, ?_, hc, ?_, ?_⟩
  · intro gs f g hfs
    rw [hs, hfs]
    have : gs ++ [f, g] = (gs ++ [f]) ++ [g] := by simp
    rw [this, lastInFirstOut_append, lastInFirstOut_append]
  · intro i hi
    rw [hc, List.count_reverse]
    exact List.count_eq_one_of_mem (List.nodup_range _) (List.mem_range.2 hi)
  · rw [hg]
    exact hl.2.2 (by simp)

/-- Witness of C24: two hooks on a counter at 5, the first registered adding one,
the one registered last doubling it and returning an error; the last one runs
first and the other still runs, which leaves 11 (the other order would leave
12). -/
theorem C24_shutdown_runs_hooks_in_reverse_witness :
    mocks.shutdownHooks.length ≤ 2 ∧
    ((registerAll mocks.shutdownHooks).GracefulShutdown 2 5).2 =
      [.call 1, .warn (.new "close failed"), .call 0] ∧
    ((registerAll mocks.shutdownHooks).GracefulShutdown 2 5).1 = 11 ∧
    ((registerAll mocks.shutdownHooks).GracefulShutdown 2 5).2.filterMap
        ShutdownEvent.callIndex = (List.range mocks.shutdownHooks.length).reverse :=
  ⟨by decide, by decide,
   (C24_shutdown_runs_hooks_in_reverse mocks.shutdownHooks 2 5 (by decide)).2.1.trans
     (by decide),
   (C24_shutdown_runs_hooks_in_reverse mocks.shutdownHooks 2 5 (by decide)).2.2.2.1⟩

end internal

/-! ## Cancellation of a subscription -/

namespace service

open types pubsub

theorem step_blocked {σ : Type}
    (Unmarshal : List Byte → generated.SubscriptionResponse × Option GoError)
    (serv : SubscribeServer σ) (j : Joint σ) (res : SubscriptionPayload)
    (r : Option status.Status) (hl : j.loop = .sending res) (hb : j.bridge = .returned r)
    (a : Action) :
    (j.step Unmarshal serv a).loop = .sending res ∧
      (j.step Unmarshal serv a).bridge = .returned r := by
  cases a with
  | cancel => simp [Joint.step, Action.enabled, Joint.wake, hl, hb]
  | receive x => simp [Joint.step, Action.enabled, hl, hb]
  | select b => simp [Joint.step, Action.enabled, hl, hb]
  | park => simp [Joint.step, Action.enabled, hl, hb]

theorem run_blocked {σ : Type}
    (Unmarshal : List Byte → generated.SubscriptionResponse × Option GoError)
    (serv : SubscribeServer σ) (res : SubscriptionPayload) (r : Option status.Status) :
    ∀ (as : List Action) (j : Joint σ), j.loop = .sending res → j.bridge = .returned r →
      (j.run Unmarshal serv as).loop = .sending res ∧
        (j.run Unmarshal serv as).bridge = .returned r := by
  intro as
  induction as with
  | nil => intro j hl hb; exact ⟨hl, hb⟩
  | cons a as ih =>
    intro j hl hb
    have h := step_blocked Unmarshal serv j res r hl hb a
    exact ih _ h.1 h.2

/-- Claim C25, evaluated at two interleavings.  When the context is cancelled
while the delivery goroutine is blocked handing an event to the bridge and the
bridge takes the cancellation, the bridge returns nil but the goroutine stays
blocked in its send whatever happens afterwards, so it never stops and never closes
its channel.  When the goroutine sees the cancellation first and closes the
channel, the bridge can take the closed channel and return the status Internal.
When the cancellation finds the bridge parked in its `select` and the goroutine
in its receive, both stop as described. -/
theorem C25_cancel_during_hand_over :
    Joint.allows mocks.Unmarshal (mocks.SubscribeServer none) (Joint.start 0)
        mocks.cancelDuringHandOver = true ∧
    ((Joint.start 0).run mocks.Unmarshal (mocks.SubscribeServer none)
        mocks.cancelDuringHandOver).cancelled = true ∧
    ((Joint.start 0).run mocks.Unmarshal (mocks.SubscribeServer none)
        mocks.cancelDuringHandOver).bridge = .returned none ∧
    (∀ as : List Action,
      ((Joint.start 0).run mocks.Unmarshal (mocks.SubscribeServer none)
          (mocks.cancelDuringHandOver ++ as)).loop = .sending mocks.result ∧
      ((Joint.start 0).run mocks.Unmarshal (mocks.SubscribeServer none)
          (mocks.cancelDuringHandOver ++ as)).chan ≠ .closed) ∧
    Joint.allows mocks.Unmarshal (mocks.SubscribeServer none) (Joint.start 0)
        mocks.closeBeforeSelect = true ∧
    ((Joint.start 0).run mocks.Unmarshal (mocks.SubscribeServer none)
        mocks.closeBeforeSelect).bridge =
      .returned (status.Error .Internal "subscription channel closed") ∧
    Joint.allows mocks.Unmarshal (mocks.SubscribeServer none) (Joint.start 0)
        mocks.cancelWhileIdle = true ∧
    ((Joint.start 0).run mocks.Unmarshal (mocks.SubscribeServer none)
        mocks.cancelWhileIdle).loop = .returned ∧
    ((Joint.start 0).run mocks.Unmarshal (mocks.SubscribeServer none)
        mocks.cancelWhileIdle).bridge = .returned none := by
  refine ⟨by decide, by decide, by decide, ?_, by decide, by decide, by decide, by decide,
    by decide⟩
  intro as
  have h0 : ((Joint.start 0).run mocks.Unmarshal (mocks.SubscribeServer none)
      mocks.cancelDuringHandOver).loop = .sending mocks.result := by decide
  have h1 : ((Joint.start 0).run mocks.Unmarshal (mocks.SubscribeServer none)
      mocks.cancelDuringHandOver).bridge = .returned none := by decide
  have h := run_blocked mocks.Unmarshal (mocks.SubscribeServer none) mocks.result none as _ h0 h1
  have hr : (Joint.start 0).run mocks.Unmarshal (mocks.SubscribeServer none)
      (mocks.cancelDuringHandOver ++ as) =
      (((Joint.start 0).run mocks.Unmarshal (mocks.SubscribeServer none)
        mocks.cancelDuringHandOver).run mocks.Unmarshal (mocks.SubscribeServer none) as) := by
    simp [Joint.run, List.foldl_append]
  rw [hr]
  refine ⟨h.1, ?_⟩
  rw [Joint.chan, h.1]
  simp

end service

/-! ## The filter document -/

namespace repository

open types uuid

theorem IsZero_allocated {T : Type} (heap : Nat) (p : Pointer T) (h : p.addr < heap) :
    IsZero heap (some p) = false := by
  simp only [IsZero, decide_eq_false_iff_not]
  omega

theorem IsZeroField_eq {T : Type} (v : Option T) : IsZeroField v = v.isNone := by
  cases v <;> simp [IsZeroField, fieldPointer, IsZero]

/-- What holds of the keys of the filter document: the empty filter gives the empty
document, the filter of the test with all eight fields set gives eight keys, and a
time filter with both bounds gives the entries `$lt` and `$gt`. -/
theorem userFilterToMongoFilter_test :
    userFilterToMongoFilter mocks.emptyFilter = [] ∧
    (userFilterToMongoFilter mocks.fullFilter).map Prod.fst =
      ["_id", "country", "first_name", "last_name", "nickname", "email", "created_at",
        "updated_at"] ∧
    ∀ b a : Time, timeCriteriaToMongo ⟨some b, some a⟩ =
      some [("$lt", .timePtr (some b)), ("$gt", .timePtr (some a))] := by
  refine ⟨by decide, by decide, ?_⟩
  intro b a
  simp [timeCriteriaToMongo, IsZeroField_eq, mapSet]

/-- Claim C26, evaluated at a filter whose `Created` points to a time filter
without a bound: `userFilterToMongoFilter` produces the key `created_at`, with the
nil map as its condition, although the time filter has no bound; the same filter
with `Updated` gives the key `updated_at`. -/
theorem C26_unbounded_time_filter_gets_key :
    hasBound mocks.unboundedCreatedFilter.Created = false ∧
    userFilterToMongoFilter mocks.unboundedCreatedFilter = [("created_at", .M none)] ∧
    userFilterToMongoFilter { mocks.emptyFilter with Updated := some ⟨none, none⟩ } =
      [("updated_at", .M none)] := by
  refine ⟨by decide, by decide, by decide⟩

/-- Claim C27, evaluated at non-nil pointers to a zero value: `IsZero` returns
false for every pointer to an allocated variable, whatever it holds, so also for a
pointer to an empty `TimeFilter`, where the test its comment describes (nil, or
pointing to the zero value) is true. -/
theorem C27_IsZero_compares_pointers :
    (∀ (T : Type) (a k : Nat) (x : T), IsZero (a + k + 1) (some ⟨a, x⟩) = false) ∧
    IsZero 1 (some ⟨0, (⟨none, none⟩ : TimeFilter)⟩) = false ∧
    isNilOrZeroValue (⟨none, none⟩ : TimeFilter) (some ⟨0, ⟨none, none⟩⟩) = true ∧
    IsZeroField (some (⟨none, none⟩ : TimeFilter)) = false ∧
    (∀ (T : Type) (heap : Nat), IsZero heap (none : Option (Pointer T)) = true) := by
  refine ⟨?_, by decide, by decide, by decide, ?_⟩
  · intro T a k x
    simp only [IsZero, decide_eq_false_iff_not]
    omega
  · intro T heap
    rfl

/-- Claim C28, evaluated at a filter with two ids and two countries: the condition
under `_id` is the struct `bson.E` with the fields `Key` and `Value`, which is
written as a document with the keys `key` and `value`; the condition under
`country` is a `bson.D` with the single key `$in`. -/
theorem C28_ids_condition_is_struct :
    mapGet (userFilterToMongoFilter mocks.twoIdsFilter) "_id" =
      some (.E "$in" (.uuids [mocks.NewUser.Id, uuid.Nil])) ∧
    (mapGet (userFilterToMongoFilter mocks.twoIdsFilter) "_id").bind
      FilterValue.documentKeys = some ["key", "value"] ∧
    mapGet (userFilterToMongoFilter mocks.twoIdsFilter) "country" =
      some (.D [("$in", .strings ["UK", "SE"])]) ∧
    (mapGet (userFilterToMongoFilter mocks.twoIdsFilter) "country").bind
      FilterValue.documentKeys = some ["$in"] ∧
    mapGet (userFilterToMongoFilter { mocks.emptyFilter with Ids := [mocks.NewUser.Id] }) "_id" =
      some (.leaf (.uuid mocks.NewUser.Id)) := by
  refine ⟨by decide, by decide, by decide, by decide, by decide⟩

end repository

/-! ## Listing without paging, adding without user -/

namespace service

open types uuid internal

theorem List_limit_zero {σ : Type} (us : domain.userService σ) (now : Time) (rnd : UUID)
    (apply : Option generated.FieldMask → Option generated.User →
      UpdateUserFields × Option GoError)
    (req : generated.ListUsersRequest) (filters : UserFilter) (s : σ)
    (log : List domain.Call) (hf : UserFilterFromProto req.Filters = (filters, none))
    (hl : (PagingFromProto req.Paging).Limit = 0) :
    (usersGrpc.List ⟨domain.asUserService us now rnd, apply⟩ req (s, log)).ret =
        (some ⟨[], some ⟨0⟩⟩, none) ∧
      (usersGrpc.List ⟨domain.asUserService us now rnd, apply⟩ req (s, log)).st = (s, log) := by
  simp [usersGrpc.List, hf, domain.asUserService, domain.userService.List, hl]

/-- Claim C29: `PagingFromProto(nil)` is the zero `Paging`, and a gRPC List
request without paging message, or with one of limit 0, and with a valid filter
returns over the domain service a response with no users and count 0, leaving the
repository and the log of the calls made to it as they were. -/
theorem C29_list_without_paging {σ : Type} (us : domain.userService σ) (now : Time)
    (rnd : UUID)
    (apply : Option generated.FieldMask → Option generated.User →
      UpdateUserFields × Option GoError)
    (req : generated.ListUsersRequest) (filters : UserFilter) (s : σ)
    (log : List domain.Call) (hf : UserFilterFromProto req.Filters = (filters, none))
    (hp : req.Paging = none ∨ ∃ p, req.Paging = some p ∧ p.Limit = 0) :
    PagingFromProto none = ⟨0, 0⟩ ∧
    (usersGrpc.List ⟨domain.asUserService us now rnd, apply⟩ req (s, log)).ret =
      (some ⟨[], some ⟨0⟩⟩, none) ∧
    (usersGrpc.List ⟨domain.asUserService us now rnd, apply⟩ req (s, log)).st = (s, log) ∧
    (∀ c ∈ (usersGrpc.List ⟨domain.asUserService us now rnd, apply⟩ req (s, log)).st.2,
      c ∈ log) := by
  have hl : (PagingFromProto req.Paging).Limit = 0 := by
    rcases hp with hp | ⟨p, hp, h0⟩
    · rw [hp]; rfl
    · rw [hp]; exact h0
  have h := List_limit_zero us now rnd apply req filters s log hf hl
  refine ⟨rfl, h.1, h.2, ?_⟩
  rw [h.2]
  intro c hc
  exact hc

/-- Witness of C29: a List request with the empty filter and no paging, over a
repository that would answer. -/
theorem C29_list_without_paging_witness :
    UserFilterFromProto (some ⟨[], none, none, none, none, [], none, none⟩) =
      (mocks.emptyFilter, none) ∧
    (usersGrpc.List ⟨domain.asUserService (mocks.userService none none) 0 uuid.Nil,
        fun _ _ => (mocks.emptyFields, none)⟩
      ⟨none, some ⟨[], none, none, none, none, [], none, none⟩⟩ (0, [])).ret =
      (some ⟨[], some ⟨0⟩⟩, none) :=
  ⟨by decide,
   (C29_list_without_paging (mocks.userService none none) 0 uuid.Nil
      (fun _ _ => (mocks.emptyFields, none))
      ⟨none, some ⟨[], none, none, none, none, [], none, none⟩⟩ mocks.emptyFilter 0 []
      (by decide) (Or.inl rfl)).2.1⟩

/-- Claim C30, evaluated at the absent user: `UserFromProto` on a nil message
dereferences it (`u.CreatedAt`) and panics, so `usersGrpc.Add` on a request
without user panics instead of returning a response or a status; on every message
that is present `UserFromProto` returns a user, with no error or with
`ErrInvalidUserId`. -/
theorem C30_add_without_user_panics :
    UserFromProto none = none ∧
    (∀ (σ : Type) (u : usersGrpc σ) (s : σ), (u.Add ⟨none⟩ s).ret = none) ∧
    (∀ m : generated.User, ∃ user err, UserFromProto (some m) = some (user, err) ∧
      (err = none ∨ err = some ErrInvalidUserId)) := by
  refine ⟨rfl, fun σ u s => rfl, ?_⟩
  intro m
  simp only [UserFromProto]
  by_cases hid : m.Id = ""
  · cases hu : m.UpdatedAt <;> simp only [hid, ne_eq, not_true_eq_false, if_false] <;>
      exact ⟨_, _, rfl, Or.inl rfl⟩
  · rcases hp : uuid.Parse m.Id with e | id
    · simp only [hid, ne_eq, not_false_eq_true, if_true]
      exact ⟨_, _, rfl, Or.inr rfl⟩
    · cases hu : m.UpdatedAt <;> simp only [hid, ne_eq, not_false_eq_true, if_true] <;>
        exact ⟨_, _, rfl, Or.inl rfl⟩

end service

namespace repository

open types uuid

theorem mapSet_keys {V : Type} (m : List (String × V)) (k : String) (v : V)
    (h : k ∉ m.map Prod.fst) : (mapSet m k v).map Prod.fst = m.map Prod.fst ++ [k] := by
  have hany : m.any (fun e => e.1 == k) = false := by
    rw [Bool.eq_false_iff]
    intro ha
    rw [List.any_eq_true] at ha
    obtain ⟨e, he, hk⟩ := ha
    exact h (List.mem_map.2 ⟨e, he, by simpa using hk⟩)
  simp [mapSet, hany]

theorem mapSet_keys_if {V : Type} (c : Prop) [Decidable c] (m : List (String × V))
    (k : String) (v : V) (h : k ∉ m.map Prod.fst) :
    (if c then m else mapSet m k v).map Prod.fst =
      m.map Prod.fst ++ (if c then [] else [k]) := by
  split
  · simp
  · exact mapSet_keys m k v h

/-- The keys of the filter document, for every filter: each of the six plain
fields gives its key exactly when it is set, and a time filter gives its key
exactly when its pointer is not nil. -/
theorem userFilterToMongoFilter_keys (f : UserFilter) :
    (userFilterToMongoFilter f).map Prod.fst =
      (if f.Ids = [] then [] else ["_id"]) ++
      (if f.Countries = [] then [] else ["country"]) ++
      (if f.FirstName = "" then [] else ["first_name"]) ++
      (if f.LastName = "" then [] else ["last_name"]) ++
      (if f.Nickname = "" then [] else ["nickname"]) ++
      (if f.Email = "" then [] else ["email"]) ++
      (if f.Created = none then [] else ["created_at"]) ++
      (if f.Updated = none then [] else ["updated_at"]) := by
  obtain ⟨ids, fn, ln, nn, em, cs, cr, up⟩ := f
  have e1 : ∀ r1 : List (String × FilterValue),
      r1 = (match ids with
        | [] => []
        | [id] => mapSet [] "_id" (.leaf (.uuid id))
        | _ :: _ :: _ => mapSet [] "_id" (.E "$in" (.uuids ids))) →
      r1.map Prod.fst = (if ids = [] then [] else ["_id"]) := by
    intro r1 h
    rw [h]
    rcases ids with _ | ⟨i1, _ | ⟨i2, ir⟩⟩ <;> simp [mapSet]
  have e2 : ∀ r1 r2 : List (String × FilterValue), "country" ∉ r1.map Prod.fst →
      r2 = (match cs with
        | [] => r1
        | [c] => mapSet r1 "country" (.leaf (.string c))
        | _ :: _ :: _ => mapSet r1 "country" (.D [("$in", .strings cs)])) →
      r2.map Prod.fst = r1.map Prod.fst ++ (if cs = [] then [] else ["country"]) := by
    intro r1 r2 hn h
    rw [h]
    rcases cs with _ | ⟨c1, _ | ⟨c2, cr2⟩⟩
    · simp
    · simpa using mapSet_keys r1 "country" _ hn
    · simpa using mapSet_keys r1 "country" _ hn
  have e7 : ∀ (k : String) (t : Option TimeFilter) (r r2 : List (String × FilterValue)),
      k ∉ r.map Prod.fst →
      r2 = (if (!IsZeroField t) = true then
          match t with
          | some x => mapSet r k (.M (timeCriteriaToMongo x))
          | none => r
        else r) →
      r2.map Prod.fst = r.map Prod.fst ++ (if t = none then [] else [k]) := by
    intro k t r r2 hn h
    rw [h]
    cases t with
    | none => simp [IsZeroField_eq]
    | some x => simpa [IsZeroField_eq] using mapSet_keys r k _ hn
  have k1 := e1 _ rfl
  have k2 := e2 _ _ (by rw [k1]; split <;> decide) rfl
  rw [k1] at k2
  have k3 := mapSet_keys_if (fn = "") _ "first_name" (FilterValue.leaf (.string fn))
    (by rw [k2]; split <;> split <;> decide)
  rw [k2] at k3
  have k4 := mapSet_keys_if (ln = "") _ "last_name" (FilterValue.leaf (.string ln))
    (by rw [k3]; split <;> split <;> split <;> decide)
  rw [k3] at k4
  have k5 := mapSet_keys_if (nn = "") _ "nickname" (FilterValue.leaf (.string nn))
    (by rw [k4]; split <;> split <;> split <;> split <;> decide)
  rw [k4] at k5
  have k6 := mapSet_keys_if (em = "") _ "email" (FilterValue.leaf (.string em))
    (by rw [k5]; split <;> split <;> split <;> split <;> split <;> decide)
  rw [k5] at k6
  have k7 := e7 "created_at" cr _ _
    (by rw [k6]; split <;> split <;> split <;> split <;> split <;> split <;> decide) rfl
  rw [k6] at k7
  have k8 := e7 "updated_at" up _ _
    (by rw [k7]; split <;> split <;> split <;> split <;> split <;> split <;> split <;> decide)
    rfl
  rw [k7] at k8
  rw [← k8]
  simp only [userFilterToMongoFilter, ne_eq, ite_not]

end repository

end UsersMicroservice
